import Mathlib

/-!
# The coin-mixing session coordinator

A shallow embedding of `src/privatesend-server.cpp` (class `CPrivateSendServer`).

* The server object is a record; every member function is a function from the
  record before the call to the record after it (plus the returned value and
  the value left in a by-reference out-parameter).
* Everything the coordinator does to its surroundings (messages pushed to
  peers, calls into the transaction-admission pipeline, relays) is appended
  to the field `effects`, oldest first.
* What the surroundings answer during one call (clock, random draws, the
  admission pipeline, chain lookup, try-locks, connected peers) is the record
  `Env`; build constants and pure library predicates are the record `Params`.
* `CAmount` and the other C++ integers are unbounded `Int`: the only sums the
  coordinator forms are `int64_t` sums of at most a handful of amounts, and a
  signed overflow has no defined behaviour in the source language.
-/

namespace PrivateSend

/-! ## Transactions -/

/-- Script bytes (`CScript`). -/
abbrev CScript := List Nat

/-- Amount in base units (`CAmount`, an `int64_t`). -/
abbrev CAmount := Int

/-- Reference to an output of an earlier transaction (`COutPoint`). -/
structure COutPoint where
  hash : Nat
  n : Nat
deriving DecidableEq, Repr

/-- Transaction input (`CTxIn`); `prevPubKey` is the memory-only cached locking script. -/
structure CTxIn where
  prevout : COutPoint
  scriptSig : CScript
  nSequence : Nat
  prevPubKey : CScript
deriving DecidableEq, Repr

/-- Transaction output (`CTxOut`). -/
structure CTxOut where
  nValue : CAmount
  scriptPubKey : CScript
deriving DecidableEq, Repr

/-- Mixing input (`CTxPSIn : public CTxIn`). -/
structure CTxPSIn extends CTxIn where
  fHasSig : Bool
  nSentTimes : Int
deriving DecidableEq, Repr

/-- Mixing output (`CTxPSOut : public CTxOut`). -/
structure CTxPSOut extends CTxOut where
  nSentTimes : Int
deriving DecidableEq, Repr

/-- Transaction (`CTransaction`). -/
structure CTransaction where
  nVersion : Int
  vin : List CTxIn
  vout : List CTxOut
  nLockTime : Nat
deriving DecidableEq, Repr

/-- In the embedding `CMutableTransaction` has the same fields as `CTransaction`. -/
abbrev CMutableTransaction := CTransaction

/-- One participant's contribution (`CPrivateSendEntry`). -/
structure CPrivateSendEntry where
  vecTxPSIn : List CTxPSIn
  vecTxPSOut : List CTxPSOut
  txCollateral : CTransaction
deriving DecidableEq, Repr

/-! ## Enumerations -/

/-- The enumeration `PoolState`. -/
inductive PoolState
  | POOL_STATE_IDLE
  | POOL_STATE_QUEUE
  | POOL_STATE_ACCEPTING_ENTRIES
  | POOL_STATE_SIGNING
  | POOL_STATE_ERROR
  | POOL_STATE_SUCCESS
deriving DecidableEq, Repr

/-- The enumeration `PoolMessage` (outcome codes). -/
inductive PoolMessage
  | ERR_ALREADY_HAVE
  | ERR_DENOM
  | ERR_ENTRIES_FULL
  | ERR_EXISTING_TX
  | ERR_FEES
  | ERR_INVALID_COLLATERAL
  | ERR_INVALID_INPUT
  | ERR_INVALID_SCRIPT
  | ERR_INVALID_TX
  | ERR_MAXIMUM
  | ERR_DN_LIST
  | ERR_MODE
  | ERR_NON_STANDARD_PUBKEY
  | ERR_NOT_A_DN
  | ERR_QUEUE_FULL
  | ERR_RECENT
  | ERR_SESSION
  | ERR_MISSING_TX
  | ERR_VERSION
  | MSG_NOERR
  | MSG_SUCCESS
  | MSG_ENTRIES_ADDED
deriving DecidableEq, Repr

/-- The enumeration `PoolStatusUpdate`. -/
inductive PoolStatusUpdate
  | STATUS_REJECTED
  | STATUS_ACCEPTED
deriving DecidableEq, Repr

open PoolState PoolMessage PoolStatusUpdate

/-! ## Collaborators -/

/-- A connected peer (`CNode`): an identity and its protocol version. -/
structure CNode where
  id : Nat
  nVersion : Int
deriving DecidableEq, Repr

/-- Queue announcement (`CPrivatesendQueue`). -/
structure CPrivatesendQueue where
  nDenom : Int
  vin : CTxIn
  nTime : Int
  fReady : Bool
  vchSig : List Nat
deriving DecidableEq, Repr

/-- Registry record of a facilitator (`CDynode`), as far as the coordinator reads or writes it. -/
structure CDynode where
  vin : CTxIn
  pubKeyDynode : Nat
  nLastPsq : Int
  fAllowMixingTx : Bool
deriving DecidableEq, Repr

/-- Facilitator attestation over a mixing transaction (`CPrivatesendBroadcastTx`). -/
structure CPrivatesendBroadcastTx where
  tx : CTransaction
  vin : CTxIn
  sigTime : Int
  vchSig : List Nat
deriving DecidableEq, Repr

/-- Typed messages the coordinator pushes to a peer. -/
inductive NetMsg
  | PSSTATUSUPDATE (nSessionID : Int) (nState : PoolState) (nEntriesCount : Int)
      (nStatusUpdate : PoolStatusUpdate) (nMessageID : PoolMessage)
  | PSFINALTX (nSessionID : Int) (txFinal : CTransaction)
  | PSCOMPLETE (nSessionID : Int) (nMessageID : PoolMessage)
deriving DecidableEq, Repr

/-- What the coordinator does to its surroundings, in the order it does it. -/
inductive Effect
  | PushMessage (pnode : CNode) (msg : NetMsg)
  | PrioritiseTransaction (hashTx : Nat)
  | AcceptToMemoryPool (tx : CTransaction) (fAccepted : Bool)
  | RelayTransaction (tx : CTransaction)
  | RelayInv (hashTx : Nat)
  | RelayQueue (psq : CPrivatesendQueue)
  | AskForDN (pnode : CNode) (vin : CTxIn)
deriving DecidableEq, Repr

/-- Build constants and pure predicates declared outside `privatesend-server.cpp`. -/
structure Params where
  /-- The global `fDyNode`: this node holds the facilitator role. -/
  fDyNode : Bool
  /-- The global `fLiteMode`. -/
  fLiteMode : Bool
  /-- The member `fUnitTest`. -/
  fUnitTest : Bool
  MIN_PRIVATESEND_PEER_PROTO_VERSION : Int
  PRIVATESEND_ENTRY_MAX_SIZE : Nat
  PRIVATESEND_QUEUE_TIMEOUT : Int
  PRIVATESEND_SIGNING_TIMEOUT : Int
  /-- The value of `CPrivateSend::GetMaxPoolTransactions()`. -/
  GetMaxPoolTransactions : Nat
  /-- The value of `Params().PoolMaxTransactions()`. -/
  PoolMaxTransactions : Int
  /-- The version a default-constructed `CMutableTransaction` carries. -/
  CURRENT_VERSION : Int
  /-- The method `COutPoint::IsNull`. -/
  IsNull : COutPoint → Bool
  /-- The function `CPrivateSend::GetDenominations` (0: not classifiable). -/
  GetDenominations : List CTxPSOut → Int
  /-- The function `CPrivateSend::GetDenominationsBits` (true: `nDenom` is recognised). -/
  GetDenominationsBits : Int → Bool
  /-- The method `CScript::IsNormalPaymentScript`. -/
  IsNormalPaymentScript : CScript → Bool
  /-- The function `VerifyScript(scriptSig, scriptPubKey, flags, checker(&tx, nIn))`. -/
  VerifyScript : CScript → CScript → CMutableTransaction → Nat → Bool
  /-- The method `CTransaction::GetHash`. -/
  GetHash : CTransaction → Nat
  /-- The value of `activeDynode.vin`, this node's identity. -/
  activeDynodeVin : CTxIn
  /-- The signature `CPrivatesendQueue::Sign` leaves in `vchSig`. -/
  SignQueue : CPrivatesendQueue → List Nat
  /-- The method `CPrivatesendQueue::CheckSignature(pubKeyDynode)`. -/
  CheckSignature : CPrivatesendQueue → Nat → Bool
  /-- The signature `CPrivatesendBroadcastTx::Sign` leaves in `vchSig`. -/
  SignBroadcastTx : CTransaction → CTxIn → Int → List Nat
  /-- What a reset leaves in `nTimeLastSuccessfulStep`, from the clock and the old value. -/
  ResetStepTime : Int → Int → Int

/-- What the surroundings answer during one call into the coordinator. -/
structure Env where
  /-- The value of `GetTimeMillis()`. -/
  GetTimeMillis : Int
  /-- The value of `GetTime()`, in seconds. -/
  GetTime : Int
  /-- The value of `GetAdjustedTime()`. -/
  GetAdjustedTime : Int
  /-- Raw random draws, consumed front to back. -/
  rand : List Nat
  /-- Result of `dynodeSync.IsBlockchainSynced()`. -/
  IsBlockchainSynced : Bool
  /-- Result of `TRY_LOCK(cs_privatesend, ...)`. -/
  lockPS : Bool
  /-- Result of `TRY_LOCK(cs_main, ...)`. -/
  lockMain : Bool
  /-- The connected peers `vNodes`. -/
  vNodes : List CNode
  /-- Result of `dnodeman.CountEnabled(MIN_PRIVATESEND_PEER_PROTO_VERSION)`. -/
  CountEnabled : Int
  /-- Verdict of the admission pipeline on a transaction, given all that was done before. -/
  mempoolAccepts : List Effect → CTransaction → Bool
  /-- Result of `CPrivateSend::IsCollateralValid`. -/
  IsCollateralValid : CTransaction → Bool
  /-- Chain lookup `GetTransaction(hash, txPrev, ...)`: the transaction, when found. -/
  GetTransaction : Nat → Option CTransaction

/-! ## The server object -/

/-- The object `privateSendServer` (fields of `CPrivateSendBase` and
`CPrivateSendServer`), followed by the collaborator state it reads and writes
(`dnodeman`, the attestation map) and by the trace of its effects. -/
structure CPrivateSendServer where
  vecEntries : List CPrivateSendEntry
  nState : PoolState
  nTimeLastSuccessfulStep : Int
  nSessionID : Int
  finalMutableTransaction : CMutableTransaction
  nSessionDenom : Int
  vecPrivatesendQueue : List CPrivatesendQueue
  vecSessionCollaterals : List CTransaction
  /-- The counter `dnodeman.nPsqCount`. -/
  nPsqCount : Int
  /-- The registry `dnodeman`. -/
  vDynodes : List CDynode
  /-- The map `mapPSTX` of `CPrivateSend`. -/
  mapPSTX : List CPrivatesendBroadcastTx
  effects : List Effect
deriving DecidableEq, Repr

/-! ## Helpers declared in the headers -/

/-- The call `GetRandInt(nMax)`: the next draw reduced to `0 .. nMax - 1`, and the draws left. -/
def GetRandInt (nMax : Nat) : List Nat → Nat × List Nat
  | [] => (0, [])
  | r :: rest => (r % nMax, rest)

/-- The call `std::sort(first, last, comp)` with a strict comparator: an
insertion sort that keeps elements the comparator does not separate in their
original order. -/
def sort {α : Type} (comp : α → α → Bool) (l : List α) : List α :=
  List.insertionSort (fun a b => comp b a = false) l

/-- Modelled from the spec: the comparator `CompareInputBIP69` is declared in
`privatesend.h`, which is not among the sources; the spec orders inputs "by
previous-output identity" (transaction hash, then output index). -/
def CompareInputBIP69 (a b : CTxIn) : Bool :=
  decide (a.prevout.hash < b.prevout.hash) ||
    (a.prevout.hash == b.prevout.hash && decide (a.prevout.n < b.prevout.n))

/-- Modelled from the spec: the comparator `CompareOutputBIP69` is declared in
`privatesend.h`, which is not among the sources; the spec orders outputs "by
value then locking-script bytes". -/
def CompareOutputBIP69 (a b : CTxOut) : Bool :=
  decide (a.nValue < b.nValue) ||
    (a.nValue == b.nValue && decide (a.scriptPubKey < b.scriptPubKey))

/-- The accessor `GetEntriesCount()`, the size of `vecEntries`. -/
def GetEntriesCount (s : CPrivateSendServer) : Nat := s.vecEntries.length

/-- Modelled from the spec: `IsSessionReady` is defined in `privatesend-server.h`,
which is not among the sources; per the spec the session is ready "when enough
participants have joined to fill the round", that is when the pledged
collaterals number at least the maximum round size. -/
def IsSessionReady (P : Params) (s : CPrivateSendServer) : Bool :=
  decide (P.GetMaxPoolTransactions ≤ s.vecSessionCollaterals.length)

/-- A default-constructed `CMutableTransaction`. -/
def emptyTransaction (P : Params) : CMutableTransaction :=
  { nVersion := P.CURRENT_VERSION, vin := [], vout := [], nLockTime := 0 }

/-- Modelled from the spec: `CPrivateSendBase::SetNull` is defined in
`privatesend.cpp`, which is not among the sources; per the spec a reset clears
the session fields (entries, session id, denomination, joint transaction) and
puts the state back to `Idle`. The spec does not say what a reset leaves in
`last_progress_time`: that is `Params.ResetStepTime`. -/
def CPrivateSendBase_SetNull (P : Params) (E : Env) (s : CPrivateSendServer) :
    CPrivateSendServer :=
  { s with
    nState := POOL_STATE_IDLE
    nSessionID := 0
    nSessionDenom := 0
    vecEntries := []
    finalMutableTransaction := emptyTransaction P
    nTimeLastSuccessfulStep := P.ResetStepTime E.GetTimeMillis s.nTimeLastSuccessfulStep }

/-- Modelled from the spec: `CPrivateSendEntry::AddScriptSig` is defined in
`privatesend.cpp`, which is not among the sources; per the spec a signature is
rejected "if a signature for that exact input already exists", and otherwise
recorded in the per-entry record. The input is found the way the server finds
it in the joint transaction (same previous output, same sequence number). -/
def CPrivateSendEntry_AddScriptSig (txin : CTxIn) :
    List CTxPSIn → Bool × List CTxPSIn
  | [] => (false, [])
  | txpsin :: rest =>
    if txpsin.prevout = txin.prevout ∧ txpsin.nSequence = txin.nSequence then
      if txpsin.fHasSig then (false, txpsin :: rest)
      else (true, { txpsin with scriptSig := txin.scriptSig, fHasSig := true } :: rest)
    else
      let r := CPrivateSendEntry_AddScriptSig txin rest
      (r.1, txpsin :: r.2)

/-- Modelled from the spec: `CPrivatesendQueue::IsExpired` is defined in
`privatesend.h`, which is not among the sources; per the spec an announcement
is expired when `now > timestamp + expiry_window`. -/
def CPrivatesendQueue_IsExpired (P : Params) (E : Env) (psq : CPrivatesendQueue) : Bool :=
  decide (E.GetTime > psq.nTime + P.PRIVATESEND_QUEUE_TIMEOUT)

/-- Modelled from the spec: `CDynodeMan::Find` is defined in `dynodeman.cpp`,
which is not among the sources; the registry is searched for the record of
the given identity. -/
def dnodeman_Find (vin : CTxIn) (s : CPrivateSendServer) : Option CDynode :=
  s.vDynodes.find? (fun dn => dn.vin.prevout == vin.prevout)

/-- Writes through the pointer `dnodeman.Find` returned: the first registry
record of the given identity is replaced. -/
def dnodeman_Update (vin : CTxIn) (f : CDynode → CDynode) : List CDynode → List CDynode
  | [] => []
  | dn :: rest =>
    if dn.vin.prevout == vin.prevout then f dn :: rest
    else dn :: dnodeman_Update vin f rest

/-- Modelled from the spec: `CPrivateSend::GetPSTX` is defined in
`privatesend.cpp`, which is not among the sources; it tells whether an
attestation record exists for the transaction hash. -/
def GetPSTX (P : Params) (hashTx : Nat) (s : CPrivateSendServer) : Bool :=
  s.mapPSTX.any (fun pstx => P.GetHash pstx.tx == hashTx)

/-- Modelled from the spec: `CPrivateSend::AddPSTX` is defined in
`privatesend.cpp`, which is not among the sources; it stores the attestation
record under the hash of its transaction (a hash already present keeps its
record). -/
def AddPSTX (P : Params) (pstx : CPrivatesendBroadcastTx) (s : CPrivateSendServer) :
    CPrivateSendServer :=
  if GetPSTX P (P.GetHash pstx.tx) s then s
  else { s with mapPSTX := s.mapPSTX ++ [pstx] }

/-- Appends one effect to the trace. -/
def emit (e : Effect) (s : CPrivateSendServer) : CPrivateSendServer :=
  { s with effects := s.effects ++ [e] }

/-- The call `AcceptToMemoryPool(mempool, state, tx, ...)`: the verdict, and the trace with the call recorded. -/
def AcceptToMemoryPool (E : Env) (tx : CTransaction) (s : CPrivateSendServer) :
    Bool × CPrivateSendServer :=
  (E.mempoolAccepts s.effects tx,
    emit (Effect.AcceptToMemoryPool tx (E.mempoolAccepts s.effects tx)) s)

/-- The announcement `CPrivatesendQueue psq(nDenom, activeDynode.vin, GetTime(), fReady)`
after `psq.Sign()`. -/
def signedQueue (P : Params) (E : Env) (nDenom : Int) (fReady : Bool) : CPrivatesendQueue :=
  { nDenom := nDenom, vin := P.activeDynodeVin, nTime := E.GetTime, fReady := fReady,
    vchSig := P.SignQueue
      { nDenom := nDenom, vin := P.activeDynodeVin, nTime := E.GetTime, fReady := fReady,
        vchSig := [] } }

/-! ## privatesend-server.cpp -/

/-- Source: `CPrivateSendServer::SetState`. -/
def SetState (P : Params) (nStateNew : PoolState) (s : CPrivateSendServer) :
    CPrivateSendServer :=
  if P.fDyNode && (nStateNew == POOL_STATE_ERROR || nStateNew == POOL_STATE_SUCCESS) then s
  else { s with nState := nStateNew }

/-- Source: `CPrivateSendServer::SetNull`. -/
def SetNull (P : Params) (E : Env) (s : CPrivateSendServer) : CPrivateSendServer :=
  CPrivateSendBase_SetNull P E { s with vecSessionCollaterals := [] }

/-- Source: `CPrivateSendServer::PushStatus` (the peer pointer is never null here). -/
def PushStatus (pnode : CNode) (nStatusUpdate : PoolStatusUpdate) (nMessageID : PoolMessage)
    (s : CPrivateSendServer) : CPrivateSendServer :=
  emit (Effect.PushMessage pnode
    (NetMsg.PSSTATUSUPDATE s.nSessionID s.nState (s.vecEntries.length : Int)
      nStatusUpdate nMessageID)) s

/-- The peers of `vNodes` a relay reaches: those at or above the minimum version. -/
def relayPeers (P : Params) (E : Env) : List CNode :=
  E.vNodes.filter (fun pnode => decide (P.MIN_PRIVATESEND_PEER_PROTO_VERSION ≤ pnode.nVersion))

/-- Source: `CPrivateSendServer::RelayStatus`. -/
def RelayStatus (P : Params) (E : Env) (nStatusUpdate : PoolStatusUpdate)
    (nMessageID : PoolMessage) (s : CPrivateSendServer) : CPrivateSendServer :=
  (relayPeers P E).foldl (fun acc pnode => PushStatus pnode nStatusUpdate nMessageID acc) s

/-- Source: `CPrivateSendServer::RelayFinalTransaction`. -/
def RelayFinalTransaction (P : Params) (E : Env) (txFinal : CTransaction)
    (s : CPrivateSendServer) : CPrivateSendServer :=
  (relayPeers P E).foldl
    (fun acc pnode => emit (Effect.PushMessage pnode (NetMsg.PSFINALTX acc.nSessionID txFinal)) acc) s

/-- Source: `CPrivateSendServer::RelayCompletedTransaction`. -/
def RelayCompletedTransaction (P : Params) (E : Env) (nMessageID : PoolMessage)
    (s : CPrivateSendServer) : CPrivateSendServer :=
  (relayPeers P E).foldl
    (fun acc pnode => emit (Effect.PushMessage pnode (NetMsg.PSCOMPLETE acc.nSessionID nMessageID)) acc) s

/-- Source: `CPrivateSendServer::IsSignaturesComplete`. -/
def IsSignaturesComplete (s : CPrivateSendServer) : Bool :=
  s.vecEntries.all (fun entry => entry.vecTxPSIn.all (fun txpsin => txpsin.fHasSig))

/-- Source: `CPrivateSendServer::IsOutputsCompatibleWithSessionDenom`. -/
def IsOutputsCompatibleWithSessionDenom (P : Params) (vecTxPSOut : List CTxPSOut)
    (s : CPrivateSendServer) : Bool :=
  if P.GetDenominations vecTxPSOut = 0 then false
  else s.vecEntries.all
    (fun entry => P.GetDenominations vecTxPSOut == P.GetDenominations entry.vecTxPSOut)

/-- Source: `CPrivateSendServer::IsAcceptableDenomAndCollateral`; returns the result and `nMessageIDRet`. -/
def IsAcceptableDenomAndCollateral (P : Params) (E : Env) (nDenom : Int)
    (txCollateral : CTransaction) (nMessageIDRet : PoolMessage) : Bool × PoolMessage :=
  if !P.fDyNode then (false, nMessageIDRet)
  else if !P.GetDenominationsBits nDenom then (false, ERR_DENOM)
  else if !P.fUnitTest && !E.IsCollateralValid txCollateral then (false, ERR_INVALID_COLLATERAL)
  else (true, nMessageIDRet)

/-- Source: `CPrivateSendServer::CreateNewSession`; returns the result, `nMessageIDRet` and the object. -/
def CreateNewSession (P : Params) (E : Env) (nDenom : Int) (txCollateral : CTransaction)
    (nMessageIDRet : PoolMessage) (s : CPrivateSendServer) :
    Bool × PoolMessage × CPrivateSendServer :=
  if !P.fDyNode || s.nSessionID != 0 then (false, nMessageIDRet, s)
  else if s.nState != POOL_STATE_IDLE then (false, ERR_MODE, s)
  else
    let r := IsAcceptableDenomAndCollateral P E nDenom txCollateral nMessageIDRet
    if !r.1 then (false, r.2, s)
    else
      let s1 := { s with
        nSessionID := ((GetRandInt 999999 E.rand).1 : Int) + 1
        nSessionDenom := nDenom }
      let s2 := SetState P POOL_STATE_QUEUE s1
      let s3 := { s2 with nTimeLastSuccessfulStep := E.GetTimeMillis }
      let psq := signedQueue P E nDenom false
      let s4 :=
        if !P.fUnitTest then
          { emit (Effect.RelayQueue psq) s3 with
            vecPrivatesendQueue := s3.vecPrivatesendQueue ++ [psq] }
        else s3
      (true, MSG_NOERR,
        { s4 with vecSessionCollaterals := s4.vecSessionCollaterals ++ [txCollateral] })

/-- Source: `CPrivateSendServer::AddUserToExistingSession`; returns the result, `nMessageIDRet` and the object. -/
def AddUserToExistingSession (P : Params) (E : Env) (nDenom : Int)
    (txCollateral : CTransaction) (nMessageIDRet : PoolMessage) (s : CPrivateSendServer) :
    Bool × PoolMessage × CPrivateSendServer :=
  if !P.fDyNode || s.nSessionID == 0 || IsSessionReady P s then (false, nMessageIDRet, s)
  else
    let r := IsAcceptableDenomAndCollateral P E nDenom txCollateral nMessageIDRet
    if !r.1 then (false, r.2, s)
    else if s.nState != POOL_STATE_QUEUE then (false, ERR_MODE, s)
    else if nDenom != s.nSessionDenom then (false, ERR_DENOM, s)
    else
      (true, MSG_NOERR,
        { s with
          nTimeLastSuccessfulStep := E.GetTimeMillis
          vecSessionCollaterals := s.vecSessionCollaterals ++ [txCollateral] })

/-- Source: `CPrivateSendServer::AddEntry`; returns the result, `nMessageIDRet` and the object. -/
def AddEntry (P : Params) (E : Env) (entryNew : CPrivateSendEntry)
    (nMessageIDRet : PoolMessage) (s : CPrivateSendServer) :
    Bool × PoolMessage × CPrivateSendServer :=
  if !P.fDyNode then (false, nMessageIDRet, s)
  else if entryNew.vecTxPSIn.any (fun txin => P.IsNull txin.prevout) then
    (false, ERR_INVALID_INPUT, s)
  else if !E.IsCollateralValid entryNew.txCollateral then (false, ERR_INVALID_COLLATERAL, s)
  else if decide (GetEntriesCount s ≥ P.GetMaxPoolTransactions) then (false, ERR_ENTRIES_FULL, s)
  else if entryNew.vecTxPSIn.any (fun txin =>
      s.vecEntries.any (fun entry =>
        entry.vecTxPSIn.any (fun txpsin => txpsin.prevout == txin.prevout))) then
    (false, ERR_ALREADY_HAVE, s)
  else
    (true, MSG_ENTRIES_ADDED,
      { s with
        vecEntries := s.vecEntries ++ [entryNew]
        nTimeLastSuccessfulStep := E.GetTimeMillis })

/-- The scan of `IsInputScriptSigValid` over the pooled inputs: running
position `i`, `nTxInIndex` (-1: not found) and `sigPubKey`. -/
def scanInputs (txin : CTxIn) (vin : List CTxPSIn) : Nat × Int × CScript :=
  vin.foldl
    (fun acc txpsin =>
      if txpsin.prevout = txin.prevout then (acc.1 + 1, (acc.1 : Int), txpsin.prevPubKey)
      else (acc.1 + 1, acc.2.1, acc.2.2))
    (0, -1, [])

/-- The transaction `txNew` that `IsInputScriptSigValid` assembles: every
entry's outputs and inputs in entry order. -/
def pooledTransaction (P : Params) (s : CPrivateSendServer) : CMutableTransaction :=
  { emptyTransaction P with
    vin := s.vecEntries.flatMap (fun entry => entry.vecTxPSIn.map CTxPSIn.toCTxIn)
    vout := s.vecEntries.flatMap (fun entry => entry.vecTxPSOut.map CTxPSOut.toCTxOut) }

/-- Source: `CPrivateSendServer::IsInputScriptSigValid`. -/
def IsInputScriptSigValid (P : Params) (txin : CTxIn) (s : CPrivateSendServer) : Bool :=
  let txNew := pooledTransaction P s
  let r := scanInputs txin (s.vecEntries.flatMap (fun entry => entry.vecTxPSIn))
  if r.2.1 ≥ 0 then
    let nTxInIndex := r.2.1.toNat
    let txNew1 := { txNew with
      vin := txNew.vin.modify (fun t => { t with scriptSig := txin.scriptSig }) nTxInIndex }
    P.VerifyScript txin.scriptSig r.2.2 txNew1 nTxInIndex
  else false

/-- The loop of `AddScriptSig` over `vecEntries`: the first entry that takes the signature. -/
def addScriptSigToEntries (txinNew : CTxIn) :
    List CPrivateSendEntry → Bool × List CPrivateSendEntry
  | [] => (false, [])
  | entry :: rest =>
    let r := CPrivateSendEntry_AddScriptSig txinNew entry.vecTxPSIn
    if r.1 then (true, { entry with vecTxPSIn := r.2 } :: rest)
    else
      let q := addScriptSigToEntries txinNew rest
      (q.1, { entry with vecTxPSIn := r.2 } :: q.2)

/-- The body of the loop of `AddScriptSig` over `finalMutableTransaction.vin`:
the input of the joint transaction with the same previous output and sequence
number takes the signature script and the cached locking script. -/
def signJointInput (txinNew txin : CTxIn) : CTxIn :=
  if txinNew.prevout = txin.prevout ∧ txin.nSequence = txinNew.nSequence then
    { txin with scriptSig := txinNew.scriptSig, prevPubKey := txinNew.prevPubKey }
  else txin

/-- Source: `CPrivateSendServer::AddScriptSig`; returns the result and the object. -/
def AddScriptSig (P : Params) (txinNew : CTxIn) (s : CPrivateSendServer) :
    Bool × CPrivateSendServer :=
  if s.vecEntries.any (fun entry =>
      entry.vecTxPSIn.any (fun txpsin => txpsin.scriptSig == txinNew.scriptSig)) then
    (false, s)
  else if !IsInputScriptSigValid P txinNew s then (false, s)
  else
    let vin1 := s.finalMutableTransaction.vin.map (signJointInput txinNew)
    let s1 := { s with finalMutableTransaction := { s.finalMutableTransaction with vin := vin1 } }
    let r := addScriptSigToEntries txinNew s1.vecEntries
    (r.1, { s1 with vecEntries := r.2 })

/-- Source: `CPrivateSendServer::CreateFinalTransaction`. -/
def CreateFinalTransaction (P : Params) (E : Env) (s : CPrivateSendServer) :
    CPrivateSendServer :=
  let txNew := pooledTransaction P s
  let txSorted := { txNew with
    vin := sort CompareInputBIP69 txNew.vin
    vout := sort CompareOutputBIP69 txNew.vout }
  let s1 := { s with finalMutableTransaction := txSorted }
  let s2 := RelayFinalTransaction P E s1.finalMutableTransaction s1
  SetState P POOL_STATE_SIGNING s2

/-- The loop of `ChargeRandomFees` over the pledged collaterals, with the draws left. -/
def chargeRandomFeesLoop (E : Env) :
    List CTransaction → List Nat → CPrivateSendServer → CPrivateSendServer
  | [], _, s => s
  | txCollateral :: rest, draws, s =>
    let d := GetRandInt 100 draws
    if d.1 > 10 then s
    else
      let a := AcceptToMemoryPool E txCollateral s
      let s1 := if !a.1 then a.2 else emit (Effect.RelayTransaction txCollateral) a.2
      chargeRandomFeesLoop E rest d.2 s1

/-- Source: `CPrivateSendServer::ChargeRandomFees`. -/
def ChargeRandomFees (P : Params) (E : Env) (s : CPrivateSendServer) : CPrivateSendServer :=
  if !P.fDyNode then s
  else chargeRandomFeesLoop E s.vecSessionCollaterals E.rand s

/-- The list `vecOffendersCollaterals` that `ChargeFees` collects. -/
def vecOffendersCollaterals (s : CPrivateSendServer) : List CTransaction :=
  (if s.nState = POOL_STATE_ACCEPTING_ENTRIES then
      s.vecSessionCollaterals.filter (fun txCollateral =>
        !(s.vecEntries.any (fun entry => entry.txCollateral == txCollateral)))
    else []) ++
  (if s.nState = POOL_STATE_SIGNING then
      s.vecEntries.flatMap (fun entry =>
        (entry.vecTxPSIn.filter (fun txpsin => !txpsin.fHasSig)).map (fun _ => entry.txCollateral))
    else [])

/-- The call `std::random_shuffle`, as far as `ChargeFees` looks at its result:
a draw decides which element comes first. -/
def random_shuffle {α : Type} (draws : List Nat) (l : List α) : List α :=
  match l[(GetRandInt l.length draws).1]? with
  | some x => x :: l.eraseIdx (GetRandInt l.length draws).1
  | none => l

/-- Source: `CPrivateSendServer::ChargeFees`. -/
def ChargeFees (P : Params) (E : Env) (s : CPrivateSendServer) : CPrivateSendServer :=
  if !P.fDyNode then s
  else
    let d1 := GetRandInt 100 E.rand
    if d1.1 > 33 then s
    else
      let offenders := vecOffendersCollaterals s
      if offenders.isEmpty then s
      else
        let mostly := decide ((offenders.length : Int) ≥ P.PoolMaxTransactions - 1)
        let d2 := if mostly then GetRandInt 100 d1.2 else (0, d1.2)
        if mostly && decide (d2.1 > 33) then s
        else if decide ((offenders.length : Int) ≥ P.PoolMaxTransactions) then s
        else
          let shuffled := random_shuffle d2.2 offenders
          if s.nState = POOL_STATE_ACCEPTING_ENTRIES ∨ s.nState = POOL_STATE_SIGNING then
            match shuffled with
            | [] => s
            | tx :: _ =>
              let a := AcceptToMemoryPool E tx s
              if !a.1 then a.2 else emit (Effect.RelayTransaction tx) a.2
          else s

/-- Source: `CPrivateSendServer::CommitFinalTransaction`. -/
def CommitFinalTransaction (P : Params) (E : Env) (s : CPrivateSendServer) :
    CPrivateSendServer :=
  if !P.fDyNode then s
  else
    let finalTransaction : CTransaction := s.finalMutableTransaction
    let hashTx := P.GetHash finalTransaction
    let s1 := emit (Effect.PrioritiseTransaction hashTx) s
    if !E.lockMain then RelayCompletedTransaction P E ERR_INVALID_TX (SetNull P E s1)
    else
      let a := AcceptToMemoryPool E finalTransaction s1
      if !a.1 then RelayCompletedTransaction P E ERR_INVALID_TX (SetNull P E a.2)
      else
        let s2 :=
          if GetPSTX P hashTx a.2 then
            AddPSTX P
              { tx := finalTransaction, vin := P.activeDynodeVin, sigTime := E.GetAdjustedTime,
                vchSig := P.SignBroadcastTx finalTransaction P.activeDynodeVin E.GetAdjustedTime }
              a.2
          else a.2
        let s3 := emit (Effect.RelayInv hashTx) s2
        let s4 := RelayCompletedTransaction P E MSG_SUCCESS s3
        let s5 := ChargeRandomFees P E s4
        SetNull P E s5

/-- Source: `CPrivateSendServer::CheckPool`. -/
def CheckPool (P : Params) (E : Env) (s : CPrivateSendServer) : CPrivateSendServer :=
  if P.fDyNode ∧ s.nState = POOL_STATE_ACCEPTING_ENTRIES ∧
      GetEntriesCount s ≥ P.GetMaxPoolTransactions then
    CreateFinalTransaction P E s
  else if P.fDyNode ∧ s.nState = POOL_STATE_SIGNING ∧ IsSignaturesComplete s = true then
    CommitFinalTransaction P E s
  else if (s.nState = POOL_STATE_ERROR ∨ s.nState = POOL_STATE_SUCCESS) ∧
      E.GetTimeMillis - s.nTimeLastSuccessfulStep ≥ 10000 then
    SetNull P E s
  else s

/-- Source: `CPrivateSendServer::CheckTimeout`. -/
def CheckTimeout (P : Params) (E : Env) (s : CPrivateSendServer) : CPrivateSendServer :=
  if !E.lockPS then s
  else
    let s1 := { s with
      vecPrivatesendQueue :=
        s.vecPrivatesendQueue.filter (fun q => !CPrivatesendQueue_IsExpired P E q) }
    if !P.fDyNode then s1
    else
      let nLagTime : Int := if P.fDyNode then 0 else 10000
      let nTimeout : Int :=
        if s1.nState = POOL_STATE_SIGNING then P.PRIVATESEND_SIGNING_TIMEOUT
        else P.PRIVATESEND_QUEUE_TIMEOUT
      let fTimeout :=
        decide (E.GetTimeMillis - s1.nTimeLastSuccessfulStep ≥ nTimeout * 1000 + nLagTime)
      if s1.nState ≠ POOL_STATE_IDLE ∧ fTimeout = true then
        SetState P POOL_STATE_ERROR (SetNull P E (ChargeFees P E s1))
      else s1

/-- Source: `CPrivateSendServer::CheckForCompleteQueue`. -/
def CheckForCompleteQueue (P : Params) (E : Env) (s : CPrivateSendServer) :
    CPrivateSendServer :=
  if !P.fDyNode then s
  else if s.nState = POOL_STATE_QUEUE ∧ IsSessionReady P s = true then
    let s1 := SetState P POOL_STATE_ACCEPTING_ENTRIES s
    emit (Effect.RelayQueue (signedQueue P E s1.nSessionDenom true)) s1
  else s

/-- The output loop of the `PSVIN` handler: `nValueOut` and `tx` after the
loop, or the outcome code of the output it returns at. -/
def checkOutputs (P : Params) :
    List CTxPSOut → CAmount → CMutableTransaction → Except PoolMessage (CAmount × CMutableTransaction)
  | [], nValueOut, tx => .ok (nValueOut, tx)
  | txout :: rest, nValueOut, tx =>
    if txout.scriptPubKey.length ≠ 25 then .error ERR_NON_STANDARD_PUBKEY
    else if !P.IsNormalPaymentScript txout.scriptPubKey then .error ERR_INVALID_SCRIPT
    else
      checkOutputs P rest (nValueOut + txout.nValue)
        { tx with vout := tx.vout ++ [txout.toCTxOut] }

/-- The input loop of the `PSVIN` handler: `nValueIn` and `tx` after the loop,
or `ERR_MISSING_TX` at the first input whose previous transaction is not found. -/
def checkInputs (E : Env) :
    List CTxPSIn → CAmount → CMutableTransaction → Except PoolMessage (CAmount × CMutableTransaction)
  | [], nValueIn, tx => .ok (nValueIn, tx)
  | txin :: rest, nValueIn, tx =>
    match E.GetTransaction txin.prevout.hash with
    | some txPrev =>
      checkInputs E rest
        (match txPrev.vout[txin.prevout.n]? with
          | some txout => nValueIn + txout.nValue
          | none => nValueIn)
        { tx with vin := tx.vin ++ [txin.toCTxIn] }
    | none => .error ERR_MISSING_TX

/-- The payload of a message, by command. -/
inductive Message
  | PSACCEPT (nDenom : Int) (txCollateral : CTransaction)
  | PSQUEUE (psq : CPrivatesendQueue)
  | PSVIN (entry : CPrivateSendEntry)
  | PSSIGNFINALTX (vecTxIn : List CTxIn)
  | other
deriving DecidableEq, Repr

/-- Source: `CPrivateSendServer::ProcessMessage`, branch `PSACCEPT`. -/
def ProcessPSACCEPT (P : Params) (E : Env) (pfrom : CNode) (nDenom : Int)
    (txCollateral : CTransaction) (s : CPrivateSendServer) : CPrivateSendServer :=
  if pfrom.nVersion < P.MIN_PRIVATESEND_PEER_PROTO_VERSION then
    PushStatus pfrom STATUS_REJECTED ERR_VERSION s
  else if IsSessionReady P s then
    PushStatus pfrom STATUS_ACCEPTED ERR_QUEUE_FULL s
  else
    match dnodeman_Find P.activeDynodeVin s with
    | none => PushStatus pfrom STATUS_REJECTED ERR_DN_LIST s
    | some pdn =>
      if s.vecSessionCollaterals.length = 0 ∧ pdn.nLastPsq ≠ 0 ∧
          pdn.nLastPsq + E.CountEnabled.tdiv 5 > s.nPsqCount then
        PushStatus pfrom STATUS_REJECTED ERR_RECENT s
      else
        let r :=
          if s.nSessionID = 0 then CreateNewSession P E nDenom txCollateral MSG_NOERR s
          else AddUserToExistingSession P E nDenom txCollateral MSG_NOERR s
        if r.1 then PushStatus pfrom STATUS_ACCEPTED r.2.1 r.2.2
        else PushStatus pfrom STATUS_REJECTED r.2.1 r.2.2

/-- The conversion of an integer to `int`, 32 bits in two's complement: the
value modulo 2^32 that lies between -2^31 and 2^31 - 1. -/
def toInt32 (x : Int) : Int :=
  (x + 2147483648) % 4294967296 - 2147483648

/-- Source: `CPrivateSendServer::ProcessMessage`, branch `PSQUEUE`. The
threshold of the rate limit is stored in `int nThreshold` before it is
compared with `nPsqCount`. -/
def ProcessPSQUEUE (P : Params) (E : Env) (pfrom : CNode) (psq : CPrivatesendQueue)
    (s : CPrivateSendServer) : CPrivateSendServer :=
  if !E.lockPS then s
  else if pfrom.nVersion < P.MIN_PRIVATESEND_PEER_PROTO_VERSION then s
  else if s.vecPrivatesendQueue.any (fun q => q == psq) then s
  else if CPrivatesendQueue_IsExpired P E psq ||
      decide (psq.nTime > E.GetTime + P.PRIVATESEND_QUEUE_TIMEOUT) then s
  else
    match dnodeman_Find psq.vin s with
    | none => s
    | some pmn =>
      if !P.CheckSignature psq pmn.pubKeyDynode then emit (Effect.AskForDN pfrom psq.vin) s
      else if !psq.fReady then
        if s.vecPrivatesendQueue.any (fun q => q.vin == psq.vin) then s
        else
          let nThreshold := toInt32 (pmn.nLastPsq + E.CountEnabled.tdiv 5)
          if pmn.nLastPsq ≠ 0 ∧ nThreshold > s.nPsqCount then s
          else
            emit (Effect.RelayQueue psq)
              { s with
                nPsqCount := s.nPsqCount + 1
                vDynodes := dnodeman_Update psq.vin
                  (fun dn => { dn with nLastPsq := s.nPsqCount + 1, fAllowMixingTx := true })
                  s.vDynodes
                vecPrivatesendQueue := s.vecPrivatesendQueue ++ [psq] }
      else s

/-- The end of the `PSVIN` branch, for an entry that passed the checks of the
handler: `AddEntry`, the status reply, and `CheckPool` or the reset. -/
def admitEntry (P : Params) (E : Env) (pfrom : CNode) (entry : CPrivateSendEntry)
    (s : CPrivateSendServer) : CPrivateSendServer :=
  let r := AddEntry P E entry MSG_NOERR s
  if r.1 then
    RelayStatus P E STATUS_ACCEPTED MSG_NOERR
      (CheckPool P E (PushStatus pfrom STATUS_ACCEPTED r.2.1 r.2.2))
  else
    SetNull P E (PushStatus pfrom STATUS_REJECTED r.2.1 r.2.2)

/-- Source: `CPrivateSendServer::ProcessMessage`, branch `PSVIN`. -/
def ProcessPSVIN (P : Params) (E : Env) (pfrom : CNode) (entry : CPrivateSendEntry)
    (s : CPrivateSendServer) : CPrivateSendServer :=
  if pfrom.nVersion < P.MIN_PRIVATESEND_PEER_PROTO_VERSION then
    PushStatus pfrom STATUS_REJECTED ERR_VERSION s
  else if !IsSessionReady P s then
    PushStatus pfrom STATUS_REJECTED ERR_SESSION s
  else if entry.vecTxPSIn.length > P.PRIVATESEND_ENTRY_MAX_SIZE then
    PushStatus pfrom STATUS_REJECTED ERR_MAXIMUM s
  else if entry.vecTxPSOut.length > P.PRIVATESEND_ENTRY_MAX_SIZE then
    PushStatus pfrom STATUS_REJECTED ERR_MAXIMUM s
  else if !IsOutputsCompatibleWithSessionDenom P entry.vecTxPSOut s then
    PushStatus pfrom STATUS_REJECTED ERR_EXISTING_TX s
  else
    match checkOutputs P entry.vecTxPSOut 0 (emptyTransaction P) with
    | .error nMessageID => PushStatus pfrom STATUS_REJECTED nMessageID s
    | .ok (nValueOut, tx1) =>
      match checkInputs E entry.vecTxPSIn 0 tx1 with
      | .error nMessageID => PushStatus pfrom STATUS_REJECTED nMessageID s
      | .ok (nValueIn, tx) =>
        let nFee := nValueIn - nValueOut
        if nFee ≠ 0 then PushStatus pfrom STATUS_REJECTED ERR_FEES s
        else
          let a := AcceptToMemoryPool E tx (emit (Effect.PrioritiseTransaction (P.GetHash tx)) s)
          if !a.1 then PushStatus pfrom STATUS_REJECTED ERR_INVALID_TX a.2
          else admitEntry P E pfrom entry a.2

/-- The loop of the `PSSIGNFINALTX` handler over the received inputs: false at
the first input `AddScriptSig` refuses. -/
def addScriptSigs (P : Params) : List CTxIn → CPrivateSendServer → Bool × CPrivateSendServer
  | [], s => (true, s)
  | txin :: rest, s =>
    let r := AddScriptSig P txin s
    if !r.1 then (false, r.2) else addScriptSigs P rest r.2

/-- Source: `CPrivateSendServer::ProcessMessage`, branch `PSSIGNFINALTX`. -/
def ProcessPSSIGNFINALTX (P : Params) (E : Env) (pfrom : CNode) (vecTxIn : List CTxIn)
    (s : CPrivateSendServer) : CPrivateSendServer :=
  if pfrom.nVersion < P.MIN_PRIVATESEND_PEER_PROTO_VERSION then s
  else
    let r := addScriptSigs P vecTxIn s
    if !r.1 then RelayStatus P E STATUS_REJECTED MSG_NOERR r.2
    else CheckPool P E r.2

/-- Source: `CPrivateSendServer::ProcessMessage`. -/
def ProcessMessage (P : Params) (E : Env) (pfrom : CNode) (msg : Message)
    (s : CPrivateSendServer) : CPrivateSendServer :=
  if !P.fDyNode then s
  else if P.fLiteMode then s
  else if !E.IsBlockchainSynced then s
  else
    match msg with
    | .PSACCEPT nDenom txCollateral => ProcessPSACCEPT P E pfrom nDenom txCollateral s
    | .PSQUEUE psq => ProcessPSQUEUE P E pfrom psq s
    | .PSVIN entry => ProcessPSVIN P E pfrom entry s
    | .PSSIGNFINALTX vecTxIn => ProcessPSSIGNFINALTX P E pfrom vecTxIn s
    | .other => s

/-- One round of the loop of `ThreadCheckPrivateSendServer`. -/
def Tick (P : Params) (E : Env) (s : CPrivateSendServer) : CPrivateSendServer :=
  if E.IsBlockchainSynced then CheckForCompleteQueue P E (CheckTimeout P E s) else s

/-! ## Reachable sessions -/

/-- The session right after construction: idle, nothing pledged, nothing entered. -/
def IsInitial (s : CPrivateSendServer) : Prop :=
  s.nState = POOL_STATE_IDLE ∧ s.nSessionID = 0 ∧ s.vecEntries = [] ∧
    s.vecSessionCollaterals = [] ∧ s.finalMutableTransaction.vin = [] ∧
    s.finalMutableTransaction.vout = []

/-- One coordinator operation, under any answers of the surroundings. -/
inductive Step (P : Params) : CPrivateSendServer → CPrivateSendServer → Prop
  | processMessage (E : Env) (pfrom : CNode) (msg : Message) (s : CPrivateSendServer) :
      Step P s (ProcessMessage P E pfrom msg s)
  | addEntry (E : Env) (entryNew : CPrivateSendEntry) (nMessageIDRet : PoolMessage)
      (s : CPrivateSendServer) : Step P s (AddEntry P E entryNew nMessageIDRet s).2.2
  | checkPool (E : Env) (s : CPrivateSendServer) : Step P s (CheckPool P E s)
  | checkTimeout (E : Env) (s : CPrivateSendServer) : Step P s (CheckTimeout P E s)
  | checkForCompleteQueue (E : Env) (s : CPrivateSendServer) :
      Step P s (CheckForCompleteQueue P E s)
  | setNull (E : Env) (s : CPrivateSendServer) : Step P s (SetNull P E s)

/-- The session states some sequence of coordinator operations leads to from an initial one. -/
inductive Reachable (P : Params) : CPrivateSendServer → Prop
  | init (s : CPrivateSendServer) : IsInitial s → Reachable P s
  | step (s t : CPrivateSendServer) : Reachable P s → Step P s t → Reachable P t

/-! ## Predicates and sample data for the theorems -/

/-- The status updates one `RelayStatus` pushes. -/
def relayedStatus (P : Params) (E : Env) (u : PoolStatusUpdate) (m : PoolMessage)
    (s : CPrivateSendServer) : List Effect :=
  (relayPeers P E).map (fun pnode => Effect.PushMessage pnode
    (NetMsg.PSSTATUSUPDATE s.nSessionID s.nState (s.vecEntries.length : Int) u m))

/-- The messages one `RelayFinalTransaction` pushes. -/
def relayedFinalTransaction (P : Params) (E : Env) (tx : CTransaction)
    (s : CPrivateSendServer) : List Effect :=
  (relayPeers P E).map (fun pnode => Effect.PushMessage pnode (NetMsg.PSFINALTX s.nSessionID tx))

/-- The messages one `RelayCompletedTransaction` pushes. -/
def relayedCompleted (P : Params) (E : Env) (m : PoolMessage)
    (s : CPrivateSendServer) : List Effect :=
  (relayPeers P E).map (fun pnode => Effect.PushMessage pnode (NetMsg.PSCOMPLETE s.nSessionID m))

/-- The second object is the first but for effects appended to the trace. -/
def SameSession (s t : CPrivateSendServer) : Prop :=
  ∃ l, t = { s with effects := s.effects ++ l }

/-- The state changes the coordinator makes: none, one of the three forward
edges, or a reset to `Idle`. -/
def StateEdge (a b : PoolState) : Prop :=
  b = a ∨ (a = POOL_STATE_IDLE ∧ b = POOL_STATE_QUEUE) ∨
    (a = POOL_STATE_QUEUE ∧ b = POOL_STATE_ACCEPTING_ENTRIES) ∨
    (a = POOL_STATE_ACCEPTING_ENTRIES ∧ b = POOL_STATE_SIGNING) ∨ b = POOL_STATE_IDLE

/-- The previous-output references of an entry's inputs. -/
def entryPrevouts (e : CPrivateSendEntry) : List COutPoint :=
  e.vecTxPSIn.map (fun txpsin => txpsin.prevout)

/-- What one operation does to the entry list `a`: clears it, leaves every
entry's previous-output references as they are, or appends an entry while
the round is not full, none of whose inputs refers to a previous output that
an entry of `a` refers to. -/
def EntriesEdge (P : Params) (a b : List CPrivateSendEntry) : Prop :=
  b = [] ∨ b.map entryPrevouts = a.map entryPrevouts ∨
    ∃ e, b = a ++ [e] ∧ a.length < P.GetMaxPoolTransactions ∧
      ∀ x ∈ a, List.Disjoint (entryPrevouts x) (entryPrevouts e)

/-- No previous-output reference occurs in two different lists. -/
def CrossUnique (l : List (List COutPoint)) : Prop := l.Pairwise List.Disjoint

/-- A 25-byte pay-to-public-key-hash locking script with the given key hash byte. -/
def sampleScript (k : Nat) : CScript :=
  [118, 169, 20] ++ List.replicate 20 k ++ [136, 172]

/-- Sample build: a facilitator, rounds of two entries, one denomination of value 100. -/
def sampleParams : Params where
  fDyNode := true
  fLiteMode := false
  fUnitTest := false
  MIN_PRIVATESEND_PEER_PROTO_VERSION := 70900
  PRIVATESEND_ENTRY_MAX_SIZE := 9
  PRIVATESEND_QUEUE_TIMEOUT := 30
  PRIVATESEND_SIGNING_TIMEOUT := 15
  GetMaxPoolTransactions := 2
  PoolMaxTransactions := 2
  CURRENT_VERSION := 1
  IsNull := fun p => p.hash == 0 && p.n == 4294967295
  GetDenominations := fun outs =>
    if outs.isEmpty then 0 else if outs.all (fun o => o.nValue == 100) then 1 else 0
  GetDenominationsBits := fun nDenom => nDenom == 1
  IsNormalPaymentScript := fun script => script.head? == some 118
  VerifyScript := fun scriptSig scriptPubKey _ _ => scriptSig.head? == scriptPubKey.getLast?
  GetHash := fun tx => (tx.vin.map (fun t => t.prevout.hash + t.scriptSig.length)).sum + tx.vout.length
  activeDynodeVin := { prevout := { hash := 7, n := 0 }, scriptSig := [], nSequence := 0, prevPubKey := [] }
  SignQueue := fun psq => [psq.nTime.toNat]
  CheckSignature := fun psq _ => psq.vchSig == [psq.nTime.toNat]
  SignBroadcastTx := fun _ _ sigTime => [sigTime.toNat]
  ResetStepTime := fun now _ => now

/-- Two connected peers at the minimum protocol version. -/
def samplePeer (id : Nat) : CNode := { id := id, nVersion := 70900 }

/-- Sample surroundings at clock `ms`: synced, locks free, an admission pipeline
that accepts, a chain on which transaction `h` has one output of value 100. -/
def sampleEnv (ms : Int) : Env where
  GetTimeMillis := ms
  GetTime := ms / 1000
  GetAdjustedTime := ms / 1000
  rand := [41, 5, 77]
  IsBlockchainSynced := true
  lockPS := true
  lockMain := true
  vNodes := [samplePeer 1, samplePeer 2]
  CountEnabled := 10
  mempoolAccepts := fun _ _ => true
  IsCollateralValid := fun tx => !tx.vout.isEmpty
  GetTransaction := fun h =>
    if h = 0 then none
    else some { nVersion := 1, vin := [], vout := [{ nValue := 100, scriptPubKey := sampleScript h }],
                nLockTime := 0 }

/-- Sample collateral of participant `k`. -/
def sampleCollateral (k : Nat) : CTransaction :=
  { nVersion := 1
    vin := [{ prevout := { hash := 900 + k, n := 0 }, scriptSig := [k], nSequence := 0, prevPubKey := [] }]
    vout := [{ nValue := 1, scriptPubKey := sampleScript 0 }]
    nLockTime := 0 }

/-- Sample entry of participant `k`: the one output of transaction `h` in, value 100 out. -/
def sampleEntry (k h : Nat) : CPrivateSendEntry :=
  { vecTxPSIn := [{ prevout := { hash := h, n := 0 }, scriptSig := [], nSequence := 4294967295,
                    prevPubKey := sampleScript h, fHasSig := false, nSentTimes := 0 }]
    vecTxPSOut := [{ nValue := 100, scriptPubKey := sampleScript (50 + k), nSentTimes := 0 }]
    txCollateral := sampleCollateral k }

/-- The input of `sampleEntry k h` with its signature. -/
def sampleSignedInput (h : Nat) : CTxIn :=
  { prevout := { hash := h, n := 0 }, scriptSig := [172, h], nSequence := 4294967295, prevPubKey := [] }

/-- The object right after construction, on a node that knows its own registry record. -/
def sampleInitial : CPrivateSendServer where
  vecEntries := []
  nState := POOL_STATE_IDLE
  nTimeLastSuccessfulStep := 0
  nSessionID := 0
  finalMutableTransaction := emptyTransaction sampleParams
  nSessionDenom := 0
  vecPrivatesendQueue := []
  vecSessionCollaterals := []
  nPsqCount := 0
  vDynodes := [{ vin := sampleParams.activeDynodeVin, pubKeyDynode := 1, nLastPsq := 0,
                 fAllowMixingTx := false }]
  mapPSTX := []
  effects := []

/-- After the first join request. -/
def sampleQueued : CPrivateSendServer :=
  ProcessMessage sampleParams (sampleEnv 1000) (samplePeer 1)
    (Message.PSACCEPT 1 (sampleCollateral 1)) sampleInitial

/-- After the second join request and a timer tick. -/
def sampleAccepting : CPrivateSendServer :=
  Tick sampleParams (sampleEnv 3000)
    (ProcessMessage sampleParams (sampleEnv 2000) (samplePeer 2)
      (Message.PSACCEPT 1 (sampleCollateral 2)) sampleQueued)

/-- After the first entry. -/
def sampleOneEntry : CPrivateSendServer :=
  ProcessMessage sampleParams (sampleEnv 4000) (samplePeer 1)
    (Message.PSVIN (sampleEntry 1 11)) sampleAccepting

/-- After the second entry. -/
def sampleSigning : CPrivateSendServer :=
  ProcessMessage sampleParams (sampleEnv 5000) (samplePeer 2)
    (Message.PSVIN (sampleEntry 2 10)) sampleOneEntry

/-- After the first signature. -/
def sampleOneSigned : CPrivateSendServer :=
  ProcessMessage sampleParams (sampleEnv 6000) (samplePeer 1)
    (Message.PSSIGNFINALTX [sampleSignedInput 11]) sampleSigning

/-- After the second signature. -/
def sampleDone : CPrivateSendServer :=
  ProcessMessage sampleParams (sampleEnv 7000) (samplePeer 2)
    (Message.PSSIGNFINALTX [sampleSignedInput 10]) sampleOneSigned

/-- No previous-output reference occurs in the inputs of two different entries. -/
def NoSharedPrevout (entries : List CPrivateSendEntry) : Prop :=
  ∀ i j : Fin entries.length, i ≠ j →
    ∀ a ∈ (entries.get i).vecTxPSIn, ∀ b ∈ (entries.get j).vecTxPSIn, a.prevout ≠ b.prevout

/-- Some input of the entry has a null previous-output reference. -/
def HasNullInput (P : Params) (entryNew : CPrivateSendEntry) : Prop :=
  ∃ txin ∈ entryNew.vecTxPSIn, P.IsNull txin.prevout = true

/-- Some input of the entry refers to the previous output an input of a pooled entry refers to. -/
def HasPooledInput (entryNew : CPrivateSendEntry) (s : CPrivateSendServer) : Prop :=
  ∃ txin ∈ entryNew.vecTxPSIn, ∃ entry ∈ s.vecEntries, ∃ txpsin ∈ entry.vecTxPSIn,
    txpsin.prevout = txin.prevout

instance (P : Params) (entryNew : CPrivateSendEntry) : Decidable (HasNullInput P entryNew) := by
  unfold HasNullInput
  infer_instance

instance (entryNew : CPrivateSendEntry) (s : CPrivateSendServer) :
    Decidable (HasPooledInput entryNew s) := by
  unfold HasPooledInput
  infer_instance

/-- The sum of the values of an entry's outputs. -/
def outputSum (entry : CPrivateSendEntry) : CAmount :=
  (entry.vecTxPSOut.map (fun txout => txout.nValue)).sum

/-- The value chain lookup resolves an input to: the value of the output its
previous-output reference names, nothing when the chain has no such output. -/
def resolvedValue (E : Env) (txin : CTxPSIn) : CAmount :=
  match E.GetTransaction txin.prevout.hash with
  | some txPrev =>
    match txPrev.vout[txin.prevout.n]? with
    | some txout => txout.nValue
    | none => 0
  | none => 0

/-- The sum of the values chain lookup resolves an entry's inputs to. -/
def resolvedInputSum (E : Env) (entry : CPrivateSendEntry) : CAmount :=
  (entry.vecTxPSIn.map (resolvedValue E)).sum

/-- An entry like `sampleEntry k h` whose outputs are worth twice its input. -/
def sampleUnbalancedEntry (k h : Nat) : CPrivateSendEntry :=
  { sampleEntry k h with
    vecTxPSOut := [{ nValue := 100, scriptPubKey := sampleScript (50 + k), nSentTimes := 0 },
                   { nValue := 100, scriptPubKey := sampleScript (60 + k), nSentTimes := 0 }] }

/-- The identity of the previous output an input refers to, in the order of `CompareInputBIP69`. -/
def inputKey (a : CTxIn) : ℕ ×ₗ ℕ := toLex (a.prevout.hash, a.prevout.n)

/-- Value and locking script of an output, in the order of `CompareOutputBIP69`. -/
def outputKey (a : CTxOut) : ℤ ×ₗ List ℕ := toLex (a.nValue, a.scriptPubKey)

/-- An entry that spends the output `sampleEntry 1 h` spends, under another signature script. -/
def sampleRivalEntry (h : Nat) : CPrivateSendEntry :=
  { vecTxPSIn := [{ prevout := { hash := h, n := 0 }, scriptSig := [9], nSequence := 4294967295,
                    prevPubKey := sampleScript h, fHasSig := false, nSentTimes := 0 }]
    vecTxPSOut := [{ nValue := 100, scriptPubKey := sampleScript 59, nSentTimes := 0 }]
    txCollateral := sampleCollateral 9 }

/-- The `PSACCEPT` gates before the session is touched: the registry knows this
node and its last announcement is not too recent. -/
def JoinGatesPass (P : Params) (E : Env) (s : CPrivateSendServer) : Prop :=
  ∃ pdn, dnodeman_Find P.activeDynodeVin s = some pdn ∧
    ¬(s.vecSessionCollaterals.length = 0 ∧ pdn.nLastPsq ≠ 0 ∧
      pdn.nLastPsq + E.CountEnabled.tdiv 5 > s.nPsqCount)

/-- An entry input once `CPrivateSendEntry::AddScriptSig` has taken the signature. -/
def signedEntryInput (txinNew : CTxIn) (txpsin : CTxPSIn) : CTxPSIn :=
  { txpsin with scriptSig := txinNew.scriptSig, fHasSig := true }

/-- The data of end-to-end scenario A: the build, the surroundings at each of
the seven steps, two peers, the denomination and the two pledged collaterals,
the two entries with their one input and one output, the value of the
denomination, the two signed inputs, and the object at the start. -/
structure ScenarioA where
  P : Params
  E1 : Env
  E2 : Env
  E3 : Env
  E4 : Env
  E5 : Env
  E6 : Env
  E7 : Env
  p1 : CNode
  p2 : CNode
  nDenom : Int
  c1 : CTransaction
  c2 : CTransaction
  e1 : CPrivateSendEntry
  e2 : CPrivateSendEntry
  in1 : CTxPSIn
  in2 : CTxPSIn
  out1 : CTxPSOut
  out2 : CTxPSOut
  nValue : CAmount
  t1 : CTxIn
  t2 : CTxIn
  s0 : CPrivateSendServer

/-- Scenario A after the first join request. -/
def ScenarioA.s1 (x : ScenarioA) : CPrivateSendServer :=
  ProcessMessage x.P x.E1 x.p1 (Message.PSACCEPT x.nDenom x.c1) x.s0

/-- Scenario A after the second join request. -/
def ScenarioA.s2 (x : ScenarioA) : CPrivateSendServer :=
  ProcessMessage x.P x.E2 x.p2 (Message.PSACCEPT x.nDenom x.c2) x.s1

/-- Scenario A after the timer tick. -/
def ScenarioA.s3 (x : ScenarioA) : CPrivateSendServer := Tick x.P x.E3 x.s2

/-- Scenario A after the first entry. -/
def ScenarioA.s4 (x : ScenarioA) : CPrivateSendServer :=
  ProcessMessage x.P x.E4 x.p1 (Message.PSVIN x.e1) x.s3

/-- Scenario A after the second entry. -/
def ScenarioA.s5 (x : ScenarioA) : CPrivateSendServer :=
  ProcessMessage x.P x.E5 x.p2 (Message.PSVIN x.e2) x.s4

/-- The session id the first join request of scenario A draws. -/
def ScenarioA.nSessionID (x : ScenarioA) : Int := ((GetRandInt 999999 x.E1.rand).1 : Int) + 1

/-- The session id, the state and the pledged collaterals agree with each
other: no session (id 0, `Idle`, nothing pledged), a session collecting
participants (`Queue`), or a session that filled up (`AcceptingEntries` or
`Signing`, with the round's number of collaterals pledged). -/
def SessionCoherent (P : Params) (s : CPrivateSendServer) : Prop :=
  (s.nSessionID = 0 ∧ s.nState = POOL_STATE_IDLE ∧ s.vecSessionCollaterals = []) ∨
    (s.nSessionID ≠ 0 ∧ s.nState = POOL_STATE_QUEUE) ∨
    (s.nSessionID ≠ 0 ∧
      (s.nState = POOL_STATE_ACCEPTING_ENTRIES ∨ s.nState = POOL_STATE_SIGNING) ∧
      IsSessionReady P s = true)

/-- The session id, the state and the pledged collaterals are those of `s`. -/
def SameView (s t : CPrivateSendServer) : Prop :=
  t.nSessionID = s.nSessionID ∧ t.nState = s.nState ∧
    t.vecSessionCollaterals = s.vecSessionCollaterals

/-- Sample build with a second denomination: outputs of value 100 are denomination 1, outputs of value 10 denomination 2. -/
def sampleTwoDenoms : Params :=
  { sampleParams with
    GetDenominations := fun outs =>
      if outs.isEmpty then 0 else if outs.all (fun o => o.nValue == 100) then 1
      else if outs.all (fun o => o.nValue == 10) then 2 else 0
    GetDenominationsBits := fun nDenom => nDenom == 1 || nDenom == 2 }

/-- Sample build with the unit-test flag set. -/
def sampleUnitTest : Params := { sampleParams with fUnitTest := true }

/-- A collateral the sample surroundings find invalid: it has no output. -/
def sampleEmptyCollateral : CTransaction := { sampleCollateral 3 with vout := [] }

/-- Whatever the random draws, the timeout check submits no transaction and
sends nothing: the trace of effects is the one before. -/
def TimeoutChargesNobody (P : Params) (E : Env) (s : CPrivateSendServer) : Prop :=
  ∀ rand : List Nat, (CheckTimeout P { E with rand := rand } s).effects = s.effects

/-- The call `VerifyScript(txNew.vin[nTxInIndex].scriptSig, sigPubKey, ...,
MutableTransactionSignatureChecker(&txNew, nTxInIndex))` that
`IsInputScriptSigValid` makes for `txin`: the signature script, the locking
script, the transaction and the input index handed over, or `none` when no
pooled input has the previous output of `txin`. -/
def verifyScriptCall (P : Params) (txin : CTxIn) (s : CPrivateSendServer) :
    Option (CScript × CScript × CMutableTransaction × Nat) :=
  let txNew := pooledTransaction P s
  let r := scanInputs txin (s.vecEntries.flatMap (fun entry => entry.vecTxPSIn))
  if r.2.1 ≥ 0 then
    some (txin.scriptSig, r.2.2,
      { txNew with
        vin := txNew.vin.modify (fun t => { t with scriptSig := txin.scriptSig }) r.2.1.toNat },
      r.2.1.toNat)
  else none

/-- Previous output and sequence number of each input of an entry. -/
def entryRefs (e : CPrivateSendEntry) : List (COutPoint × Nat) :=
  e.vecTxPSIn.map (fun txpsin => (txpsin.prevout, txpsin.nSequence))

/-- Every input of the joint transaction has the previous output and the
sequence number of a pooled input, as after `CreateFinalTransaction`. -/
def JointFromPool (s : CPrivateSendServer) : Prop :=
  ∀ txin ∈ s.finalMutableTransaction.vin,
    (txin.prevout, txin.nSequence) ∈ s.vecEntries.flatMap entryRefs

/-- No two pooled inputs, of the same entry or of different entries, refer to
the same previous output. -/
def PooledPrevoutsDistinct (s : CPrivateSendServer) : Prop :=
  ((s.vecEntries.flatMap (fun entry => entry.vecTxPSIn)).map (fun txpsin => txpsin.prevout)).Nodup

instance (s : CPrivateSendServer) : Decidable (PooledPrevoutsDistinct s) := by
  unfold PooledPrevoutsDistinct
  infer_instance

instance (s : CPrivateSendServer) : Decidable (JointFromPool s) := by
  unfold JointFromPool
  infer_instance

/-- An input of the joint transaction after it took the signature: the
submitted signature script and the submitted cached locking script. -/
def signedJointInput (txinNew txin : CTxIn) : CTxIn :=
  { txin with scriptSig := txinNew.scriptSig, prevPubKey := txinNew.prevPubKey }

/-- The first participant's input once more, under another signature script
that the sample build also verifies. -/
def sampleResignedInput : CTxIn := { sampleSignedInput 11 with scriptSig := [172, 99] }

/-- Sample surroundings whose admission pipeline rejects every transaction. -/
def sampleRejectingEnv (ms : Int) : Env := { sampleEnv ms with mempoolAccepts := fun _ _ => false }

/-- The sample session in `Signing` once both signatures are recorded, before the pool is checked. -/
def sampleAllSigned : CPrivateSendServer :=
  (AddScriptSig sampleParams (sampleSignedInput 10) sampleOneSigned).2

/-- Sample surroundings on whose chain transaction `h` has one output of value 10. -/
def sampleSmallCoinEnv (ms : Int) : Env :=
  { sampleEnv ms with
    GetTransaction := fun h =>
      some { nVersion := 1, vin := [], vout := [{ nValue := 10, scriptPubKey := sampleScript h }],
             nLockTime := 0 } }

/-- Sample entry of denomination 2: the one output of transaction 12 in, value 10 out. -/
def sampleSmallEntry : CPrivateSendEntry :=
  { sampleEntry 1 12 with
    vecTxPSOut := [{ nValue := 10, scriptPubKey := sampleScript 51, nSentTimes := 0 }] }

/-- The first block of `CheckTimeout`: the expired announcements leave the local cache. -/
def purgeExpired (P : Params) (E : Env) (s : CPrivateSendServer) : CPrivateSendServer :=
  { s with
    vecPrivatesendQueue :=
      s.vecPrivatesendQueue.filter (fun q => !CPrivatesendQueue_IsExpired P E q) }

/-- The timeout `nTimeout` of `CheckTimeout`, in seconds: the signing timeout in
`Signing`, the queue timeout in every other state. -/
def effectiveTimeout (P : Params) (s : CPrivateSendServer) : Int :=
  if s.nState = POOL_STATE_SIGNING then P.PRIVATESEND_SIGNING_TIMEOUT
  else P.PRIVATESEND_QUEUE_TIMEOUT

/-- Sample build of a node that is not a facilitator. -/
def sampleClientParams : Params := { sampleParams with fDyNode := false }

/-- The sample session in `Signing` put into state `Error`, as `SetState` does on a node that is not a facilitator. -/
def sampleFailed : CPrivateSendServer := SetState sampleClientParams POOL_STATE_ERROR sampleSigning

/-- The test `GetRandInt(100) > 33` at the head of `ChargeFees`, on a first draw of
value `draw`: true when the function returns at once. -/
def firstDrawSkips (draw : Nat) : Bool := decide ((GetRandInt 100 [draw]).1 > 33)

/-- The test `GetRandInt(100) > 10` in the loop of `ChargeRandomFees`, on a draw of
value `draw`: true when the function returns. -/
def randomFeeDrawStops (draw : Nat) : Bool := decide ((GetRandInt 100 [draw]).1 > 10)

/-- The second draw of `ChargeFees`, made when the offences number at least `PoolMaxTransactions - 1`. -/
def secondDraw (E : Env) : Nat := (GetRandInt 100 (GetRandInt 100 E.rand).2).1

/-- The trace of one charge: the collateral handed to the admission pipeline
with its verdict, and relayed when it is accepted. -/
def chargeTrace (E : Env) (tx : CTransaction) (s : CPrivateSendServer) : List Effect :=
  Effect.AcceptToMemoryPool tx (E.mempoolAccepts s.effects tx) ::
    (if E.mempoolAccepts s.effects tx then [Effect.RelayTransaction tx] else [])

/-- Sample entry of participant 1 with two inputs: the outputs of transactions
11 and 12 in, two outputs of value 100 out. -/
def sampleDoubleEntry : CPrivateSendEntry :=
  { vecTxPSIn := [{ prevout := { hash := 11, n := 0 }, scriptSig := [], nSequence := 4294967295,
                    prevPubKey := sampleScript 11, fHasSig := false, nSentTimes := 0 },
                  { prevout := { hash := 12, n := 0 }, scriptSig := [], nSequence := 4294967295,
                    prevPubKey := sampleScript 12, fHasSig := false, nSentTimes := 0 }]
    vecTxPSOut := [{ nValue := 100, scriptPubKey := sampleScript 51, nSentTimes := 0 },
                   { nValue := 100, scriptPubKey := sampleScript 61, nSentTimes := 0 }]
    txCollateral := sampleCollateral 1 }

/-- The sample round with the two-input entry of participant 1 and the entry of
participant 2, in `Signing`, after participant 2 has signed. -/
def sampleDoubleSigning : CPrivateSendServer :=
  ProcessMessage sampleParams (sampleEnv 6000) (samplePeer 2)
    (Message.PSSIGNFINALTX [sampleSignedInput 10])
    (ProcessMessage sampleParams (sampleEnv 5000) (samplePeer 2)
      (Message.PSVIN (sampleEntry 2 10))
      (ProcessMessage sampleParams (sampleEnv 4000) (samplePeer 1)
        (Message.PSVIN sampleDoubleEntry) sampleAccepting))

/-- The collateral of every entry is among the session collaterals. -/
def EntriesPledged (s : CPrivateSendServer) : Prop :=
  ∀ entry ∈ s.vecEntries, entry.txCollateral ∈ s.vecSessionCollaterals

/-- One coordinator operation, under any answers of the surroundings, in which
an entry that is submitted, in a `PSVIN` message or straight to `AddEntry`,
carries a collateral that is among the session collaterals at that time. -/
inductive PledgedStep (P : Params) : CPrivateSendServer → CPrivateSendServer → Prop
  | processMessage (E : Env) (pfrom : CNode) (msg : Message) (s : CPrivateSendServer) :
      (∀ entry, msg = Message.PSVIN entry → entry.txCollateral ∈ s.vecSessionCollaterals) →
      PledgedStep P s (ProcessMessage P E pfrom msg s)
  | addEntry (E : Env) (entryNew : CPrivateSendEntry) (nMessageIDRet : PoolMessage)
      (s : CPrivateSendServer) : entryNew.txCollateral ∈ s.vecSessionCollaterals →
      PledgedStep P s (AddEntry P E entryNew nMessageIDRet s).2.2
  | checkPool (E : Env) (s : CPrivateSendServer) : PledgedStep P s (CheckPool P E s)
  | checkTimeout (E : Env) (s : CPrivateSendServer) : PledgedStep P s (CheckTimeout P E s)
  | checkForCompleteQueue (E : Env) (s : CPrivateSendServer) :
      PledgedStep P s (CheckForCompleteQueue P E s)
  | setNull (E : Env) (s : CPrivateSendServer) : PledgedStep P s (SetNull P E s)

/-- The session states such operations lead to from an initial one. -/
inductive PledgedReachable (P : Params) : CPrivateSendServer → Prop
  | init (s : CPrivateSendServer) : IsInitial s → PledgedReachable P s
  | step (s t : CPrivateSendServer) : PledgedReachable P s → PledgedStep P s t →
      PledgedReachable P t

/-- The first sample entry under a collateral nobody pledged. -/
def sampleUnpledgedEntry : CPrivateSendEntry :=
  { sampleEntry 1 11 with txCollateral := sampleCollateral 7 }

/-- The sample session accepting entries, after the entry with the unpledged collateral. -/
def sampleUnpledged : CPrivateSendServer :=
  ProcessMessage sampleParams (sampleEnv 4000) (samplePeer 1)
    (Message.PSVIN sampleUnpledgedEntry) sampleAccepting

/-- The admission pipeline turns down every transaction that names one
previous output in two of its inputs. -/
def RejectsDuplicateInputs (E : Env) : Prop :=
  ∀ (done : List Effect) (tx : CTransaction),
    ¬ (tx.vin.map (fun txin => txin.prevout)).Nodup → E.mempoolAccepts done tx = false

/-- One coordinator operation reached through the message handlers and the
timer, under an admission pipeline that turns down a transaction naming one
previous output twice; `AddEntry` is called by the `PSVIN` handler only. -/
inductive HandlerStep (P : Params) : CPrivateSendServer → CPrivateSendServer → Prop
  | processMessage (E : Env) (pfrom : CNode) (msg : Message) (s : CPrivateSendServer) :
      RejectsDuplicateInputs E → HandlerStep P s (ProcessMessage P E pfrom msg s)
  | checkPool (E : Env) (s : CPrivateSendServer) : HandlerStep P s (CheckPool P E s)
  | checkTimeout (E : Env) (s : CPrivateSendServer) : HandlerStep P s (CheckTimeout P E s)
  | checkForCompleteQueue (E : Env) (s : CPrivateSendServer) :
      HandlerStep P s (CheckForCompleteQueue P E s)
  | setNull (E : Env) (s : CPrivateSendServer) : HandlerStep P s (SetNull P E s)

/-- The session states such operations lead to from an initial one. -/
inductive HandlerReachable (P : Params) : CPrivateSendServer → Prop
  | init (s : CPrivateSendServer) : IsInitial s → HandlerReachable P s
  | step (s t : CPrivateSendServer) : HandlerReachable P s → HandlerStep P s t →
      HandlerReachable P t

/-- No entry names one previous output in two of its own inputs. -/
def EntriesWellFormed (s : CPrivateSendServer) : Prop :=
  ∀ entry ∈ s.vecEntries, (entryPrevouts entry).Nodup

/-- Sample entry whose two inputs name the same previous output. -/
def sampleTwinEntry : CPrivateSendEntry :=
  { sampleDoubleEntry with
    vecTxPSIn := [{ prevout := { hash := 11, n := 0 }, scriptSig := [], nSequence := 4294967295,
                    prevPubKey := sampleScript 11, fHasSig := false, nSentTimes := 0 },
                  { prevout := { hash := 11, n := 0 }, scriptSig := [], nSequence := 4294967295,
                    prevPubKey := sampleScript 11, fHasSig := false, nSentTimes := 0 }] }

/-- Sample surroundings whose admission pipeline accepts a transaction exactly
when its inputs name different previous outputs. -/
def sampleStrictEnv (ms : Int) : Env :=
  { sampleEnv ms with
    mempoolAccepts := fun _ tx => decide (tx.vin.map (fun txin => txin.prevout)).Nodup }

/-- The sample session accepting entries, after `AddEntry` took the entry with the twin inputs. -/
def sampleTwin : CPrivateSendServer :=
  (AddEntry sampleParams (sampleEnv 4000) sampleTwinEntry MSG_NOERR sampleAccepting).2.2

/-- What the `PSQUEUE` handler asks of an announcement before it stores and
relays it, as far as the announcement, the cache and the registry go. -/
structure QueueAnnouncementFresh (P : Params) (E : Env) (psq : CPrivatesendQueue)
    (s : CPrivateSendServer) : Prop where
  unseen : ∀ q ∈ s.vecPrivatesendQueue, q ≠ psq
  notExpired : CPrivatesendQueue_IsExpired P E psq = false
  notAhead : psq.nTime ≤ E.GetTime + P.PRIVATESEND_QUEUE_TIMEOUT
  signed : ∃ pmn, dnodeman_Find psq.vin s = some pmn ∧
    P.CheckSignature psq pmn.pubKeyDynode = true
  notReady : psq.fReady = false
  oneEach : ∀ q ∈ s.vecPrivatesendQueue, q.vin ≠ psq.vin

/-- The rate-limit test of the `PSQUEUE` handler on the announcer's registry
record: its last announcement lies fewer than a fifth of the enabled
facilitators back in the count of announcements, the threshold being taken as
an `int`. -/
def queueTooRecent (E : Env) (pmn : CDynode) (s : CPrivateSendServer) : Prop :=
  pmn.nLastPsq ≠ 0 ∧ toInt32 (pmn.nLastPsq + E.CountEnabled.tdiv 5) > s.nPsqCount

instance (E : Env) (pmn : CDynode) (s : CPrivateSendServer) :
    Decidable (queueTooRecent E pmn s) := by
  unfold queueTooRecent; infer_instance

/-- The object after the `PSQUEUE` handler stored and relayed the announcement. -/
def queueStored (psq : CPrivatesendQueue) (s : CPrivateSendServer) : CPrivateSendServer :=
  emit (Effect.RelayQueue psq)
    { s with
      nPsqCount := s.nPsqCount + 1
      vDynodes := dnodeman_Update psq.vin
        (fun dn => { dn with nLastPsq := s.nPsqCount + 1, fAllowMixingTx := true })
        s.vDynodes
      vecPrivatesendQueue := s.vecPrivatesendQueue ++ [psq] }

/-- Sample not-ready announcement of the registered facilitator, dated second 1. -/
def sampleAnnouncement : CPrivatesendQueue :=
  { nDenom := 1, vin := sampleParams.activeDynodeVin, nTime := 1, fReady := false, vchSig := [1] }

/-- A connected peer one protocol version below the minimum of the sample build. -/
def sampleOldPeer : CNode := { id := 3, nVersion := 70899 }

/-- The sample session right after the second join request, before the timer
tick: in `Queue`, with the round's two collaterals pledged. -/
def sampleReady : CPrivateSendServer :=
  ProcessMessage sampleParams (sampleEnv 2000) (samplePeer 2)
    (Message.PSACCEPT 1 (sampleCollateral 2)) sampleQueued

/-- Sample cache with an announcement dated second 1, one dated second 100 and
one dated second 2, put into the sample facilitator right after construction. -/
def sampleCached : CPrivateSendServer :=
  { sampleInitial with
    vecPrivatesendQueue :=
      [sampleAnnouncement, { sampleAnnouncement with nTime := 100 },
        { sampleAnnouncement with nTime := 2 }] }

/-- The codes with which the `PSVIN` handler turns an entry down before it
calls `AddEntry`. -/
def handlerRejectCodes : List PoolMessage :=
  [ERR_VERSION, ERR_SESSION, ERR_MAXIMUM, ERR_EXISTING_TX, ERR_NON_STANDARD_PUBKEY,
    ERR_INVALID_SCRIPT, ERR_MISSING_TX, ERR_FEES, ERR_INVALID_TX]

/-- The codes with which `AddEntry` turns an entry down on a facilitator. -/
def addEntryRejectCodes : List PoolMessage :=
  [ERR_INVALID_INPUT, ERR_INVALID_COLLATERAL, ERR_ENTRIES_FULL, ERR_ALREADY_HAVE]

/-- A session in `Signing` holds a full round of entries. -/
def SigningFull (P : Params) (s : CPrivateSendServer) : Prop :=
  s.nState = POOL_STATE_SIGNING → P.GetMaxPoolTransactions ≤ GetEntriesCount s

instance (P : Params) (s : CPrivateSendServer) : Decidable (SigningFull P s) := by
  unfold SigningFull; infer_instance

/-- The state is that of `s` and no entry of `s` is missing. -/
def RoundKept (s t : CPrivateSendServer) : Prop :=
  t.nState = s.nState ∧ GetEntriesCount s ≤ GetEntriesCount t

/-- A network address with its port (`CService`). -/
structure CService where
  ip : Nat
  port : Nat
deriving DecidableEq, Repr

/-- Modelled from the spec: `Params()` is declared in `chainparams.h`, which
is not among the sources; the manager reads two values of it. -/
structure CChainParams where
  /-- The value of `Params().AllowMultiplePorts()`. -/
  AllowMultiplePorts : Bool
  /-- The value of `Params().FulfilledRequestExpireTime()`. -/
  FulfilledRequestExpireTime : Int
deriving DecidableEq, Repr

/-- The inner map of the manager (`fulfilledreqmapentry_t`): request name to
expiry time, as an association list with distinct keys. -/
abbrev fulfilledreqmapentry_t := List (String × Int)

/-- The map of the manager (`fulfilledreqmap_t`): address to inner map, as an
association list with distinct keys. -/
abbrev fulfilledreqmap_t := List (CService × fulfilledreqmapentry_t)

/-- The member `mapFulfilledRequests` of `CNetFulfilledRequestManager`. -/
structure CNetFulfilledRequestManager where
  mapFulfilledRequests : fulfilledreqmap_t
deriving DecidableEq, Repr

/-- The lookup `find` of a `std::map`. -/
def mapFind {κ ν : Type} [DecidableEq κ] (k : κ) (m : List (κ × ν)) : Option ν :=
  (m.find? (fun p => decide (p.1 = k))).map (fun p => p.2)

/-- The assignment `m[k] = v` of a `std::map`. -/
def mapAssign {κ ν : Type} [DecidableEq κ] (k : κ) (v : ν) : List (κ × ν) → List (κ × ν)
  | [] => [(k, v)]
  | p :: rest => if p.1 = k then (k, v) :: rest else p :: mapAssign k v rest

/-- The call `erase(k)` of a `std::map`. -/
def mapErase {κ ν : Type} [DecidableEq κ] (k : κ) (m : List (κ × ν)) : List (κ × ν) :=
  m.filter (fun p => !decide (p.1 = k))

/-- The address the manager files a request under:
`Params().AllowMultiplePorts() ? addr : CService(addr, 0)`. -/
def addrSquashed (C : CChainParams) (addr : CService) : CService :=
  if C.AllowMultiplePorts then addr else { addr with port := 0 }

/-- Source: `CNetFulfilledRequestManager::AddFulfilledRequest`, at clock `GetTime`. -/
def AddFulfilledRequest (C : CChainParams) (GetTime : Int) (addr : CService)
    (strRequest : String) (man : CNetFulfilledRequestManager) : CNetFulfilledRequestManager :=
  let entry := (mapFind (addrSquashed C addr) man.mapFulfilledRequests).getD []
  { mapFulfilledRequests :=
      mapAssign (addrSquashed C addr)
        (mapAssign strRequest (GetTime + C.FulfilledRequestExpireTime) entry)
        man.mapFulfilledRequests }

/-- Source: `CNetFulfilledRequestManager::HasFulfilledRequest`, at clock `GetTime`. -/
def HasFulfilledRequest (C : CChainParams) (GetTime : Int) (addr : CService)
    (strRequest : String) (man : CNetFulfilledRequestManager) : Bool :=
  match mapFind (addrSquashed C addr) man.mapFulfilledRequests with
  | none => false
  | some entry =>
    match mapFind strRequest entry with
    | none => false
    | some nExpiry => decide (nExpiry > GetTime)

/-- Source: `CNetFulfilledRequestManager::RemoveFulfilledRequest`. -/
def RemoveFulfilledRequest (C : CChainParams) (addr : CService) (strRequest : String)
    (man : CNetFulfilledRequestManager) : CNetFulfilledRequestManager :=
  match mapFind (addrSquashed C addr) man.mapFulfilledRequests with
  | none => man
  | some entry =>
    { mapFulfilledRequests :=
        mapAssign (addrSquashed C addr) (mapErase strRequest entry) man.mapFulfilledRequests }

/-- Source: `CNetFulfilledRequestManager::CheckAndRemove`, at clock `now`: the
inner loop erases the requests with `now > expiry`, the outer loop the
addresses whose inner map is left empty. -/
def CheckAndRemove (now : Int) (man : CNetFulfilledRequestManager) :
    CNetFulfilledRequestManager :=
  { mapFulfilledRequests :=
      man.mapFulfilledRequests.filterMap (fun p =>
        let entry := p.2.filter (fun q => !decide (now > q.2))
        if entry.length = 0 then none else some (p.1, entry)) }

/-- Source: `CNetFulfilledRequestManager::Clear`. -/
def Clear (_man : CNetFulfilledRequestManager) : CNetFulfilledRequestManager :=
  { mapFulfilledRequests := [] }

/-- Sample chain parameters: one port per address, requests kept for 60 seconds. -/
def sampleChain : CChainParams :=
  { AllowMultiplePorts := false, FulfilledRequestExpireTime := 60 }

/-- Sample peer address. -/
def sampleService : CService := { ip := 167772161, port := 33300 }

/-- The manager after the sample peer's request "psq" was recorded at second 100. -/
def sampleFulfilled : CNetFulfilledRequestManager :=
  AddFulfilledRequest sampleChain 100 sampleService "psq" (Clear { mapFulfilledRequests := [] })

theorem RelayStatus_eq (P : Params) (E : Env) (u : PoolStatusUpdate) (m : PoolMessage)
    (s : CPrivateSendServer) :
    RelayStatus P E u m s = { s with effects := s.effects ++ relayedStatus P E u m s } := by
  unfold RelayStatus relayedStatus
  generalize relayPeers P E = l
  induction l generalizing s with
  | nil => simp
  | cons a l ih => rw [List.foldl_cons, ih]; simp [PushStatus, emit]

theorem RelayFinalTransaction_eq (P : Params) (E : Env) (tx : CTransaction)
    (s : CPrivateSendServer) :
    RelayFinalTransaction P E tx s =
      { s with effects := s.effects ++ relayedFinalTransaction P E tx s } := by
  unfold RelayFinalTransaction relayedFinalTransaction
  generalize relayPeers P E = l
  induction l generalizing s with
  | nil => simp
  | cons a l ih => rw [List.foldl_cons, ih]; simp [emit]

theorem RelayCompletedTransaction_eq (P : Params) (E : Env) (m : PoolMessage)
    (s : CPrivateSendServer) :
    RelayCompletedTransaction P E m s =
      { s with effects := s.effects ++ relayedCompleted P E m s } := by
  unfold RelayCompletedTransaction relayedCompleted
  generalize relayPeers P E = l
  induction l generalizing s with
  | nil => simp
  | cons a l ih => rw [List.foldl_cons, ih]; simp [emit]

theorem SameSession.refl (s : CPrivateSendServer) : SameSession s s :=
  ⟨[], by simp⟩

theorem SameSession.trans {s t u : CPrivateSendServer} (h1 : SameSession s t)
    (h2 : SameSession t u) : SameSession s u := by
  obtain ⟨l1, rfl⟩ := h1
  obtain ⟨l2, rfl⟩ := h2
  exact ⟨l1 ++ l2, by simp⟩

theorem sameSession_emit (e : Effect) (s : CPrivateSendServer) : SameSession s (emit e s) :=
  ⟨[e], rfl⟩

theorem sameSession_AcceptToMemoryPool (E : Env) (tx : CTransaction) (s : CPrivateSendServer) :
    SameSession s (AcceptToMemoryPool E tx s).2 :=
  ⟨[_], rfl⟩

theorem sameSession_PushStatus (pnode : CNode) (u : PoolStatusUpdate) (m : PoolMessage)
    (s : CPrivateSendServer) : SameSession s (PushStatus pnode u m s) :=
  ⟨[_], rfl⟩

theorem sameSession_RelayStatus (P : Params) (E : Env) (u : PoolStatusUpdate) (m : PoolMessage)
    (s : CPrivateSendServer) : SameSession s (RelayStatus P E u m s) :=
  ⟨_, RelayStatus_eq P E u m s⟩

theorem sameSession_RelayFinalTransaction (P : Params) (E : Env) (tx : CTransaction)
    (s : CPrivateSendServer) : SameSession s (RelayFinalTransaction P E tx s) :=
  ⟨_, RelayFinalTransaction_eq P E tx s⟩

theorem sameSession_RelayCompletedTransaction (P : Params) (E : Env) (m : PoolMessage)
    (s : CPrivateSendServer) : SameSession s (RelayCompletedTransaction P E m s) :=
  ⟨_, RelayCompletedTransaction_eq P E m s⟩

theorem sameSession_chargeRandomFeesLoop (E : Env) (txs : List CTransaction) (draws : List Nat)
    (s : CPrivateSendServer) : SameSession s (chargeRandomFeesLoop E txs draws s) := by
  induction txs generalizing draws s with
  | nil => exact SameSession.refl s
  | cons tx rest ih =>
    simp only [chargeRandomFeesLoop]
    split
    · exact SameSession.refl s
    · refine SameSession.trans ?_ (ih _ _)
      split
      · exact sameSession_AcceptToMemoryPool E tx s
      · exact (sameSession_AcceptToMemoryPool E tx s).trans (sameSession_emit _ _)

theorem sameSession_ChargeRandomFees (P : Params) (E : Env) (s : CPrivateSendServer) :
    SameSession s (ChargeRandomFees P E s) := by
  unfold ChargeRandomFees
  split
  · exact SameSession.refl s
  · exact sameSession_chargeRandomFeesLoop E _ _ s

theorem sameSession_ChargeFees (P : Params) (E : Env) (s : CPrivateSendServer) :
    SameSession s (ChargeFees P E s) := by
  unfold ChargeFees
  simp only []
  repeat' split
  all_goals first
    | exact SameSession.refl s
    | exact sameSession_AcceptToMemoryPool E _ s
    | exact (sameSession_AcceptToMemoryPool E _ s).trans (sameSession_emit _ _)

theorem SameSession.nState {s t : CPrivateSendServer} (h : SameSession s t) :
    t.nState = s.nState := by
  obtain ⟨l, rfl⟩ := h; rfl

theorem SameSession.vecEntries {s t : CPrivateSendServer} (h : SameSession s t) :
    t.vecEntries = s.vecEntries := by
  obtain ⟨l, rfl⟩ := h; rfl

theorem SetNull_nState (P : Params) (E : Env) (s : CPrivateSendServer) :
    (SetNull P E s).nState = POOL_STATE_IDLE := rfl

theorem AddEntry_nState (P : Params) (E : Env) (e : CPrivateSendEntry) (m : PoolMessage)
    (s : CPrivateSendServer) : (AddEntry P E e m s).2.2.nState = s.nState := by
  unfold AddEntry
  repeat' split
  all_goals rfl

theorem AddScriptSig_nState (P : Params) (txin : CTxIn) (s : CPrivateSendServer) :
    (AddScriptSig P txin s).2.nState = s.nState := by
  unfold AddScriptSig
  repeat' split
  all_goals rfl

theorem addScriptSigs_nState (P : Params) (l : List CTxIn) (s : CPrivateSendServer) :
    (addScriptSigs P l s).2.nState = s.nState := by
  induction l generalizing s with
  | nil => rfl
  | cons a l ih =>
    simp only [addScriptSigs]
    split
    · exact AddScriptSig_nState P a s
    · rw [ih, AddScriptSig_nState]

theorem CreateFinalTransaction_nState (P : Params) (E : Env) (s : CPrivateSendServer) :
    (CreateFinalTransaction P E s).nState = POOL_STATE_SIGNING := by
  simp [CreateFinalTransaction, SetState]

theorem CommitFinalTransaction_nState (P : Params) (E : Env) (s : CPrivateSendServer) :
    (CommitFinalTransaction P E s).nState = s.nState ∨
      (CommitFinalTransaction P E s).nState = POOL_STATE_IDLE := by
  unfold CommitFinalTransaction
  simp only []
  repeat' split
  all_goals first
    | exact Or.inl rfl
    | (right; rw [(sameSession_RelayCompletedTransaction _ _ _ _).nState]; rfl)
    | (right; rfl)

theorem CheckPool_nState (P : Params) (E : Env) (s : CPrivateSendServer) :
    StateEdge s.nState (CheckPool P E s).nState := by
  unfold CheckPool
  split
  · rename_i h
    rw [CreateFinalTransaction_nState]
    exact Or.inr (Or.inr (Or.inr (Or.inl ⟨h.2.1, rfl⟩)))
  · split
    · rcases CommitFinalTransaction_nState P E s with h | h
      · exact Or.inl h
      · exact Or.inr (Or.inr (Or.inr (Or.inr h)))
    · split
      · exact Or.inr (Or.inr (Or.inr (Or.inr rfl)))
      · exact Or.inl rfl

theorem CheckTimeout_nState (P : Params) (E : Env) (s : CPrivateSendServer) :
    (CheckTimeout P E s).nState = s.nState ∨ (CheckTimeout P E s).nState = POOL_STATE_IDLE := by
  unfold CheckTimeout
  by_cases hl : E.lockPS = true <;> by_cases hd : P.fDyNode = true <;> simp [hl, hd]
  split_ifs
  all_goals first
    | (left; rfl)
    | (right; simp [SetState, hd, SetNull_nState])

theorem CheckForCompleteQueue_nState (P : Params) (E : Env) (s : CPrivateSendServer) :
    StateEdge s.nState (CheckForCompleteQueue P E s).nState := by
  unfold CheckForCompleteQueue
  split
  · exact Or.inl rfl
  · split
    · rename_i h
      exact Or.inr (Or.inr (Or.inl ⟨h.1, by simp [emit, SetState]⟩))
    · exact Or.inl rfl

theorem CreateNewSession_nState (P : Params) (E : Env) (nDenom : Int) (tx : CTransaction)
    (m : PoolMessage) (s : CPrivateSendServer) :
    StateEdge s.nState (CreateNewSession P E nDenom tx m s).2.2.nState := by
  unfold CreateNewSession
  simp only []
  split
  · exact Or.inl rfl
  · split
    · exact Or.inl rfl
    · rename_i h
      split
      · exact Or.inl rfl
      · simp at h
        refine Or.inr (Or.inl ⟨h, ?_⟩)
        split <;> simp [SetState, emit]

theorem AddUserToExistingSession_nState (P : Params) (E : Env) (nDenom : Int)
    (tx : CTransaction) (m : PoolMessage) (s : CPrivateSendServer) :
    (AddUserToExistingSession P E nDenom tx m s).2.2.nState = s.nState := by
  unfold AddUserToExistingSession
  simp only []
  repeat' split
  all_goals rfl

theorem ProcessPSACCEPT_nState (P : Params) (E : Env) (pfrom : CNode) (nDenom : Int)
    (tx : CTransaction) (s : CPrivateSendServer) :
    StateEdge s.nState (ProcessPSACCEPT P E pfrom nDenom tx s).nState := by
  unfold ProcessPSACCEPT
  simp only []
  repeat' split
  all_goals rw [(sameSession_PushStatus _ _ _ _).nState]
  all_goals first
    | exact Or.inl rfl
    | exact CreateNewSession_nState P E nDenom tx _ s
    | exact Or.inl (AddUserToExistingSession_nState P E nDenom tx _ s)

theorem ProcessPSQUEUE_nState (P : Params) (E : Env) (pfrom : CNode) (psq : CPrivatesendQueue)
    (s : CPrivateSendServer) : (ProcessPSQUEUE P E pfrom psq s).nState = s.nState := by
  unfold ProcessPSQUEUE
  simp only []
  repeat' split
  all_goals rfl

theorem admitEntry_nState (P : Params) (E : Env) (pfrom : CNode) (entry : CPrivateSendEntry)
    (s : CPrivateSendServer) : StateEdge s.nState (admitEntry P E pfrom entry s).nState := by
  unfold admitEntry
  simp only []
  split
  · rw [(sameSession_RelayStatus _ _ _ _ _).nState]
    have h := CheckPool_nState P E (PushStatus pfrom STATUS_ACCEPTED
      (AddEntry P E entry MSG_NOERR s).2.1 (AddEntry P E entry MSG_NOERR s).2.2)
    rw [(sameSession_PushStatus _ _ _ _).nState, AddEntry_nState] at h
    exact h
  · exact Or.inr (Or.inr (Or.inr (Or.inr rfl)))

theorem ProcessPSVIN_nState (P : Params) (E : Env) (pfrom : CNode) (entry : CPrivateSendEntry)
    (s : CPrivateSendServer) : StateEdge s.nState (ProcessPSVIN P E pfrom entry s).nState := by
  unfold ProcessPSVIN
  simp only []
  repeat' split
  all_goals first
    | exact Or.inl rfl
    | exact admitEntry_nState P E pfrom entry _

theorem ProcessPSSIGNFINALTX_nState (P : Params) (E : Env) (pfrom : CNode) (l : List CTxIn)
    (s : CPrivateSendServer) :
    StateEdge s.nState (ProcessPSSIGNFINALTX P E pfrom l s).nState := by
  unfold ProcessPSSIGNFINALTX
  simp only []
  repeat' split
  · exact Or.inl rfl
  · rw [(sameSession_RelayStatus _ _ _ _ _).nState, addScriptSigs_nState]
    exact Or.inl rfl
  · have h := CheckPool_nState P E (addScriptSigs P l s).2
    rw [addScriptSigs_nState] at h
    exact h

theorem ProcessMessage_nState (P : Params) (E : Env) (pfrom : CNode) (msg : Message)
    (s : CPrivateSendServer) : StateEdge s.nState (ProcessMessage P E pfrom msg s).nState := by
  unfold ProcessMessage
  repeat' split
  all_goals first
    | exact Or.inl rfl
    | exact ProcessPSACCEPT_nState ..
    | exact Or.inl (ProcessPSQUEUE_nState ..)
    | exact ProcessPSVIN_nState ..
    | exact ProcessPSSIGNFINALTX_nState ..

theorem step_nState (P : Params) (s t : CPrivateSendServer) (h : Step P s t) :
    StateEdge s.nState t.nState := by
  cases h with
  | processMessage E pfrom msg => exact ProcessMessage_nState ..
  | addEntry E e m => exact Or.inl (AddEntry_nState ..)
  | checkPool E => exact CheckPool_nState ..
  | checkTimeout E =>
    rcases CheckTimeout_nState P E s with h | h
    · exact Or.inl h
    · exact Or.inr (Or.inr (Or.inr (Or.inr h)))
  | checkForCompleteQueue E => exact CheckForCompleteQueue_nState ..
  | setNull E => exact Or.inr (Or.inr (Or.inr (Or.inr rfl)))

theorem EntriesEdge.same (P : Params) {a b : List CPrivateSendEntry} (h : b = a) :
    EntriesEdge P a b := Or.inr (Or.inl (by rw [h]))

theorem EntriesEdge.same_or_nil (P : Params) {a b : List CPrivateSendEntry}
    (h : b = a ∨ b = []) : EntriesEdge P a b := by
  rcases h with h | h
  · exact EntriesEdge.same P h
  · exact Or.inl h

theorem AddEntry_vecEntries (P : Params) (E : Env) (e : CPrivateSendEntry) (m : PoolMessage)
    (s : CPrivateSendServer) : EntriesEdge P s.vecEntries (AddEntry P E e m s).2.2.vecEntries := by
  unfold AddEntry
  repeat' split
  all_goals try exact EntriesEdge.same P rfl
  rename_i h1 h2 h3 h4 h5
  refine Or.inr (Or.inr ⟨e, rfl, ?_, ?_⟩)
  · simpa [GetEntriesCount] using h4
  · intro x hx p hp1 hp2
    apply h5
    simp only [entryPrevouts, List.mem_map] at hp1 hp2
    obtain ⟨a, ha, rfl⟩ := hp1
    obtain ⟨b, hb, hab⟩ := hp2
    simp only [List.any_eq_true, beq_iff_eq]
    exact ⟨b, hb, x, hx, a, ha, hab.symm⟩

theorem CPrivateSendEntry_AddScriptSig_prevouts (txin : CTxIn) (l : List CTxPSIn) :
    (CPrivateSendEntry_AddScriptSig txin l).2.map (fun t => t.prevout) =
      l.map (fun t => t.prevout) := by
  induction l with
  | nil => rfl
  | cons a l ih =>
    simp only [CPrivateSendEntry_AddScriptSig]
    split
    · split <;> simp
    · simp [ih]

theorem addScriptSigToEntries_prevouts (txin : CTxIn) (l : List CPrivateSendEntry) :
    (addScriptSigToEntries txin l).2.map entryPrevouts = l.map entryPrevouts := by
  induction l with
  | nil => rfl
  | cons a l ih =>
    simp only [addScriptSigToEntries]
    split
    · simp [entryPrevouts, CPrivateSendEntry_AddScriptSig_prevouts]
    · simp [entryPrevouts, CPrivateSendEntry_AddScriptSig_prevouts] at ih ⊢
      exact ih

theorem AddScriptSig_prevouts (P : Params) (txin : CTxIn) (s : CPrivateSendServer) :
    (AddScriptSig P txin s).2.vecEntries.map entryPrevouts = s.vecEntries.map entryPrevouts := by
  unfold AddScriptSig
  repeat' split
  all_goals first
    | rfl
    | exact addScriptSigToEntries_prevouts txin s.vecEntries

theorem addScriptSigs_prevouts (P : Params) (l : List CTxIn) (s : CPrivateSendServer) :
    (addScriptSigs P l s).2.vecEntries.map entryPrevouts = s.vecEntries.map entryPrevouts := by
  induction l generalizing s with
  | nil => rfl
  | cons a l ih =>
    simp only [addScriptSigs]
    split
    · exact AddScriptSig_prevouts P a s
    · rw [ih, AddScriptSig_prevouts]

theorem CreateFinalTransaction_vecEntries (P : Params) (E : Env) (s : CPrivateSendServer) :
    (CreateFinalTransaction P E s).vecEntries = s.vecEntries := by
  simp only [CreateFinalTransaction, SetState]
  split
  · rw [(sameSession_RelayFinalTransaction _ _ _ _).vecEntries]
  · show (RelayFinalTransaction _ _ _ _).vecEntries = _
    rw [(sameSession_RelayFinalTransaction _ _ _ _).vecEntries]

theorem CommitFinalTransaction_vecEntries (P : Params) (E : Env) (s : CPrivateSendServer) :
    (CommitFinalTransaction P E s).vecEntries = s.vecEntries ∨
      (CommitFinalTransaction P E s).vecEntries = [] := by
  unfold CommitFinalTransaction
  simp only []
  repeat' split
  all_goals first
    | exact Or.inl rfl
    | (right; rw [(sameSession_RelayCompletedTransaction _ _ _ _).vecEntries]; rfl)
    | (right; rfl)

theorem CheckPool_vecEntries (P : Params) (E : Env) (s : CPrivateSendServer) :
    (CheckPool P E s).vecEntries = s.vecEntries ∨ (CheckPool P E s).vecEntries = [] := by
  unfold CheckPool
  repeat' split
  all_goals first
    | exact Or.inl rfl
    | exact Or.inl (CreateFinalTransaction_vecEntries P E s)
    | exact CommitFinalTransaction_vecEntries P E s
    | exact Or.inr rfl

theorem CheckTimeout_vecEntries (P : Params) (E : Env) (s : CPrivateSendServer) :
    (CheckTimeout P E s).vecEntries = s.vecEntries ∨ (CheckTimeout P E s).vecEntries = [] := by
  unfold CheckTimeout
  by_cases hl : E.lockPS = true <;> by_cases hd : P.fDyNode = true <;> simp [hl, hd]
  split_ifs
  all_goals first
    | (left; rfl)
    | (right; simp [SetState, hd, SetNull, CPrivateSendBase_SetNull])

theorem CheckForCompleteQueue_vecEntries (P : Params) (E : Env) (s : CPrivateSendServer) :
    (CheckForCompleteQueue P E s).vecEntries = s.vecEntries := by
  unfold CheckForCompleteQueue
  repeat' split
  all_goals first
    | rfl
    | simp [emit, SetState]

theorem CreateNewSession_vecEntries (P : Params) (E : Env) (nDenom : Int) (tx : CTransaction)
    (m : PoolMessage) (s : CPrivateSendServer) :
    (CreateNewSession P E nDenom tx m s).2.2.vecEntries = s.vecEntries := by
  unfold CreateNewSession
  simp only []
  repeat' split
  all_goals first
    | rfl
    | simp [emit, SetState]

theorem AddUserToExistingSession_vecEntries (P : Params) (E : Env) (nDenom : Int)
    (tx : CTransaction) (m : PoolMessage) (s : CPrivateSendServer) :
    (AddUserToExistingSession P E nDenom tx m s).2.2.vecEntries = s.vecEntries := by
  unfold AddUserToExistingSession
  simp only []
  repeat' split
  all_goals rfl

theorem ProcessPSACCEPT_vecEntries (P : Params) (E : Env) (pfrom : CNode) (nDenom : Int)
    (tx : CTransaction) (s : CPrivateSendServer) :
    (ProcessPSACCEPT P E pfrom nDenom tx s).vecEntries = s.vecEntries := by
  unfold ProcessPSACCEPT
  simp only []
  repeat' split
  all_goals rw [(sameSession_PushStatus _ _ _ _).vecEntries]
  all_goals first
    | rfl
    | exact CreateNewSession_vecEntries ..
    | exact AddUserToExistingSession_vecEntries ..

theorem ProcessPSQUEUE_vecEntries (P : Params) (E : Env) (pfrom : CNode)
    (psq : CPrivatesendQueue) (s : CPrivateSendServer) :
    (ProcessPSQUEUE P E pfrom psq s).vecEntries = s.vecEntries := by
  unfold ProcessPSQUEUE
  simp only []
  repeat' split
  all_goals rfl

theorem admitEntry_vecEntries (P : Params) (E : Env) (pfrom : CNode) (entry : CPrivateSendEntry)
    (s : CPrivateSendServer) : EntriesEdge P s.vecEntries (admitEntry P E pfrom entry s).vecEntries := by
  unfold admitEntry
  simp only []
  split
  · rw [(sameSession_RelayStatus _ _ _ _ _).vecEntries]
    rcases CheckPool_vecEntries P E (PushStatus pfrom STATUS_ACCEPTED
      (AddEntry P E entry MSG_NOERR s).2.1 (AddEntry P E entry MSG_NOERR s).2.2) with h | h
    · rw [h, (sameSession_PushStatus _ _ _ _).vecEntries]
      exact AddEntry_vecEntries ..
    · exact Or.inl h
  · exact Or.inl rfl

theorem ProcessPSVIN_vecEntries (P : Params) (E : Env) (pfrom : CNode) (entry : CPrivateSendEntry)
    (s : CPrivateSendServer) :
    EntriesEdge P s.vecEntries (ProcessPSVIN P E pfrom entry s).vecEntries := by
  unfold ProcessPSVIN
  simp only []
  repeat' split
  all_goals first
    | exact EntriesEdge.same P rfl
    | exact admitEntry_vecEntries P E pfrom entry _

theorem ProcessPSSIGNFINALTX_vecEntries (P : Params) (E : Env) (pfrom : CNode) (l : List CTxIn)
    (s : CPrivateSendServer) :
    EntriesEdge P s.vecEntries (ProcessPSSIGNFINALTX P E pfrom l s).vecEntries := by
  unfold ProcessPSSIGNFINALTX
  simp only []
  repeat' split
  · exact EntriesEdge.same P rfl
  · rw [(sameSession_RelayStatus _ _ _ _ _).vecEntries]
    exact Or.inr (Or.inl (addScriptSigs_prevouts P l s))
  · rcases CheckPool_vecEntries P E (addScriptSigs P l s).2 with h | h
    · rw [h]
      exact Or.inr (Or.inl (addScriptSigs_prevouts P l s))
    · exact Or.inl h

theorem step_vecEntries (P : Params) (s t : CPrivateSendServer) (h : Step P s t) :
    EntriesEdge P s.vecEntries t.vecEntries := by
  cases h with
  | processMessage E pfrom msg =>
    unfold ProcessMessage
    repeat' split
    all_goals first
      | exact EntriesEdge.same P rfl
      | exact EntriesEdge.same P (ProcessPSACCEPT_vecEntries ..)
      | exact EntriesEdge.same P (ProcessPSQUEUE_vecEntries ..)
      | exact ProcessPSVIN_vecEntries ..
      | exact ProcessPSSIGNFINALTX_vecEntries ..
  | addEntry E e m => exact AddEntry_vecEntries ..
  | checkPool E => exact EntriesEdge.same_or_nil P (CheckPool_vecEntries ..)
  | checkTimeout E => exact EntriesEdge.same_or_nil P (CheckTimeout_vecEntries ..)
  | checkForCompleteQueue E => exact EntriesEdge.same P (CheckForCompleteQueue_vecEntries ..)
  | setNull E => exact Or.inl rfl

theorem reachable_length (P : Params) (s : CPrivateSendServer) (h : Reachable P s) :
    s.vecEntries.length ≤ P.GetMaxPoolTransactions := by
  induction h with
  | init s h => simp [h.2.2.1]
  | step s t _ hst ih =>
    rcases step_vecEntries P s t hst with h | h | ⟨e, h, hlt, _⟩
    · simp [h]
    · have := congrArg List.length h
      simp only [List.length_map] at this
      omega
    · rw [h, List.length_append]
      simp
      omega

theorem reachable_crossUnique (P : Params) (s : CPrivateSendServer) (h : Reachable P s) :
    CrossUnique (s.vecEntries.map entryPrevouts) := by
  induction h with
  | init s h => simp [h.2.2.1, CrossUnique]
  | step s t _ hst ih =>
    rcases step_vecEntries P s t hst with h | h | ⟨e, h, _, hd⟩
    · simp [h, CrossUnique]
    · rw [h]; exact ih
    · rw [h, List.map_append]
      unfold CrossUnique at ih ⊢
      rw [List.pairwise_append]
      refine ⟨ih, by simp, ?_⟩
      intro a ha b hb
      simp only [List.map_cons, List.map_nil, List.mem_singleton] at hb
      obtain ⟨x, hx, rfl⟩ := List.mem_map.1 ha
      rw [hb]
      exact hd x hx

theorem Reachable.tick {P : Params} {s : CPrivateSendServer} (E : Env) (h : Reachable P s) :
    Reachable P (Tick P E s) := by
  unfold Tick
  split
  · exact Reachable.step _ _ (Reachable.step _ _ h (Step.checkTimeout E _))
      (Step.checkForCompleteQueue E _)
  · exact h

theorem sampleQueued_reachable : Reachable sampleParams sampleQueued :=
  Reachable.step _ _ (Reachable.init sampleInitial ⟨rfl, rfl, rfl, rfl, rfl, rfl⟩)
    (Step.processMessage _ _ _ _)

theorem sampleAccepting_reachable : Reachable sampleParams sampleAccepting :=
  Reachable.tick _
    (Reachable.step _ _ sampleQueued_reachable (Step.processMessage (sampleEnv 2000) _ _ _))

theorem sampleOneEntry_reachable : Reachable sampleParams sampleOneEntry :=
  Reachable.step _ _ sampleAccepting_reachable (Step.processMessage _ _ _ _)

theorem sampleSigning_reachable : Reachable sampleParams sampleSigning :=
  Reachable.step _ _ sampleOneEntry_reachable (Step.processMessage _ _ _ _)

/-- C1: in every session state that coordinator operations (the message
handlers, `AddEntry`, `CheckPool`, `CheckTimeout`, `CheckForCompleteQueue`,
`SetNull`) lead to from an initial idle session, the number of entries is at
most the maximum round size `GetMaxPoolTransactions`. -/
theorem C1_entries_within_round_size (P : Params) (s : CPrivateSendServer)
    (h : Reachable P s) : GetEntriesCount s ≤ P.GetMaxPoolTransactions :=
  reachable_length P s h

/-- C1 at the sample session that has just taken its second entry. -/
theorem C1_entries_within_round_size_witness :
    GetEntriesCount sampleSigning ≤ sampleParams.GetMaxPoolTransactions :=
  C1_entries_within_round_size sampleParams sampleSigning sampleSigning_reachable

theorem noSharedPrevout_of_crossUnique (l : List CPrivateSendEntry)
    (h : CrossUnique (l.map entryPrevouts)) : NoSharedPrevout l := by
  unfold CrossUnique at h
  rw [List.pairwise_map, List.pairwise_iff_get] at h
  intro i j hij a ha b hb hab
  rcases Nat.lt_or_gt_of_ne (fun h' => hij (Fin.ext h')) with hlt | hgt
  · exact h i j hlt (List.mem_map.2 ⟨a, ha, rfl⟩) (List.mem_map.2 ⟨b, hb, hab.symm⟩)
  · exact h j i hgt (List.mem_map.2 ⟨b, hb, rfl⟩) (List.mem_map.2 ⟨a, ha, hab⟩)

theorem any_isNull_iff (P : Params) (entryNew : CPrivateSendEntry) :
    (entryNew.vecTxPSIn.any (fun txin => P.IsNull txin.prevout)) = true ↔
      HasNullInput P entryNew := by
  simp [HasNullInput]

theorem any_pooled_iff (entryNew : CPrivateSendEntry) (s : CPrivateSendServer) :
    (entryNew.vecTxPSIn.any (fun txin =>
      s.vecEntries.any (fun entry =>
        entry.vecTxPSIn.any (fun txpsin => txpsin.prevout == txin.prevout)))) = true ↔
      HasPooledInput entryNew s := by
  simp [HasPooledInput]

/-- The outcome of `AddEntry` on a facilitator, check by check. -/
theorem AddEntry_cases (P : Params) (E : Env) (entryNew : CPrivateSendEntry) (m : PoolMessage)
    (s : CPrivateSendServer) (hD : P.fDyNode = true) :
    (HasNullInput P entryNew ∧ AddEntry P E entryNew m s = (false, ERR_INVALID_INPUT, s)) ∨
    (¬HasNullInput P entryNew ∧ E.IsCollateralValid entryNew.txCollateral = false ∧
      AddEntry P E entryNew m s = (false, ERR_INVALID_COLLATERAL, s)) ∨
    (¬HasNullInput P entryNew ∧ E.IsCollateralValid entryNew.txCollateral = true ∧
      P.GetMaxPoolTransactions ≤ GetEntriesCount s ∧
      AddEntry P E entryNew m s = (false, ERR_ENTRIES_FULL, s)) ∨
    (¬HasNullInput P entryNew ∧ E.IsCollateralValid entryNew.txCollateral = true ∧
      GetEntriesCount s < P.GetMaxPoolTransactions ∧ HasPooledInput entryNew s ∧
      AddEntry P E entryNew m s = (false, ERR_ALREADY_HAVE, s)) ∨
    (¬HasNullInput P entryNew ∧ E.IsCollateralValid entryNew.txCollateral = true ∧
      GetEntriesCount s < P.GetMaxPoolTransactions ∧ ¬HasPooledInput entryNew s ∧
      AddEntry P E entryNew m s = (true, MSG_ENTRIES_ADDED,
        { s with
          vecEntries := s.vecEntries ++ [entryNew]
          nTimeLastSuccessfulStep := E.GetTimeMillis })) := by
  unfold AddEntry
  rw [← any_isNull_iff, ← any_pooled_iff]
  simp only [hD, Bool.not_true, Bool.false_eq_true, ↓reduceIte]
  by_cases h1 : (entryNew.vecTxPSIn.any (fun txin => P.IsNull txin.prevout)) = true
  · simp [h1]
  · by_cases h2 : E.IsCollateralValid entryNew.txCollateral = true
    · by_cases h3 : P.GetMaxPoolTransactions ≤ GetEntriesCount s
      · simp [h1, h2, h3]
      · by_cases h4 : (entryNew.vecTxPSIn.any (fun txin =>
            s.vecEntries.any (fun entry =>
              entry.vecTxPSIn.any (fun txpsin => txpsin.prevout == txin.prevout)))) = true
        · simp only [h1, h2, h3, h4]
          simp
          omega
        · simp only [h1, h2, h3, h4]
          simp
          omega
    · simp [h1, h2]

/-- C2: in every reachable session state no previous-output reference occurs
in the inputs of two different entries; `AddEntry` turns down, leaving the
object as it is, every entry one of whose inputs refers to the previous
output an input of a pooled entry refers to (on a facilitator with
`ERR_ALREADY_HAVE` once the three earlier checks have passed); so the entry
list `AddEntry` leaves behind has no shared reference either. -/
theorem C2_no_prevout_in_two_entries (P : Params) (E : Env) (entryNew : CPrivateSendEntry)
    (m : PoolMessage) (s : CPrivateSendServer) (h : Reachable P s) :
    NoSharedPrevout s.vecEntries ∧
    (HasPooledInput entryNew s →
      (AddEntry P E entryNew m s).1 = false ∧ (AddEntry P E entryNew m s).2.2 = s ∧
      (P.fDyNode = true → ¬HasNullInput P entryNew →
        E.IsCollateralValid entryNew.txCollateral = true →
        GetEntriesCount s < P.GetMaxPoolTransactions →
        (AddEntry P E entryNew m s).2.1 = ERR_ALREADY_HAVE)) ∧
    NoSharedPrevout (AddEntry P E entryNew m s).2.2.vecEntries := by
  refine ⟨noSharedPrevout_of_crossUnique _ (reachable_crossUnique P s h), ?_,
    noSharedPrevout_of_crossUnique _
      (reachable_crossUnique P _ (Reachable.step _ _ h (Step.addEntry E entryNew m s)))⟩
  intro hp
  by_cases hD : P.fDyNode = true
  · rcases AddEntry_cases P E entryNew m s hD with
      ⟨h1, h⟩ | ⟨_, h2, h⟩ | ⟨_, _, h3, h⟩ | ⟨_, _, _, _, h⟩ | ⟨_, _, _, hn, _⟩
    · rw [h]; exact ⟨rfl, rfl, fun _ hn => absurd h1 hn⟩
    · rw [h]
      refine ⟨rfl, rfl, fun _ _ hc => ?_⟩
      rw [h2] at hc
      cases hc
    · rw [h]
      refine ⟨rfl, rfl, fun _ _ _ hlt => ?_⟩
      omega
    · rw [h]; exact ⟨rfl, rfl, fun _ _ _ _ => rfl⟩
    · exact absurd hp hn
  · simp only [Bool.not_eq_true] at hD
    simp [AddEntry, hD]

/-- C2 at the sample session holding one entry, offered that entry's input again. -/
theorem C2_no_prevout_in_two_entries_witness :
    NoSharedPrevout sampleOneEntry.vecEntries ∧
    (HasPooledInput (sampleEntry 2 11) sampleOneEntry →
      (AddEntry sampleParams (sampleEnv 5000) (sampleEntry 2 11) MSG_NOERR sampleOneEntry).1
        = false ∧
      (AddEntry sampleParams (sampleEnv 5000) (sampleEntry 2 11) MSG_NOERR sampleOneEntry).2.2
        = sampleOneEntry ∧
      (sampleParams.fDyNode = true → ¬HasNullInput sampleParams (sampleEntry 2 11) →
        (sampleEnv 5000).IsCollateralValid (sampleEntry 2 11).txCollateral = true →
        GetEntriesCount sampleOneEntry < sampleParams.GetMaxPoolTransactions →
        (AddEntry sampleParams (sampleEnv 5000) (sampleEntry 2 11) MSG_NOERR sampleOneEntry).2.1
          = ERR_ALREADY_HAVE)) ∧
    NoSharedPrevout
      (AddEntry sampleParams (sampleEnv 5000) (sampleEntry 2 11) MSG_NOERR
        sampleOneEntry).2.2.vecEntries :=
  C2_no_prevout_in_two_entries sampleParams (sampleEnv 5000) (sampleEntry 2 11) MSG_NOERR
    sampleOneEntry sampleOneEntry_reachable

/-- C5, as the code has it: every change of the session state made by a
coordinator operation is `Idle → Queued`, `Queued → AcceptingEntries`,
`AcceptingEntries → Signing`, or a reset to `Idle` from whatever state; no
operation enters `Success` or `Error`. -/
theorem C5_state_changes_follow_code_edges (P : Params) (s t : CPrivateSendServer)
    (h : Step P s t) : StateEdge s.nState t.nState :=
  step_nState P s t h

/-- C5 (amended) at the timed-out sample session in `Queued`. -/
theorem C5_state_changes_follow_code_edges_witness :
    StateEdge sampleQueued.nState
      (CheckTimeout sampleParams (sampleEnv 40000) sampleQueued).nState :=
  C5_state_changes_follow_code_edges sampleParams sampleQueued _ (Step.checkTimeout _ _)

/-- C5 fails as stated: on the sample facilitator the session is reachable and
in `Queued`; once the queue timeout has elapsed `CheckTimeout` moves it to
`Idle` directly, which is no edge of the specification (that one is
`Queued → Error`). -/
theorem C5_counterexample :
    sampleParams.fDyNode = true ∧ sampleQueued.nState = POOL_STATE_QUEUE ∧
      (CheckTimeout sampleParams (sampleEnv 40000) sampleQueued).nState = POOL_STATE_IDLE := by
  decide

/-- C6: in state `AcceptingEntries` with fewer entries than the maximum round
size `CheckPool` does nothing: the object, and with it the state, the joint
transaction, every session field and the trace of messages, is as before. -/
theorem C6_CheckPool_below_capacity_is_noop (P : Params) (E : Env) (s : CPrivateSendServer)
    (hState : s.nState = POOL_STATE_ACCEPTING_ENTRIES)
    (hCount : GetEntriesCount s < P.GetMaxPoolTransactions) : CheckPool P E s = s := by
  unfold CheckPool
  have h : ¬ (GetEntriesCount s ≥ P.GetMaxPoolTransactions) := by omega
  simp [hState, h]

/-- C6 at the sample session holding one entry of two. -/
theorem C6_CheckPool_below_capacity_is_noop_witness :
    CheckPool sampleParams (sampleEnv 4500) sampleOneEntry = sampleOneEntry :=
  C6_CheckPool_below_capacity_is_noop sampleParams (sampleEnv 4500) sampleOneEntry
    (by decide) (by decide)

/-- C8: on a facilitator `AddEntry` returns false exactly when (1) an input
has a null previous-output reference, or (2) the collateral is not valid, or
(3) the entry count has reached the maximum round size, or (4) an input
refers to the previous output an input of a pooled entry refers to; the
outcome code is that of the first of these checks that fails, in this order;
in every other case it returns true with `MSG_ENTRIES_ADDED`. -/
theorem C8_AddEntry_rejects_in_order (P : Params) (E : Env) (entryNew : CPrivateSendEntry)
    (m : PoolMessage) (s : CPrivateSendServer) (hD : P.fDyNode = true) :
    ((AddEntry P E entryNew m s).1 = false ↔
      (HasNullInput P entryNew ∨ E.IsCollateralValid entryNew.txCollateral = false ∨
        P.GetMaxPoolTransactions ≤ GetEntriesCount s ∨ HasPooledInput entryNew s)) ∧
    (HasNullInput P entryNew → (AddEntry P E entryNew m s).2.1 = ERR_INVALID_INPUT) ∧
    (¬HasNullInput P entryNew → E.IsCollateralValid entryNew.txCollateral = false →
      (AddEntry P E entryNew m s).2.1 = ERR_INVALID_COLLATERAL) ∧
    (¬HasNullInput P entryNew → E.IsCollateralValid entryNew.txCollateral = true →
      P.GetMaxPoolTransactions ≤ GetEntriesCount s →
      (AddEntry P E entryNew m s).2.1 = ERR_ENTRIES_FULL) ∧
    (¬HasNullInput P entryNew → E.IsCollateralValid entryNew.txCollateral = true →
      GetEntriesCount s < P.GetMaxPoolTransactions → HasPooledInput entryNew s →
      (AddEntry P E entryNew m s).2.1 = ERR_ALREADY_HAVE) ∧
    (¬HasNullInput P entryNew → E.IsCollateralValid entryNew.txCollateral = true →
      GetEntriesCount s < P.GetMaxPoolTransactions → ¬HasPooledInput entryNew s →
      (AddEntry P E entryNew m s).1 = true ∧
        (AddEntry P E entryNew m s).2.1 = MSG_ENTRIES_ADDED) := by
  rcases AddEntry_cases P E entryNew m s hD with
    ⟨h1, h⟩ | ⟨h1, h2, h⟩ | ⟨h1, h2, h3, h⟩ | ⟨h1, h2, h3, h4, h⟩ | ⟨h1, h2, h3, h4, h⟩ <;>
  rw [h] <;> simp_all

/-- C8 at the sample session holding one entry, offered that entry's input again. -/
theorem C8_AddEntry_rejects_in_order_witness :
    (AddEntry sampleParams (sampleEnv 5000) (sampleEntry 2 11) MSG_NOERR sampleOneEntry).1 = false
      ∧ (AddEntry sampleParams (sampleEnv 5000) (sampleEntry 2 11) MSG_NOERR sampleOneEntry).2.1
        = ERR_ALREADY_HAVE :=
  have h := C8_AddEntry_rejects_in_order sampleParams (sampleEnv 5000) (sampleEntry 2 11)
    MSG_NOERR sampleOneEntry rfl
  ⟨h.1.2 (Or.inr (Or.inr (Or.inr (by decide)))),
    h.2.2.2.2.1 (by decide) (by decide) (by decide) (by decide)⟩

/-- C9: when `AddEntry` returns true the object afterwards is the one before
with the new entry appended at the end of the entry list and
`nTimeLastSuccessfulStep` set to the current time, nothing else changed; when
it returns false the object (entries, session collaterals, state, session id,
denomination, joint transaction, `nTimeLastSuccessfulStep`) is unchanged. -/
theorem C9_AddEntry_frame (P : Params) (E : Env) (entryNew : CPrivateSendEntry)
    (m : PoolMessage) (s : CPrivateSendServer) :
    ((AddEntry P E entryNew m s).1 = true →
      (AddEntry P E entryNew m s).2.2 =
        { s with
          vecEntries := s.vecEntries ++ [entryNew]
          nTimeLastSuccessfulStep := E.GetTimeMillis }) ∧
    ((AddEntry P E entryNew m s).1 = false → (AddEntry P E entryNew m s).2.2 = s) := by
  unfold AddEntry
  repeat' split
  all_goals simp

theorem CPrivateSendEntry_AddScriptSig_records (txin : CTxIn) (l : List CTxPSIn)
    (h : (CPrivateSendEntry_AddScriptSig txin l).1 = true) :
    ∃ t ∈ (CPrivateSendEntry_AddScriptSig txin l).2, t.scriptSig = txin.scriptSig := by
  induction l with
  | nil => simp [CPrivateSendEntry_AddScriptSig] at h
  | cons a l ih =>
    simp only [CPrivateSendEntry_AddScriptSig] at h ⊢
    split at h
    · split at h
      · simp at h
      · rename_i h1 h2
        simp [h1, h2]
    · rename_i h1
      obtain ⟨t, ht, hs⟩ := ih h
      simp only [h1, ↓reduceIte]
      exact ⟨t, List.mem_cons_of_mem _ ht, hs⟩

theorem addScriptSigToEntries_records (txin : CTxIn) (l : List CPrivateSendEntry)
    (h : (addScriptSigToEntries txin l).1 = true) :
    ∃ e ∈ (addScriptSigToEntries txin l).2, ∃ t ∈ e.vecTxPSIn, t.scriptSig = txin.scriptSig := by
  induction l with
  | nil => simp [addScriptSigToEntries] at h
  | cons a l ih =>
    simp only [addScriptSigToEntries] at h ⊢
    split at h
    · rename_i h1
      simp only [h1, ↓reduceIte]
      obtain ⟨t, ht, hs⟩ := CPrivateSendEntry_AddScriptSig_records txin a.vecTxPSIn h1
      exact ⟨_, List.mem_cons_self _ _, t, ht, hs⟩
    · rename_i h1
      simp only [h1]
      obtain ⟨e, he, t, ht, hs⟩ := ih h
      exact ⟨e, List.mem_cons_of_mem _ he, t, ht, hs⟩

/-- C7: when `AddScriptSig` has returned true for a signed input, a second call
with the identical signed input returns false and leaves the object, so the
entries and the joint transaction, exactly as the first call left it. -/
theorem C7_AddScriptSig_applies_once (P : Params) (txinNew : CTxIn) (s : CPrivateSendServer)
    (h : (AddScriptSig P txinNew s).1 = true) :
    AddScriptSig P txinNew (AddScriptSig P txinNew s).2 = (false, (AddScriptSig P txinNew s).2) := by
  have hrec : ((AddScriptSig P txinNew s).2.vecEntries.any (fun entry =>
      entry.vecTxPSIn.any (fun txpsin => txpsin.scriptSig == txinNew.scriptSig))) = true := by
    unfold AddScriptSig at h ⊢
    split at h
    · simp at h
    · split at h
      · simp at h
      · rename_i h1 h2
        simp only [h1, h2]
        simp only [Bool.false_eq_true, ↓reduceIte]
        obtain ⟨e, he, t, ht, hs⟩ := addScriptSigToEntries_records txinNew s.vecEntries h
        simp only [List.any_eq_true, beq_iff_eq]
        exact ⟨e, he, t, ht, hs⟩
  generalize AddScriptSig P txinNew s = r at hrec
  unfold AddScriptSig
  simp [hrec]

/-- C7 at the sample session in `Signing`, for the signature of the first participant's input. -/
theorem C7_AddScriptSig_applies_once_witness :
    AddScriptSig sampleParams (sampleSignedInput 11)
        (AddScriptSig sampleParams (sampleSignedInput 11) sampleSigning).2 =
      (false, (AddScriptSig sampleParams (sampleSignedInput 11) sampleSigning).2) :=
  C7_AddScriptSig_applies_once sampleParams (sampleSignedInput 11) sampleSigning (by decide)

theorem checkOutputs_ok (P : Params) (l : List CTxPSOut) (v0 : CAmount) (tx0 : CMutableTransaction)
    (v : CAmount) (tx : CMutableTransaction) (h : checkOutputs P l v0 tx0 = .ok (v, tx)) :
    v = v0 + (l.map (fun txout => txout.nValue)).sum := by
  induction l generalizing v0 tx0 with
  | nil =>
    simp only [checkOutputs, Except.ok.injEq, Prod.mk.injEq] at h
    simp [h.1]
  | cons a l ih =>
    simp only [checkOutputs] at h
    split at h
    · cases h
    · split at h
      · cases h
      · rw [ih _ _ h]
        simp [add_assoc]

theorem checkOutputs_ok_iff (P : Params) (l : List CTxPSOut) (v0 : CAmount)
    (tx0 : CMutableTransaction)
    (h : ∀ txout ∈ l, txout.scriptPubKey.length = 25 ∧
      P.IsNormalPaymentScript txout.scriptPubKey = true) :
    ∃ tx, checkOutputs P l v0 tx0 = .ok (v0 + (l.map (fun txout => txout.nValue)).sum, tx) := by
  induction l generalizing v0 tx0 with
  | nil => exact ⟨tx0, by simp [checkOutputs]⟩
  | cons a l ih =>
    have ha := h a (List.mem_cons_self _ _)
    obtain ⟨tx, htx⟩ := ih (v0 + a.nValue) { tx0 with vout := tx0.vout ++ [a.toCTxOut] }
      (fun t ht => h t (List.mem_cons_of_mem _ ht))
    refine ⟨tx, ?_⟩
    simp only [checkOutputs, ha.1, ha.2]
    simp only [ne_eq, not_true_eq_false, ↓reduceIte, Bool.not_true, Bool.false_eq_true]
    rw [htx]
    simp [add_assoc]

theorem checkInputs_ok (E : Env) (l : List CTxPSIn) (v0 : CAmount) (tx0 : CMutableTransaction)
    (v : CAmount) (tx : CMutableTransaction) (h : checkInputs E l v0 tx0 = .ok (v, tx)) :
    v = v0 + (l.map (resolvedValue E)).sum ∧
      ∀ txin ∈ l, (E.GetTransaction txin.prevout.hash).isSome = true := by
  induction l generalizing v0 tx0 with
  | nil =>
    simp only [checkInputs, Except.ok.injEq, Prod.mk.injEq] at h
    simp [h.1]
  | cons a l ih =>
    simp only [checkInputs] at h
    split at h
    · rename_i txPrev hPrev
      obtain ⟨h1, h2⟩ := ih _ _ h
      refine ⟨?_, ?_⟩
      · rw [h1]
        simp only [List.map_cons, List.sum_cons, resolvedValue, hPrev]
        cases txPrev.vout[a.prevout.n]? <;> simp [add_assoc]
      · intro txin hin
        rcases List.mem_cons.1 hin with rfl | hin
        · simp [hPrev]
        · exact h2 txin hin
    · cases h

theorem checkInputs_ok_iff (E : Env) (l : List CTxPSIn) (v0 : CAmount)
    (tx0 : CMutableTransaction)
    (h : ∀ txin ∈ l, (E.GetTransaction txin.prevout.hash).isSome = true) :
    ∃ tx, checkInputs E l v0 tx0 = .ok (v0 + (l.map (resolvedValue E)).sum, tx) := by
  induction l generalizing v0 tx0 with
  | nil => exact ⟨tx0, by simp [checkInputs]⟩
  | cons a l ih =>
    have ha := h a (List.mem_cons_self _ _)
    obtain ⟨txPrev, hPrev⟩ := Option.isSome_iff_exists.1 ha
    simp only [checkInputs, hPrev, List.map_cons, List.sum_cons, resolvedValue]
    cases txPrev.vout[a.prevout.n]? with
    | none =>
      obtain ⟨tx, htx⟩ := ih v0 { tx0 with vin := tx0.vin ++ [a.toCTxIn] }
        (fun t ht => h t (List.mem_cons_of_mem _ ht))
      exact ⟨tx, by simp only [htx]; simp [resolvedValue]⟩
    | some txout =>
      obtain ⟨tx, htx⟩ := ih (v0 + txout.nValue) { tx0 with vin := tx0.vin ++ [a.toCTxIn] }
        (fun t ht => h t (List.mem_cons_of_mem _ ht))
      exact ⟨tx, by simp only [htx]; simp [resolvedValue, add_assoc]⟩

/-- C3: whenever the `PSVIN` handler leaves the entry list longer than it found
it, the sum of the entry's output values equals the sum of the values chain
lookup resolves its inputs to (and every input's previous transaction was
found); and an entry that passes the checks before the fee check with a
non-zero difference is answered `STATUS_REJECTED` with `ERR_FEES` and nothing
else happens: `AddEntry` is not reached. -/
theorem C3_admitted_entries_pay_no_fee (P : Params) (E : Env) (pfrom : CNode)
    (entry : CPrivateSendEntry) (s : CPrivateSendServer) :
    (s.vecEntries.length < (ProcessMessage P E pfrom (Message.PSVIN entry) s).vecEntries.length →
      outputSum entry = resolvedInputSum E entry ∧
        ∀ txin ∈ entry.vecTxPSIn, (E.GetTransaction txin.prevout.hash).isSome = true) ∧
    (P.fDyNode = true → P.fLiteMode = false → E.IsBlockchainSynced = true →
      P.MIN_PRIVATESEND_PEER_PROTO_VERSION ≤ pfrom.nVersion → IsSessionReady P s = true →
      entry.vecTxPSIn.length ≤ P.PRIVATESEND_ENTRY_MAX_SIZE →
      entry.vecTxPSOut.length ≤ P.PRIVATESEND_ENTRY_MAX_SIZE →
      IsOutputsCompatibleWithSessionDenom P entry.vecTxPSOut s = true →
      (∀ txout ∈ entry.vecTxPSOut, txout.scriptPubKey.length = 25 ∧
        P.IsNormalPaymentScript txout.scriptPubKey = true) →
      (∀ txin ∈ entry.vecTxPSIn, (E.GetTransaction txin.prevout.hash).isSome = true) →
      resolvedInputSum E entry - outputSum entry ≠ 0 →
      ProcessMessage P E pfrom (Message.PSVIN entry) s =
        PushStatus pfrom STATUS_REJECTED ERR_FEES s) := by
  constructor
  · intro h
    unfold ProcessMessage at h
    split at h
    · exact absurd h (lt_irrefl _)
    split at h
    · exact absurd h (lt_irrefl _)
    split at h
    · exact absurd h (lt_irrefl _)
    simp only [ProcessPSVIN] at h
    split at h
    · exact absurd h (lt_irrefl _)
    split at h
    · exact absurd h (lt_irrefl _)
    split at h
    · exact absurd h (lt_irrefl _)
    split at h
    · exact absurd h (lt_irrefl _)
    split at h
    · exact absurd h (lt_irrefl _)
    split at h
    · exact absurd h (lt_irrefl _)
    rename_i nValueOut tx1 hOut
    split at h
    · exact absurd h (lt_irrefl _)
    rename_i nValueIn tx hIn
    split at h
    · exact absurd h (lt_irrefl _)
    rename_i hFee
    have h1 := checkOutputs_ok P _ _ _ _ _ hOut
    obtain ⟨h2, h3⟩ := checkInputs_ok E _ _ _ _ _ hIn
    refine ⟨?_, h3⟩
    simp only [ne_eq, Decidable.not_not] at hFee
    unfold outputSum resolvedInputSum
    linarith
  · intro hD hL hS hV hR hI hO hC hOut hIn hFee
    obtain ⟨tx1, h1⟩ := checkOutputs_ok_iff P entry.vecTxPSOut 0 (emptyTransaction P) hOut
    obtain ⟨tx, h2⟩ := checkInputs_ok_iff E entry.vecTxPSIn 0 tx1 hIn
    have hV' : ¬ pfrom.nVersion < P.MIN_PRIVATESEND_PEER_PROTO_VERSION := not_lt.2 hV
    have hI' : ¬ entry.vecTxPSIn.length > P.PRIVATESEND_ENTRY_MAX_SIZE := not_lt.2 hI
    have hO' : ¬ entry.vecTxPSOut.length > P.PRIVATESEND_ENTRY_MAX_SIZE := not_lt.2 hO
    have hFee' : (0 + (entry.vecTxPSIn.map (resolvedValue E)).sum) -
        (0 + (entry.vecTxPSOut.map (fun txout => txout.nValue)).sum) ≠ 0 := by
      unfold outputSum resolvedInputSum at hFee
      simpa using hFee
    simp only [ProcessMessage, ProcessPSVIN, hD, hL, hS, hR, hC, h1, h2, hV', hI', hO', hFee']
    simp only [Bool.not_true, Bool.false_eq_true, ↓reduceIte, ne_eq, not_false_eq_true]
    rw [if_pos hFee']

/-- C3 at the sample session accepting entries: the first participant's entry
is admitted with equal sums, and an entry whose outputs are worth twice its
input is answered `ERR_FEES`. -/
theorem C3_admitted_entries_pay_no_fee_witness :
    (outputSum (sampleEntry 1 11) = resolvedInputSum (sampleEnv 4000) (sampleEntry 1 11) ∧
      ∀ txin ∈ (sampleEntry 1 11).vecTxPSIn,
        ((sampleEnv 4000).GetTransaction txin.prevout.hash).isSome = true) ∧
    ProcessMessage sampleParams (sampleEnv 4000) (samplePeer 1)
        (Message.PSVIN (sampleUnbalancedEntry 1 11)) sampleAccepting =
      PushStatus (samplePeer 1) STATUS_REJECTED ERR_FEES sampleAccepting :=
  ⟨(C3_admitted_entries_pay_no_fee sampleParams (sampleEnv 4000) (samplePeer 1)
      (sampleEntry 1 11) sampleAccepting).1 (by decide),
    (C3_admitted_entries_pay_no_fee sampleParams (sampleEnv 4000) (samplePeer 1)
      (sampleUnbalancedEntry 1 11) sampleAccepting).2 rfl rfl rfl (by decide) (by decide) (by decide)
      (by decide) (by decide) (by decide) (by decide) (by decide)⟩

theorem CompareInputBIP69_iff (a b : CTxIn) :
    CompareInputBIP69 a b = true ↔ inputKey a < inputKey b := by
  simp [CompareInputBIP69, inputKey, Prod.Lex.lt_iff]

theorem CompareOutputBIP69_iff (a b : CTxOut) :
    CompareOutputBIP69 a b = true ↔ outputKey a < outputKey b := by
  simp [CompareOutputBIP69, outputKey, Prod.Lex.lt_iff]

theorem sort_perm {α : Type} (comp : α → α → Bool) (l : List α) : (sort comp l).Perm l :=
  List.perm_insertionSort _ l

theorem sort_sorted {α κ : Type} [LinearOrder κ] (comp : α → α → Bool) (key : α → κ)
    (h : ∀ a b, comp a b = true ↔ key a < key b) (l : List α) :
    ((sort comp l).map key).Sorted (· ≤ ·) := by
  have hr : ∀ a b, (comp b a = false) ↔ key a ≤ key b := by
    intro a b
    rw [← not_lt, ← h b a]
    simp
  have hs : (sort comp l).Sorted (fun a b => comp b a = false) :=
    @List.sorted_insertionSort α (fun a b => comp b a = false) _
      ⟨fun a b => by simp only [hr]; exact le_total _ _⟩
      ⟨fun a b c => by simp only [hr]; exact le_trans⟩ l
  unfold List.Sorted at hs ⊢
  rw [List.pairwise_map]
  exact hs.imp (fun {a b} hab => (hr a b).1 hab)

theorem eq_of_map_eq_of_perm {α β : Type} {f : α → β} {l1 l2 : List α}
    (hmap : l1.map f = l2.map f) (hp : l1.Perm l2) (hnd : (l1.map f).Nodup) : l1 = l2 := by
  have hinj := List.inj_on_of_nodup_map hnd
  apply List.ext_getElem hp.length_eq
  intro i h1 h2
  apply hinj (List.getElem_mem h1) (hp.mem_iff.2 (List.getElem_mem h2))
  have h := congrArg (fun l => l[i]?) hmap
  simpa [List.getElem?_map, h1, h2] using h

theorem inputKey_eq_iff (a b : CTxIn) : inputKey a = inputKey b ↔ a.prevout = b.prevout := by
  cases a with | mk p _ _ _ =>
  cases b with | mk q _ _ _ =>
  cases p; cases q
  simp [inputKey]

theorem CreateFinalTransaction_final (P : Params) (E : Env) (s : CPrivateSendServer) :
    (CreateFinalTransaction P E s).finalMutableTransaction =
      { emptyTransaction P with
        vin := sort CompareInputBIP69 (pooledTransaction P s).vin
        vout := sort CompareOutputBIP69 (pooledTransaction P s).vout } := by
  simp only [CreateFinalTransaction, SetState, RelayFinalTransaction_eq]
  split <;> rfl

theorem pooled_vin_perm (P : Params) (s t : CPrivateSendServer)
    (h : t.vecEntries.Perm s.vecEntries) :
    (pooledTransaction P t).vin.Perm (pooledTransaction P s).vin :=
  List.Perm.flatMap_right _ h

theorem nodup_inputKey_of_nodup_prevout (l : List CTxIn)
    (h : (l.map (fun txin => txin.prevout)).Nodup) : (l.map inputKey).Nodup := by
  rw [List.nodup_map_iff_inj_on (List.Nodup.of_map _ h)]
  intro a ha b hb hab
  exact List.inj_on_of_nodup_map h ha hb ((inputKey_eq_iff a b).1 hab)

theorem SetNull_eq (P : Params) (E : Env) (s : CPrivateSendServer) :
    SetNull P E s =
      { s with
        nState := POOL_STATE_IDLE
        nSessionID := 0
        nSessionDenom := 0
        vecEntries := []
        vecSessionCollaterals := []
        finalMutableTransaction := emptyTransaction P
        nTimeLastSuccessfulStep := P.ResetStepTime E.GetTimeMillis s.nTimeLastSuccessfulStep } :=
  rfl

theorem sameView_refl (s : CPrivateSendServer) : SameView s s := ⟨rfl, rfl, rfl⟩

theorem sameView_trans {s t u : CPrivateSendServer} (h1 : SameView s t) (h2 : SameView t u) :
    SameView s u :=
  ⟨h2.1.trans h1.1, h2.2.1.trans h1.2.1, h2.2.2.trans h1.2.2⟩

theorem SameSession.sameView {s t : CPrivateSendServer} (h : SameSession s t) : SameView s t := by
  obtain ⟨l, rfl⟩ := h; exact ⟨rfl, rfl, rfl⟩

theorem SameView.coherent {P : Params} {s t : CPrivateSendServer} (h : SameView s t)
    (hs : SessionCoherent P s) : SessionCoherent P t := by
  obtain ⟨h1, h2, h3⟩ := h
  unfold SessionCoherent IsSessionReady at *
  rw [h1, h2, h3]
  exact hs

theorem SetNull_coherent (P : Params) (E : Env) (s : CPrivateSendServer) :
    SessionCoherent P (SetNull P E s) := Or.inl ⟨rfl, rfl, rfl⟩

theorem AddEntry_sameView (P : Params) (E : Env) (e : CPrivateSendEntry) (m : PoolMessage)
    (s : CPrivateSendServer) : SameView s (AddEntry P E e m s).2.2 := by
  unfold AddEntry
  repeat' split
  all_goals exact ⟨rfl, rfl, rfl⟩

theorem AddScriptSig_sameView (P : Params) (txin : CTxIn) (s : CPrivateSendServer) :
    SameView s (AddScriptSig P txin s).2 := by
  unfold AddScriptSig
  repeat' split
  all_goals exact ⟨rfl, rfl, rfl⟩

theorem addScriptSigs_sameView (P : Params) (l : List CTxIn) (s : CPrivateSendServer) :
    SameView s (addScriptSigs P l s).2 := by
  induction l generalizing s with
  | nil => exact sameView_refl s
  | cons a l ih =>
    simp only [addScriptSigs]
    split
    · exact AddScriptSig_sameView P a s
    · exact sameView_trans (AddScriptSig_sameView P a s) (ih _)

theorem CreateFinalTransaction_view (P : Params) (E : Env) (s : CPrivateSendServer) :
    (CreateFinalTransaction P E s).nSessionID = s.nSessionID ∧
      (CreateFinalTransaction P E s).vecSessionCollaterals = s.vecSessionCollaterals := by
  unfold CreateFinalTransaction
  simp only [RelayFinalTransaction_eq]
  simp [SetState]

theorem CommitFinalTransaction_coherent (P : Params) (E : Env) (s : CPrivateSendServer)
    (hs : SessionCoherent P s) : SessionCoherent P (CommitFinalTransaction P E s) := by
  unfold CommitFinalTransaction
  simp only []
  repeat' split
  all_goals first
    | exact hs
    | exact (sameSession_RelayCompletedTransaction _ _ _ _).sameView.coherent
        (SetNull_coherent _ _ _)
    | exact SetNull_coherent _ _ _

theorem CheckPool_coherent (P : Params) (E : Env) (s : CPrivateSendServer)
    (hs : SessionCoherent P s) : SessionCoherent P (CheckPool P E s) := by
  unfold CheckPool
  split
  · rename_i h
    have hv := CreateFinalTransaction_view P E s
    have hn := CreateFinalTransaction_nState P E s
    rcases hs with hs | hs | hs
    · rw [hs.2.1] at h; exact absurd h.2.1 (by decide)
    · rw [hs.2] at h; exact absurd h.2.1 (by decide)
    · refine Or.inr (Or.inr ⟨by rw [hv.1]; exact hs.1, Or.inr hn, ?_⟩)
      unfold IsSessionReady at *
      rw [hv.2]; exact hs.2.2
  · split
    · exact CommitFinalTransaction_coherent P E s hs
    · split
      · exact SetNull_coherent P E s
      · exact hs

theorem SetState_error (P : Params) (s : CPrivateSendServer) (hd : P.fDyNode = true) :
    SetState P POOL_STATE_ERROR s = s := by
  simp [SetState, hd]

theorem CheckTimeout_coherent (P : Params) (E : Env) (s : CPrivateSendServer)
    (hs : SessionCoherent P s) : SessionCoherent P (CheckTimeout P E s) := by
  have h1 : SameView s { s with
      vecPrivatesendQueue :=
        s.vecPrivatesendQueue.filter (fun q => !CPrivatesendQueue_IsExpired P E q) } :=
    ⟨rfl, rfl, rfl⟩
  unfold CheckTimeout
  by_cases hl : E.lockPS = true <;> by_cases hd : P.fDyNode = true <;> simp [hl, hd]
  all_goals first
    | exact hs
    | exact h1.coherent hs
    | skip
  split_ifs
  all_goals first
    | exact h1.coherent hs
    | (rw [SetState_error P _ hd]; exact SetNull_coherent _ _ _)

theorem CheckForCompleteQueue_coherent (P : Params) (E : Env) (s : CPrivateSendServer)
    (hs : SessionCoherent P s) : SessionCoherent P (CheckForCompleteQueue P E s) := by
  unfold CheckForCompleteQueue
  split
  · exact hs
  · split
    · rename_i h
      rcases hs with hs | hs | hs
      · rw [hs.2.1] at h; exact absurd h.1 (by decide)
      · refine Or.inr (Or.inr ⟨?_, Or.inl ?_, ?_⟩)
        · simpa [emit, SetState] using hs.1
        · simp [emit, SetState]
        · simpa [emit, SetState, IsSessionReady] using h.2
      · rcases hs.2.1 with h2 | h2 <;> rw [h2] at h <;> exact absurd h.1 (by decide)
    · exact hs

theorem GetRandInt_lt (nMax : Nat) (h : 0 < nMax) (draws : List Nat) :
    (GetRandInt nMax draws).1 < nMax := by
  cases draws with
  | nil => simpa [GetRandInt] using h
  | cons a l => simpa [GetRandInt] using Nat.mod_lt a h

theorem CreateNewSession_coherent (P : Params) (E : Env) (nDenom : Int) (tx : CTransaction)
    (m : PoolMessage) (s : CPrivateSendServer) (hs : SessionCoherent P s) :
    SessionCoherent P (CreateNewSession P E nDenom tx m s).2.2 := by
  unfold CreateNewSession
  simp only []
  split
  · exact hs
  · split
    · exact hs
    · split
      · exact hs
      · refine Or.inr (Or.inl ⟨?_, ?_⟩)
        · split <;> simp [SetState, emit] <;> omega
        · split <;> simp [SetState, emit]

theorem AddUserToExistingSession_coherent (P : Params) (E : Env) (nDenom : Int)
    (tx : CTransaction) (m : PoolMessage) (s : CPrivateSendServer) (hs : SessionCoherent P s) :
    SessionCoherent P (AddUserToExistingSession P E nDenom tx m s).2.2 := by
  unfold AddUserToExistingSession
  simp only []
  split
  · exact hs
  · rename_i h0
    split
    · exact hs
    · split
      · exact hs
      · rename_i h1
        split
        · exact hs
        · simp at h0 h1
          exact Or.inr (Or.inl ⟨h0.1.2, h1⟩)

theorem ProcessPSACCEPT_coherent (P : Params) (E : Env) (pfrom : CNode) (nDenom : Int)
    (tx : CTransaction) (s : CPrivateSendServer) (hs : SessionCoherent P s) :
    SessionCoherent P (ProcessPSACCEPT P E pfrom nDenom tx s) := by
  unfold ProcessPSACCEPT
  simp only []
  repeat' split
  all_goals refine (sameSession_PushStatus _ _ _ _).sameView.coherent ?_
  all_goals first
    | exact hs
    | exact CreateNewSession_coherent P E nDenom tx _ s hs
    | exact AddUserToExistingSession_coherent P E nDenom tx _ s hs

theorem ProcessPSQUEUE_sameView (P : Params) (E : Env) (pfrom : CNode) (psq : CPrivatesendQueue)
    (s : CPrivateSendServer) : SameView s (ProcessPSQUEUE P E pfrom psq s) := by
  unfold ProcessPSQUEUE
  simp only []
  repeat' split
  all_goals exact ⟨rfl, rfl, rfl⟩

theorem admitEntry_coherent (P : Params) (E : Env) (pfrom : CNode) (entry : CPrivateSendEntry)
    (s : CPrivateSendServer) (hs : SessionCoherent P s) :
    SessionCoherent P (admitEntry P E pfrom entry s) := by
  unfold admitEntry
  simp only []
  split
  · refine (sameSession_RelayStatus _ _ _ _ _).sameView.coherent ?_
    refine CheckPool_coherent P E _ ?_
    exact (sameSession_PushStatus _ _ _ _).sameView.coherent
      ((AddEntry_sameView P E entry MSG_NOERR s).coherent hs)
  · exact SetNull_coherent _ _ _

theorem ProcessPSVIN_coherent (P : Params) (E : Env) (pfrom : CNode) (entry : CPrivateSendEntry)
    (s : CPrivateSendServer) (hs : SessionCoherent P s) :
    SessionCoherent P (ProcessPSVIN P E pfrom entry s) := by
  have ha : ∀ e, SessionCoherent P
      (AcceptToMemoryPool E e (emit (Effect.PrioritiseTransaction (P.GetHash e)) s)).2 :=
    fun e => ((sameSession_emit _ s).trans
      (sameSession_AcceptToMemoryPool E e _)).sameView.coherent hs
  unfold ProcessPSVIN
  simp only []
  repeat' split
  all_goals first
    | exact (sameSession_PushStatus _ _ _ _).sameView.coherent hs
    | exact (sameSession_PushStatus _ _ _ _).sameView.coherent (ha _)
    | exact admitEntry_coherent P E pfrom entry _ (ha _)

theorem ProcessPSSIGNFINALTX_coherent (P : Params) (E : Env) (pfrom : CNode) (l : List CTxIn)
    (s : CPrivateSendServer) (hs : SessionCoherent P s) :
    SessionCoherent P (ProcessPSSIGNFINALTX P E pfrom l s) := by
  unfold ProcessPSSIGNFINALTX
  simp only []
  repeat' split
  · exact hs
  · exact (sameSession_RelayStatus _ _ _ _ _).sameView.coherent
      ((addScriptSigs_sameView P l s).coherent hs)
  · exact CheckPool_coherent P E _ ((addScriptSigs_sameView P l s).coherent hs)

theorem ProcessMessage_coherent (P : Params) (E : Env) (pfrom : CNode) (msg : Message)
    (s : CPrivateSendServer) (hs : SessionCoherent P s) :
    SessionCoherent P (ProcessMessage P E pfrom msg s) := by
  unfold ProcessMessage
  repeat' split
  all_goals first
    | exact hs
    | exact ProcessPSACCEPT_coherent _ _ _ _ _ _ hs
    | exact (ProcessPSQUEUE_sameView ..).coherent hs
    | exact ProcessPSVIN_coherent _ _ _ _ _ hs
    | exact ProcessPSSIGNFINALTX_coherent _ _ _ _ _ hs

theorem reachable_coherent (P : Params) (s : CPrivateSendServer) (h : Reachable P s) :
    SessionCoherent P s := by
  induction h with
  | init s h0 => exact Or.inl ⟨h0.2.1, h0.1, h0.2.2.2.1⟩
  | step s t _ hst ih =>
    cases hst with
    | processMessage E pfrom msg => exact ProcessMessage_coherent _ _ _ _ _ ih
    | addEntry E e m => exact (AddEntry_sameView ..).coherent ih
    | checkPool E => exact CheckPool_coherent _ _ _ ih
    | checkTimeout E => exact CheckTimeout_coherent _ _ _ ih
    | checkForCompleteQueue E => exact CheckForCompleteQueue_coherent _ _ _ ih
    | setNull E => exact SetNull_coherent ..

theorem sampleQueued_reachable_twoDenoms : Reachable sampleTwoDenoms sampleQueued :=
  Reachable.step _ _ (Reachable.init sampleInitial ⟨rfl, rfl, rfl, rfl, rfl, rfl⟩)
    (Step.processMessage (sampleEnv 1000) (samplePeer 1)
      (Message.PSACCEPT 1 (sampleCollateral 1)) sampleInitial)

/-- C12: on a facilitator in any session state the coordinator operations lead
to, a `PSACCEPT` that passes the version gate, the full-session gate, the
identity gate and the rate-limit gate is answered `STATUS_REJECTED` with
`ERR_DENOM`, the object being otherwise as before, when its denomination is not
recognised, and also when it joins an existing session whose denomination
differs from the requested one and its collateral passes the collateral check
(the collateral is valid, or the unit-test flag switches the check off). -/
theorem C12_join_rejected_for_denomination (P : Params) (E : Env) (pfrom : CNode) (nDenom : Int)
    (txCollateral : CTransaction) (s : CPrivateSendServer)
    (hR : Reachable P s)
    (hD : P.fDyNode = true) (hL : P.fLiteMode = false) (hS : E.IsBlockchainSynced = true)
    (hV : P.MIN_PRIVATESEND_PEER_PROTO_VERSION ≤ pfrom.nVersion)
    (hRoom : IsSessionReady P s = false) (hG : JoinGatesPass P E s)
    (hDenom : P.GetDenominationsBits nDenom = false ∨
      (s.nSessionID ≠ 0 ∧ nDenom ≠ s.nSessionDenom ∧
        (P.fUnitTest = true ∨ E.IsCollateralValid txCollateral = true))) :
    ProcessMessage P E pfrom (Message.PSACCEPT nDenom txCollateral) s =
      PushStatus pfrom STATUS_REJECTED ERR_DENOM s := by
  obtain ⟨pdn, hFind, hRate⟩ := hG
  have hV' : ¬ pfrom.nVersion < P.MIN_PRIVATESEND_PEER_PROTO_VERSION := not_lt.2 hV
  have hC := reachable_coherent P s hR
  by_cases hId : s.nSessionID = 0
  · have hState : s.nState = POOL_STATE_IDLE := by
      rcases hC with h | h | h
      · exact h.2.1
      · exact absurd hId h.1
      · exact absurd hId h.1
    have hBits : P.GetDenominationsBits nDenom = false := by
      rcases hDenom with h | h
      · exact h
      · exact absurd hId h.1
    simp only [ProcessMessage, ProcessPSACCEPT, hD, hL, hS, hV', hRoom, hFind, hRate, hId,
      CreateNewSession, hState, IsAcceptableDenomAndCollateral, hBits]
    simp
  · have hState : s.nState = POOL_STATE_QUEUE := by
      rcases hC with h | h | h
      · exact absurd h.1 hId
      · exact h.2
      · rw [h.2.2] at hRoom; exact absurd hRoom (by decide)
    simp only [ProcessMessage, ProcessPSACCEPT, hD, hL, hS, hV', hRoom, hFind, hRate, hId,
      AddUserToExistingSession, hState, IsAcceptableDenomAndCollateral]
    by_cases hBits : P.GetDenominationsBits nDenom = true
    · rcases hDenom with h | h
      · rw [h] at hBits; exact absurd hBits (by decide)
      · obtain ⟨_, hNe, hColl⟩ := h
        rcases hColl with hU | hU <;> simp [hBits, hU, hNe, hId]
    · simp [hBits, hId]

/-- C12 at the sample session with one participant queued for denomination 1:
a request for denomination 2, recognised by the build, with a valid collateral. -/
theorem C12_join_rejected_for_denomination_witness :
    ProcessMessage sampleTwoDenoms (sampleEnv 2000) (samplePeer 2)
        (Message.PSACCEPT 2 (sampleCollateral 2)) sampleQueued =
      PushStatus (samplePeer 2) STATUS_REJECTED ERR_DENOM sampleQueued :=
  C12_join_rejected_for_denomination sampleTwoDenoms (sampleEnv 2000) (samplePeer 2) 2
    (sampleCollateral 2) sampleQueued sampleQueued_reachable_twoDenoms rfl rfl rfl (by decide)
    (by decide) ⟨_, rfl, by decide⟩ (Or.inr ⟨by decide, by decide, Or.inr (by decide)⟩)

/-- C12 as first stated fails: in the sample session queued for denomination 1,
a request that passes the four gates, asks for the recognised denomination 2
and carries an invalid collateral is answered `ERR_INVALID_COLLATERAL`, not
`ERR_DENOM`. -/
theorem C12_counterexample :
    sampleTwoDenoms.MIN_PRIVATESEND_PEER_PROTO_VERSION ≤ (samplePeer 2).nVersion ∧
      IsSessionReady sampleTwoDenoms sampleQueued = false ∧
      JoinGatesPass sampleTwoDenoms (sampleEnv 2000) sampleQueued ∧
      sampleQueued.nSessionID ≠ 0 ∧ (2 : Int) ≠ sampleQueued.nSessionDenom ∧
      ProcessMessage sampleTwoDenoms (sampleEnv 2000) (samplePeer 2)
          (Message.PSACCEPT 2 sampleEmptyCollateral) sampleQueued =
        PushStatus (samplePeer 2) STATUS_REJECTED ERR_INVALID_COLLATERAL sampleQueued ∧
      PushStatus (samplePeer 2) STATUS_REJECTED ERR_INVALID_COLLATERAL sampleQueued ≠
        PushStatus (samplePeer 2) STATUS_REJECTED ERR_DENOM sampleQueued :=
  ⟨by decide, by decide, ⟨_, rfl, by decide⟩, by decide, by decide, by decide, by decide⟩

/-- C13: `CreateNewSession` returns true only on a facilitator whose session id
is 0 and whose state is `Idle`, for a recognised denomination and a collateral
that passes the collateral check (it is valid, or the unit-test flag switches
the check off); when it returns true then, whatever the draw, the session id is
the draw plus one, between 1 and 999999, the denomination is the requested one,
the state is `Queue`, and the submitted collateral is appended to the session
collaterals, which in every session state the coordinator operations lead to
makes it the only one. -/
theorem C13_CreateNewSession_opens_session (P : Params) (E : Env) (nDenom : Int)
    (txCollateral : CTransaction) (m : PoolMessage) (s : CPrivateSendServer)
    (hOk : (CreateNewSession P E nDenom txCollateral m s).1 = true) :
    (P.fDyNode = true ∧ s.nSessionID = 0 ∧ s.nState = POOL_STATE_IDLE ∧
      P.GetDenominationsBits nDenom = true ∧
      (P.fUnitTest = true ∨ E.IsCollateralValid txCollateral = true)) ∧
    (1 ≤ (CreateNewSession P E nDenom txCollateral m s).2.2.nSessionID ∧
      (CreateNewSession P E nDenom txCollateral m s).2.2.nSessionID ≤ 999999 ∧
      (CreateNewSession P E nDenom txCollateral m s).2.2.nSessionID =
        ((GetRandInt 999999 E.rand).1 : Int) + 1 ∧
      (CreateNewSession P E nDenom txCollateral m s).2.2.nSessionDenom = nDenom ∧
      (CreateNewSession P E nDenom txCollateral m s).2.2.nState = POOL_STATE_QUEUE ∧
      (CreateNewSession P E nDenom txCollateral m s).2.2.vecSessionCollaterals =
        s.vecSessionCollaterals ++ [txCollateral]) ∧
    (Reachable P s →
      (CreateNewSession P E nDenom txCollateral m s).2.2.vecSessionCollaterals =
        [txCollateral]) := by
  have hlt := GetRandInt_lt 999999 (by decide) E.rand
  unfold CreateNewSession at hOk ⊢
  simp only [] at hOk ⊢
  split at hOk
  · simp at hOk
  · rename_i h0
    split at hOk
    · simp at hOk
    · rename_i h1
      split at hOk
      · simp at hOk
      · rename_i h2
        rw [if_neg h0, if_neg h1, if_neg h2]
        simp at h0 h1
        have hAcc : P.GetDenominationsBits nDenom = true ∧
            (P.fUnitTest = true ∨ E.IsCollateralValid txCollateral = true) := by
          unfold IsAcceptableDenomAndCollateral at h2
          by_cases hb : P.GetDenominationsBits nDenom = true
          · by_cases hu : P.fUnitTest = true
            · exact ⟨hb, Or.inl hu⟩
            · by_cases hc : E.IsCollateralValid txCollateral = true
              · exact ⟨hb, Or.inr hc⟩
              · simp [h0.1, hb, hu, hc] at h2
          · simp [h0.1, hb] at h2
        refine ⟨⟨h0.1, h0.2, h1, hAcc⟩, ⟨?_, ?_, ?_, ?_, ?_, ?_⟩, ?_⟩
        · split <;> simp [SetState, emit]
        · split <;> simp [SetState, emit] <;> omega
        · split <;> simp [SetState, emit]
        · split <;> simp [SetState, emit]
        · split <;> simp [SetState, emit]
        · split <;> simp [SetState, emit]
        · intro hR
          have hC := reachable_coherent P s hR
          have hNil : s.vecSessionCollaterals = [] := by
            rcases hC with h | h | h
            · exact h.2.2
            · exact absurd h0.2 h.1
            · exact absurd h0.2 h.1
          split <;> simp [SetState, emit, hNil]

/-- C13 at the sample facilitator right after construction. -/
theorem C13_CreateNewSession_opens_session_witness :
    (CreateNewSession sampleParams (sampleEnv 1000) 1 (sampleCollateral 1) MSG_NOERR
        sampleInitial).2.2.nSessionID = 42 ∧
    (CreateNewSession sampleParams (sampleEnv 1000) 1 (sampleCollateral 1) MSG_NOERR
        sampleInitial).2.2.vecSessionCollaterals = [sampleCollateral 1] :=
  have h := C13_CreateNewSession_opens_session sampleParams (sampleEnv 1000) 1
    (sampleCollateral 1) MSG_NOERR sampleInitial (by decide)
  ⟨h.2.1.2.2.1, h.2.2 (Reachable.init sampleInitial ⟨rfl, rfl, rfl, rfl, rfl, rfl⟩)⟩

/-- C13 as first stated fails: with the unit-test flag set, `CreateNewSession`
returns true for a collateral that is not valid. -/
theorem C13_counterexample :
    (sampleEnv 1000).IsCollateralValid sampleEmptyCollateral = false ∧
      (CreateNewSession sampleUnitTest (sampleEnv 1000) 1 sampleEmptyCollateral MSG_NOERR
        sampleInitial).1 = true := by
  decide

theorem CheckTimeout_timed_out (P : Params) (E : Env) (s : CPrivateSendServer)
    (hD : P.fDyNode = true) (hLock : E.lockPS = true) (hState : s.nState = POOL_STATE_SIGNING)
    (hTime : P.PRIVATESEND_SIGNING_TIMEOUT * 1000 ≤ E.GetTimeMillis - s.nTimeLastSuccessfulStep) :
    CheckTimeout P E s = SetNull P E (ChargeFees P E { s with
      vecPrivatesendQueue :=
        s.vecPrivatesendQueue.filter (fun q => !CPrivatesendQueue_IsExpired P E q) }) := by
  unfold CheckTimeout
  simp only [hLock, hD, hState]
  simp [hTime, SetState_error P _ hD]

theorem ChargeFees_full (P : Params) (E : Env) (s : CPrivateSendServer)
    (h : P.PoolMaxTransactions ≤ ((vecOffendersCollaterals s).length : Int)) :
    ChargeFees P E s = s := by
  unfold ChargeFees
  simp only []
  repeat' split
  all_goals first
    | rfl
    | (exfalso; simp_all)

theorem CheckTimeout_full (P : Params) (E : Env) (s : CPrivateSendServer)
    (hD : P.fDyNode = true) (hLock : E.lockPS = true) (hState : s.nState = POOL_STATE_SIGNING)
    (hTime : P.PRIVATESEND_SIGNING_TIMEOUT * 1000 ≤ E.GetTimeMillis - s.nTimeLastSuccessfulStep)
    (hFull : P.PoolMaxTransactions ≤ ((vecOffendersCollaterals s).length : Int)) :
    (CheckTimeout P E s).effects = s.effects := by
  rw [CheckTimeout_timed_out P E s hD hLock hState hTime]
  have h := ChargeFees_full P E { s with
    vecPrivatesendQueue :=
      s.vecPrivatesendQueue.filter (fun q => !CPrivatesendQueue_IsExpired P E q) } hFull
  rw [h]
  rfl

theorem mem_vecOffendersCollaterals (s : CPrivateSendServer) (entry : CPrivateSendEntry)
    (hState : s.nState = POOL_STATE_SIGNING) (hEntry : entry ∈ s.vecEntries)
    (hUnsigned : ∃ txpsin ∈ entry.vecTxPSIn, txpsin.fHasSig = false) :
    entry.txCollateral ∈ vecOffendersCollaterals s := by
  obtain ⟨txpsin, hin, hsig⟩ := hUnsigned
  unfold vecOffendersCollaterals
  rw [List.mem_append]
  right
  rw [if_pos hState]
  simp only [List.mem_flatMap, List.mem_map, List.mem_filter]
  exact ⟨entry, hEntry, txpsin, ⟨hin, by simp [hsig]⟩, rfl⟩

theorem ChargeFees_charges (P : Params) (E : Env) (s : CPrivateSendServer) (tx : CTransaction)
    (i : Nat) (hD : P.fDyNode = true)
    (hState : s.nState = POOL_STATE_ACCEPTING_ENTRIES ∨ s.nState = POOL_STATE_SIGNING)
    (hi : (vecOffendersCollaterals s)[i]? = some tx)
    (hlt : ((vecOffendersCollaterals s).length : Int) < P.PoolMaxTransactions) :
    ∃ rand, (ChargeFees P { E with rand := rand } s).effects =
      s.effects ++ Effect.AcceptToMemoryPool tx (E.mempoolAccepts s.effects tx) ::
        (if E.mempoolAccepts s.effects tx then [Effect.RelayTransaction tx] else []) := by
  have hilt : i < (vecOffendersCollaterals s).length := by
    by_contra hc
    rw [List.getElem?_eq_none (not_lt.1 hc)] at hi
    exact absurd hi (by simp)
  have hne : (vecOffendersCollaterals s).isEmpty = false := by
    cases h : vecOffendersCollaterals s with
    | nil => rw [h] at hilt; exact absurd hilt (by simp)
    | cons a l => rfl
  have hmod : i % (vecOffendersCollaterals s).length = i := Nat.mod_eq_of_lt hilt
  have hfull : ¬ (P.PoolMaxTransactions ≤ ((vecOffendersCollaterals s).length : Int)) :=
    not_le.2 hlt
  by_cases hm : P.PoolMaxTransactions - 1 ≤ ((vecOffendersCollaterals s).length : Int)
  · refine ⟨[0, 0, i], ?_⟩
    cases hv : E.mempoolAccepts s.effects tx <;>
      simp [ChargeFees, hD, GetRandInt, hne, hm, hfull, random_shuffle, hState, hmod, hi,
        AcceptToMemoryPool, emit, hv]
  · refine ⟨[0, i], ?_⟩
    cases hv : E.mempoolAccepts s.effects tx <;>
      simp [ChargeFees, hD, GetRandInt, hne, hm, hfull, random_shuffle, hState, hmod, hi,
        AcceptToMemoryPool, emit, hv]

/-- C11: on a facilitator whose timer check obtains the session lock, in
`Signing` with an entry one of whose inputs carries no signature, once the
signing timeout has passed since the last progress: whatever the random draws,
`CheckTimeout` leaves the session in state `Idle` with no entries, no session
collaterals and session id 0; and when the offences on record (one for each
unsigned input) number fewer than `PoolMaxTransactions`, some draws make it
submit that entry's collateral to the admission pipeline, once, and relay it
when the pipeline accepts it. -/
theorem C11_timeout_charges_unsigned_participant (P : Params) (E : Env) (s : CPrivateSendServer)
    (entry : CPrivateSendEntry)
    (hD : P.fDyNode = true) (hLock : E.lockPS = true) (hState : s.nState = POOL_STATE_SIGNING)
    (hEntry : entry ∈ s.vecEntries)
    (hUnsigned : ∃ txpsin ∈ entry.vecTxPSIn, txpsin.fHasSig = false)
    (hTime : P.PRIVATESEND_SIGNING_TIMEOUT * 1000 ≤
      E.GetTimeMillis - s.nTimeLastSuccessfulStep) :
    (∀ rand : List Nat,
      (CheckTimeout P { E with rand := rand } s).nState = POOL_STATE_IDLE ∧
      (CheckTimeout P { E with rand := rand } s).vecEntries = [] ∧
      (CheckTimeout P { E with rand := rand } s).vecSessionCollaterals = [] ∧
      (CheckTimeout P { E with rand := rand } s).nSessionID = 0) ∧
    (((vecOffendersCollaterals s).length : Int) < P.PoolMaxTransactions →
      ∃ rand : List Nat, (CheckTimeout P { E with rand := rand } s).effects =
        s.effects ++ Effect.AcceptToMemoryPool entry.txCollateral
            (E.mempoolAccepts s.effects entry.txCollateral) ::
          (if E.mempoolAccepts s.effects entry.txCollateral
            then [Effect.RelayTransaction entry.txCollateral] else [])) := by
  refine ⟨fun rand => ?_, fun hlt => ?_⟩
  · rw [CheckTimeout_timed_out P { E with rand := rand } s hD hLock hState hTime]
    exact ⟨rfl, rfl, rfl, rfl⟩
  · have hmem := mem_vecOffendersCollaterals s entry hState hEntry hUnsigned
    obtain ⟨i, hi, hget⟩ := List.mem_iff_getElem.1 hmem
    have hi2 : (vecOffendersCollaterals s)[i]? = some entry.txCollateral := by
      rw [List.getElem?_eq_getElem hi, hget]
    obtain ⟨rand, hrand⟩ := ChargeFees_charges P E
      { s with
        vecPrivatesendQueue :=
          s.vecPrivatesendQueue.filter (fun q => !CPrivatesendQueue_IsExpired P E q) }
      entry.txCollateral i hD (Or.inr hState) hi2 hlt
    refine ⟨rand, ?_⟩
    rw [CheckTimeout_timed_out P { E with rand := rand } s hD hLock hState hTime]
    exact hrand

/-- C11 at the sample session in `Signing` with the first participant's
signature in and the second participant's missing, 25 seconds after the last
progress. -/
theorem C11_timeout_charges_unsigned_participant_witness :
    ((CheckTimeout sampleParams { sampleEnv 30000 with rand := [50] } sampleOneSigned).nState =
        POOL_STATE_IDLE ∧
      (CheckTimeout sampleParams { sampleEnv 30000 with rand := [50] } sampleOneSigned).vecEntries =
        [] ∧
      (CheckTimeout sampleParams
        { sampleEnv 30000 with rand := [50] } sampleOneSigned).vecSessionCollaterals = [] ∧
      (CheckTimeout sampleParams { sampleEnv 30000 with rand := [50] } sampleOneSigned).nSessionID =
        0) ∧
    ∃ rand : List Nat,
      (CheckTimeout sampleParams { sampleEnv 30000 with rand := rand } sampleOneSigned).effects =
        sampleOneSigned.effects ++
          [Effect.AcceptToMemoryPool (sampleCollateral 2) true,
            Effect.RelayTransaction (sampleCollateral 2)] :=
  have h := C11_timeout_charges_unsigned_participant sampleParams (sampleEnv 30000)
    sampleOneSigned (sampleEntry 2 10) rfl rfl (by decide) (by decide)
    ⟨_, List.mem_singleton.2 rfl, rfl⟩ (by decide)
  ⟨h.1 [50], h.2 (by decide)⟩

/-- C11 as first stated fails: in the sample session in `Signing` where neither
participant has signed, 25 seconds after the last progress, the offences on
record number `PoolMaxTransactions`, and whatever the random draws the timeout
check submits and relays nothing. -/
theorem C11_counterexample :
    sampleParams.fDyNode = true ∧ (sampleEnv 30000).lockPS = true ∧
      sampleSigning.nState = POOL_STATE_SIGNING ∧
      sampleEntry 1 11 ∈ sampleSigning.vecEntries ∧
      (∃ txpsin ∈ (sampleEntry 1 11).vecTxPSIn, txpsin.fHasSig = false) ∧
      sampleParams.PRIVATESEND_SIGNING_TIMEOUT * 1000 ≤
        (sampleEnv 30000).GetTimeMillis - sampleSigning.nTimeLastSuccessfulStep ∧
      TimeoutChargesNobody sampleParams (sampleEnv 30000) sampleSigning := by
  refine ⟨rfl, rfl, by decide, by decide, ⟨_, List.mem_singleton.2 rfl, rfl⟩, by decide, ?_⟩
  have hT : sampleParams.PRIVATESEND_SIGNING_TIMEOUT * 1000 ≤
      (sampleEnv 30000).GetTimeMillis - sampleSigning.nTimeLastSuccessfulStep := by decide
  have hF : sampleParams.PoolMaxTransactions ≤
      ((vecOffendersCollaterals sampleSigning).length : Int) := by decide
  intro rand
  exact CheckTimeout_full sampleParams { sampleEnv 30000 with rand := rand } sampleSigning
    rfl rfl (by decide) hT hF

theorem IsInputScriptSigValid_eq (P : Params) (txin : CTxIn) (s : CPrivateSendServer) :
    IsInputScriptSigValid P txin s =
      match verifyScriptCall P txin s with
      | some (scriptSig, sigPubKey, txNew, nTxInIndex) =>
        P.VerifyScript scriptSig sigPubKey txNew nTxInIndex
      | none => false := by
  unfold IsInputScriptSigValid verifyScriptCall
  simp only []
  split <;> rfl

/-- C14: after `CreateFinalTransaction` the inputs of the joint transaction
are a permutation of the inputs of all entries and stand in ascending order of
previous output (transaction hash, then output index), its outputs are a
permutation of the outputs of all entries and stand in ascending order of
value, then locking script; the state is `Signing`; and the joint transaction
has been sent with the session id, as `PSFINALTX`, to every connected peer at
or above the minimum protocol version, nothing else being sent. -/
theorem C14_CreateFinalTransaction_sorts_and_broadcasts (P : Params) (E : Env)
    (s : CPrivateSendServer) :
    (CreateFinalTransaction P E s).finalMutableTransaction.vin.Perm
        (s.vecEntries.flatMap (fun entry => entry.vecTxPSIn.map CTxPSIn.toCTxIn)) ∧
      ((CreateFinalTransaction P E s).finalMutableTransaction.vin.map inputKey).Sorted (· ≤ ·) ∧
      (CreateFinalTransaction P E s).finalMutableTransaction.vout.Perm
        (s.vecEntries.flatMap (fun entry => entry.vecTxPSOut.map CTxPSOut.toCTxOut)) ∧
      ((CreateFinalTransaction P E s).finalMutableTransaction.vout.map outputKey).Sorted (· ≤ ·) ∧
      (CreateFinalTransaction P E s).nState = POOL_STATE_SIGNING ∧
      (CreateFinalTransaction P E s).effects = s.effects ++ (relayPeers P E).map (fun pnode =>
        Effect.PushMessage pnode (NetMsg.PSFINALTX s.nSessionID
          (CreateFinalTransaction P E s).finalMutableTransaction)) := by
  refine ⟨?_, ?_, ?_, ?_, CreateFinalTransaction_nState P E s, ?_⟩
  · rw [CreateFinalTransaction_final]
    exact sort_perm _ _
  · rw [CreateFinalTransaction_final]
    exact sort_sorted _ _ CompareInputBIP69_iff _
  · rw [CreateFinalTransaction_final]
    exact sort_perm _ _
  · rw [CreateFinalTransaction_final]
    exact sort_sorted _ _ CompareOutputBIP69_iff _
  · rw [CreateFinalTransaction_final]
    simp only [CreateFinalTransaction, SetState, RelayFinalTransaction_eq]
    split <;> simp [relayedFinalTransaction, pooledTransaction, emptyTransaction]

/-- C15 fails on the code: in the sample session in `Signing`, whose entries
came in with previous outputs 11 then 10, the joint transaction has the inputs
in the order 10, 11, but the signature for input 11 is verified against a
transaction with the inputs in the order 11, 10, at index 0, while that input
stands at index 1 of the joint transaction. The locking script is the one the
entry caches. -/
theorem C15_signature_verified_against_unsorted_transaction :
    sampleSigning.finalMutableTransaction.vin.map (fun txin => txin.prevout.hash) = [10, 11] ∧
      (verifyScriptCall sampleParams (sampleSignedInput 11) sampleSigning).map
          (fun call => (call.2.2.1.vin.map (fun txin => txin.prevout.hash), call.2.2.2)) =
        some ([11, 10], 0) ∧
      sampleSigning.finalMutableTransaction.vin.findIdx
          (fun txin => txin.prevout == (sampleSignedInput 11).prevout) = 1 ∧
      (verifyScriptCall sampleParams (sampleSignedInput 11) sampleSigning).map
          (fun call => [call.2.1]) =
        some ((sampleEntry 1 11).vecTxPSIn.map (fun txpsin => txpsin.prevPubKey)) ∧
      IsInputScriptSigValid sampleParams (sampleSignedInput 11) sampleSigning = true := by
  decide

theorem JointFromPool.of_eq {s t : CPrivateSendServer}
    (hf : t.finalMutableTransaction = s.finalMutableTransaction)
    (he : t.vecEntries = s.vecEntries) (hs : JointFromPool s) : JointFromPool t := by
  unfold JointFromPool at *
  rw [hf, he]
  exact hs

theorem JointFromPool.of_nil {t : CPrivateSendServer}
    (h : t.finalMutableTransaction.vin = []) : JointFromPool t := by
  unfold JointFromPool
  rw [h]
  intro txin htx
  exact absurd htx (List.not_mem_nil _)

theorem SameSession.joint {s t : CPrivateSendServer} (h : SameSession s t)
    (hs : JointFromPool s) : JointFromPool t := by
  obtain ⟨l, rfl⟩ := h
  exact hs

theorem SetNull_joint (P : Params) (E : Env) (s : CPrivateSendServer) :
    JointFromPool (SetNull P E s) := JointFromPool.of_nil rfl

theorem AddEntry_joint (P : Params) (E : Env) (e : CPrivateSendEntry) (m : PoolMessage)
    (s : CPrivateSendServer) (hs : JointFromPool s) : JointFromPool (AddEntry P E e m s).2.2 := by
  unfold AddEntry
  repeat' split
  all_goals first
    | exact hs
    | (intro txin htx
       exact List.mem_flatMap.2 (by
        obtain ⟨x, hx, hm⟩ := List.mem_flatMap.1 (hs txin htx)
        exact ⟨x, List.mem_append_left _ hx, hm⟩))

theorem CPrivateSendEntry_AddScriptSig_refs (txin : CTxIn) (l : List CTxPSIn) :
    (CPrivateSendEntry_AddScriptSig txin l).2.map (fun t => (t.prevout, t.nSequence)) =
      l.map (fun t => (t.prevout, t.nSequence)) := by
  induction l with
  | nil => rfl
  | cons a l ih =>
    simp only [CPrivateSendEntry_AddScriptSig]
    split
    · split <;> simp
    · simp [ih]

theorem addScriptSigToEntries_refs (txin : CTxIn) (l : List CPrivateSendEntry) :
    (addScriptSigToEntries txin l).2.map entryRefs = l.map entryRefs := by
  induction l with
  | nil => rfl
  | cons a l ih =>
    simp only [addScriptSigToEntries]
    split
    · simp [entryRefs, CPrivateSendEntry_AddScriptSig_refs]
    · simp [entryRefs, CPrivateSendEntry_AddScriptSig_refs] at ih ⊢
      exact ih

theorem flatMap_entryRefs_congr {a b : List CPrivateSendEntry}
    (h : a.map entryRefs = b.map entryRefs) : a.flatMap entryRefs = b.flatMap entryRefs := by
  rw [List.flatMap_def, List.flatMap_def, h]

theorem AddScriptSig_joint (P : Params) (txin : CTxIn) (s : CPrivateSendServer)
    (hs : JointFromPool s) : JointFromPool (AddScriptSig P txin s).2 := by
  unfold AddScriptSig
  repeat' split
  all_goals first
    | exact hs
    | (intro t ht
       simp only [List.mem_map] at ht
       obtain ⟨t0, ht0, rfl⟩ := ht
       have h0 := hs t0 ht0
       have hk : ((signJointInput txin t0).prevout, (signJointInput txin t0).nSequence) =
           (t0.prevout, t0.nSequence) := by
         unfold signJointInput
         split <;> rfl
       rw [hk]
       show _ ∈ (addScriptSigToEntries txin s.vecEntries).2.flatMap entryRefs
       rw [flatMap_entryRefs_congr (addScriptSigToEntries_refs txin s.vecEntries)]
       exact h0)

theorem addScriptSigs_joint (P : Params) (l : List CTxIn) (s : CPrivateSendServer)
    (hs : JointFromPool s) : JointFromPool (addScriptSigs P l s).2 := by
  induction l generalizing s with
  | nil => exact hs
  | cons a l ih =>
    simp only [addScriptSigs]
    split
    · exact AddScriptSig_joint P a s hs
    · exact ih _ (AddScriptSig_joint P a s hs)

theorem CreateFinalTransaction_joint (P : Params) (E : Env) (s : CPrivateSendServer) :
    JointFromPool (CreateFinalTransaction P E s) := by
  intro txin htx
  rw [CreateFinalTransaction_final] at htx
  have hmem : txin ∈ (pooledTransaction P s).vin := (sort_perm _ _).mem_iff.1 htx
  have hE : (CreateFinalTransaction P E s).vecEntries = s.vecEntries := by
    simp only [CreateFinalTransaction, SetState, RelayFinalTransaction_eq]
    split <;> rfl
  rw [hE]
  simp only [pooledTransaction, List.mem_flatMap, List.mem_map] at hmem
  obtain ⟨e, he, t, ht, rfl⟩ := hmem
  exact List.mem_flatMap.2 ⟨e, he, List.mem_map.2 ⟨t, ht, rfl⟩⟩

theorem CommitFinalTransaction_joint (P : Params) (E : Env) (s : CPrivateSendServer)
    (hs : JointFromPool s) : JointFromPool (CommitFinalTransaction P E s) := by
  unfold CommitFinalTransaction
  simp only []
  repeat' split
  all_goals first
    | exact hs
    | exact (sameSession_RelayCompletedTransaction _ _ _ _).joint (SetNull_joint _ _ _)
    | exact SetNull_joint _ _ _

theorem CheckPool_joint (P : Params) (E : Env) (s : CPrivateSendServer)
    (hs : JointFromPool s) : JointFromPool (CheckPool P E s) := by
  unfold CheckPool
  repeat' split
  all_goals first
    | exact hs
    | exact CreateFinalTransaction_joint P E s
    | exact CommitFinalTransaction_joint P E s hs
    | exact SetNull_joint P E s

theorem CheckTimeout_joint (P : Params) (E : Env) (s : CPrivateSendServer)
    (hs : JointFromPool s) : JointFromPool (CheckTimeout P E s) := by
  unfold CheckTimeout
  simp only []
  repeat' split
  all_goals first
    | exact hs
    | exact JointFromPool.of_eq rfl rfl hs
    | (apply JointFromPool.of_nil
       unfold SetState
       split <;> rfl)

theorem CheckForCompleteQueue_joint (P : Params) (E : Env) (s : CPrivateSendServer)
    (hs : JointFromPool s) : JointFromPool (CheckForCompleteQueue P E s) := by
  unfold CheckForCompleteQueue
  repeat' split
  all_goals first
    | exact hs
    | (refine (sameSession_emit _ _).joint (JointFromPool.of_eq ?_ ?_ hs) <;>
        (unfold SetState; split <;> rfl))

theorem CreateNewSession_joint (P : Params) (E : Env) (nDenom : Int) (tx : CTransaction)
    (m : PoolMessage) (s : CPrivateSendServer) (hs : JointFromPool s) :
    JointFromPool (CreateNewSession P E nDenom tx m s).2.2 := by
  unfold CreateNewSession
  simp only []
  repeat' split
  all_goals first
    | exact hs
    | (refine JointFromPool.of_eq ?_ ?_ hs <;> simp [SetState, emit])

theorem AddUserToExistingSession_joint (P : Params) (E : Env) (nDenom : Int)
    (tx : CTransaction) (m : PoolMessage) (s : CPrivateSendServer) (hs : JointFromPool s) :
    JointFromPool (AddUserToExistingSession P E nDenom tx m s).2.2 := by
  unfold AddUserToExistingSession
  simp only []
  repeat' split
  all_goals exact hs

theorem ProcessPSACCEPT_joint (P : Params) (E : Env) (pfrom : CNode) (nDenom : Int)
    (tx : CTransaction) (s : CPrivateSendServer) (hs : JointFromPool s) :
    JointFromPool (ProcessPSACCEPT P E pfrom nDenom tx s) := by
  unfold ProcessPSACCEPT
  simp only []
  repeat' split
  all_goals refine (sameSession_PushStatus _ _ _ _).joint ?_
  all_goals first
    | exact hs
    | exact CreateNewSession_joint P E nDenom tx _ s hs
    | exact AddUserToExistingSession_joint P E nDenom tx _ s hs

theorem ProcessPSQUEUE_joint (P : Params) (E : Env) (pfrom : CNode) (psq : CPrivatesendQueue)
    (s : CPrivateSendServer) (hs : JointFromPool s) :
    JointFromPool (ProcessPSQUEUE P E pfrom psq s) := by
  unfold ProcessPSQUEUE
  simp only []
  repeat' split
  all_goals exact hs

theorem admitEntry_joint (P : Params) (E : Env) (pfrom : CNode) (entry : CPrivateSendEntry)
    (s : CPrivateSendServer) (hs : JointFromPool s) :
    JointFromPool (admitEntry P E pfrom entry s) := by
  unfold admitEntry
  simp only []
  split
  · refine (sameSession_RelayStatus _ _ _ _ _).joint ?_
    refine CheckPool_joint P E _ ?_
    exact (sameSession_PushStatus _ _ _ _).joint (AddEntry_joint P E entry MSG_NOERR s hs)
  · exact SetNull_joint _ _ _

theorem ProcessPSVIN_joint (P : Params) (E : Env) (pfrom : CNode) (entry : CPrivateSendEntry)
    (s : CPrivateSendServer) (hs : JointFromPool s) :
    JointFromPool (ProcessPSVIN P E pfrom entry s) := by
  have ha : ∀ e, JointFromPool
      (AcceptToMemoryPool E e (emit (Effect.PrioritiseTransaction (P.GetHash e)) s)).2 :=
    fun e => ((sameSession_emit _ s).trans (sameSession_AcceptToMemoryPool E e _)).joint hs
  unfold ProcessPSVIN
  simp only []
  repeat' split
  all_goals first
    | exact (sameSession_PushStatus _ _ _ _).joint hs
    | exact (sameSession_PushStatus _ _ _ _).joint (ha _)
    | exact admitEntry_joint P E pfrom entry _ (ha _)

theorem ProcessPSSIGNFINALTX_joint (P : Params) (E : Env) (pfrom : CNode) (l : List CTxIn)
    (s : CPrivateSendServer) (hs : JointFromPool s) :
    JointFromPool (ProcessPSSIGNFINALTX P E pfrom l s) := by
  unfold ProcessPSSIGNFINALTX
  simp only []
  repeat' split
  · exact hs
  · exact (sameSession_RelayStatus _ _ _ _ _).joint (addScriptSigs_joint P l s hs)
  · exact CheckPool_joint P E _ (addScriptSigs_joint P l s hs)

theorem ProcessMessage_joint (P : Params) (E : Env) (pfrom : CNode) (msg : Message)
    (s : CPrivateSendServer) (hs : JointFromPool s) :
    JointFromPool (ProcessMessage P E pfrom msg s) := by
  unfold ProcessMessage
  repeat' split
  all_goals first
    | exact hs
    | exact ProcessPSACCEPT_joint _ _ _ _ _ _ hs
    | exact ProcessPSQUEUE_joint _ _ _ _ _ hs
    | exact ProcessPSVIN_joint _ _ _ _ _ hs
    | exact ProcessPSSIGNFINALTX_joint _ _ _ _ _ hs

theorem reachable_joint (P : Params) (s : CPrivateSendServer) (h : Reachable P s) :
    JointFromPool s := by
  induction h with
  | init s h0 => exact JointFromPool.of_nil h0.2.2.2.2.1
  | step s t _ hst ih =>
    cases hst with
    | processMessage E pfrom msg => exact ProcessMessage_joint _ _ _ _ _ ih
    | addEntry E e m => exact AddEntry_joint _ _ _ _ _ ih
    | checkPool E => exact CheckPool_joint _ _ _ ih
    | checkTimeout E => exact CheckTimeout_joint _ _ _ ih
    | checkForCompleteQueue E => exact CheckForCompleteQueue_joint _ _ _ ih
    | setNull E => exact SetNull_joint P E s

theorem reachable_pooledPrevoutsDistinct (P : Params) (s : CPrivateSendServer)
    (h : Reachable P s) (hEntry : ∀ entry ∈ s.vecEntries, (entryPrevouts entry).Nodup) :
    PooledPrevoutsDistinct s := by
  have hc := reachable_crossUnique P s h
  unfold PooledPrevoutsDistinct
  rw [List.map_flatMap]
  rw [List.nodup_flatMap]
  refine ⟨hEntry, ?_⟩
  unfold CrossUnique at hc
  rw [List.pairwise_map] at hc
  exact hc

theorem CPrivateSendEntry_AddScriptSig_true (txin : CTxIn) (l : List CTxPSIn)
    (h : (CPrivateSendEntry_AddScriptSig txin l).1 = true) :
    ∃ ins1 t ins2, l = ins1 ++ t :: ins2 ∧ t.prevout = txin.prevout ∧
      t.nSequence = txin.nSequence ∧
      (CPrivateSendEntry_AddScriptSig txin l).2 = ins1 ++ signedEntryInput txin t :: ins2 := by
  induction l with
  | nil => simp [CPrivateSendEntry_AddScriptSig] at h
  | cons a l ih =>
    simp only [CPrivateSendEntry_AddScriptSig] at h ⊢
    split at h
    · rename_i h1
      split at h
      · simp at h
      · rename_i h2
        refine ⟨[], a, l, rfl, h1.1, h1.2, ?_⟩
        simp [h1, h2, signedEntryInput]
    · rename_i h1
      obtain ⟨ins1, t, ins2, hl, hp, hq, hr⟩ := ih h
      refine ⟨a :: ins1, t, ins2, by rw [hl]; rfl, hp, hq, ?_⟩
      simp only [h1, ↓reduceIte, hr]
      rfl

theorem CPrivateSendEntry_AddScriptSig_false (txin : CTxIn) (l : List CTxPSIn)
    (h : (CPrivateSendEntry_AddScriptSig txin l).1 = false) :
    (CPrivateSendEntry_AddScriptSig txin l).2 = l := by
  induction l with
  | nil => rfl
  | cons a l ih =>
    simp only [CPrivateSendEntry_AddScriptSig] at h ⊢
    split at h
    · rename_i h1
      split at h
      · rename_i h2
        simp [h1, h2]
      · simp at h
    · rename_i h1
      simp only [h1, ↓reduceIte, ih h]

theorem addScriptSigToEntries_true (txin : CTxIn) (l : List CPrivateSendEntry)
    (h : (addScriptSigToEntries txin l).1 = true) :
    ∃ pre entry post ins1 t ins2, l = pre ++ entry :: post ∧
      entry.vecTxPSIn = ins1 ++ t :: ins2 ∧ t.prevout = txin.prevout ∧
      t.nSequence = txin.nSequence ∧
      (addScriptSigToEntries txin l).2 =
        pre ++ { entry with vecTxPSIn := ins1 ++ signedEntryInput txin t :: ins2 } :: post := by
  induction l with
  | nil => simp [addScriptSigToEntries] at h
  | cons a l ih =>
    simp only [addScriptSigToEntries] at h ⊢
    split at h
    · rename_i h1
      obtain ⟨ins1, t, ins2, hl, hp, hq, hr⟩ := CPrivateSendEntry_AddScriptSig_true txin _ h1
      refine ⟨[], a, l, ins1, t, ins2, rfl, hl, hp, hq, ?_⟩
      simp only [h1, ↓reduceIte, hr]
      rfl
    · rename_i h1
      obtain ⟨pre, e, post, ins1, t, ins2, hl, he, hp, hq, hr⟩ := ih h
      refine ⟨a :: pre, e, post, ins1, t, ins2, by rw [hl]; rfl, he, hp, hq, ?_⟩
      have h1' : (CPrivateSendEntry_AddScriptSig txin a.vecTxPSIn).1 = false := by
        simpa using h1
      simp only [h1, hr, CPrivateSendEntry_AddScriptSig_false txin _ h1']
      rfl

theorem AddScriptSig_true (P : Params) (txinNew : CTxIn) (s : CPrivateSendServer)
    (h : (AddScriptSig P txinNew s).1 = true) :
    (addScriptSigToEntries txinNew s.vecEntries).1 = true ∧
      (AddScriptSig P txinNew s).2 =
        { s with
          finalMutableTransaction :=
            { s.finalMutableTransaction with
              vin := s.finalMutableTransaction.vin.map (signJointInput txinNew) }
          vecEntries := (addScriptSigToEntries txinNew s.vecEntries).2 } := by
  unfold AddScriptSig at h ⊢
  split at h
  · simp at h
  · split at h
    · simp at h
    · rename_i h1 h2
      simp only [h1, h2]
      exact ⟨h, rfl⟩

theorem nodup_map_split {α β : Type} (f : α → β) (A B : List α) (x : α)
    (h : ((A ++ x :: B).map f).Nodup) : (∀ y ∈ A, f y ≠ f x) ∧ (∀ y ∈ B, f y ≠ f x) := by
  rw [List.map_append, List.map_cons, List.nodup_append, List.nodup_cons] at h
  obtain ⟨_, ⟨hB, _⟩, hd⟩ := h
  constructor
  · intro y hy heq
    exact hd (List.mem_map_of_mem f hy) (by rw [heq]; exact List.mem_cons_self _ _)
  · intro y hy heq
    exact hB (heq ▸ List.mem_map_of_mem f hy)

theorem map_signed_eq_self (txinNew : CTxIn) (l : List CTxPSIn)
    (h : ∀ t ∈ l, t.prevout ≠ txinNew.prevout) :
    l.map (fun txpsin =>
      if txpsin.prevout = txinNew.prevout then signedEntryInput txinNew txpsin else txpsin) = l := by
  induction l with
  | nil => rfl
  | cons a l ih =>
    rw [List.map_cons, ih (fun t ht => h t (List.mem_cons_of_mem _ ht)),
      if_neg (h a (List.mem_cons_self _ _))]

theorem map_entries_signed_eq_self (txinNew : CTxIn) (l : List CPrivateSendEntry)
    (h : ∀ e ∈ l, ∀ t ∈ e.vecTxPSIn, t.prevout ≠ txinNew.prevout) :
    l.map (fun entry => { entry with vecTxPSIn := entry.vecTxPSIn.map (fun txpsin =>
      if txpsin.prevout = txinNew.prevout then signedEntryInput txinNew txpsin else txpsin) }) =
      l := by
  induction l with
  | nil => rfl
  | cons a l ih =>
    rw [List.map_cons, ih (fun e he => h e (List.mem_cons_of_mem _ he)),
      map_signed_eq_self txinNew _ (h a (List.mem_cons_self _ _))]

/-- C16: whenever `AddScriptSig` returns true for a signed input with previous
output `p`, one pooled input with reference `p`, in one entry, has taken the
submitted signature script and the has-signature mark, every other input of
every entry being as before; in the joint transaction the inputs with
reference `p` and the submitted sequence number have taken the submitted
signature script (and cached locking script), every other input and the rest
of the transaction being as before. In every session state the coordinator
operations lead to, provided no entry refers to the same previous output in
two of its own inputs, these are all the inputs with reference `p`: every
input with reference `p`, of the entries and of the joint transaction, carries
the submitted signature script, and no other input has changed. -/
theorem C16_AddScriptSig_records_signature (P : Params) (txinNew : CTxIn)
    (s : CPrivateSendServer) (hOk : (AddScriptSig P txinNew s).1 = true) :
    (∃ pre entry post ins1 txpsin ins2,
      s.vecEntries = pre ++ entry :: post ∧ entry.vecTxPSIn = ins1 ++ txpsin :: ins2 ∧
      txpsin.prevout = txinNew.prevout ∧
      (AddScriptSig P txinNew s).2.vecEntries =
        pre ++ { entry with
          vecTxPSIn := ins1 ++ signedEntryInput txinNew txpsin :: ins2 } :: post) ∧
    (AddScriptSig P txinNew s).2.finalMutableTransaction =
      { s.finalMutableTransaction with
        vin := s.finalMutableTransaction.vin.map (signJointInput txinNew) } ∧
    (Reachable P s → (∀ entry ∈ s.vecEntries, (entryPrevouts entry).Nodup) →
      (AddScriptSig P txinNew s).2.vecEntries =
        s.vecEntries.map (fun entry => { entry with vecTxPSIn := entry.vecTxPSIn.map (fun txpsin =>
          if txpsin.prevout = txinNew.prevout then signedEntryInput txinNew txpsin
          else txpsin) }) ∧
      (AddScriptSig P txinNew s).2.finalMutableTransaction.vin =
        s.finalMutableTransaction.vin.map (fun txin =>
          if txin.prevout = txinNew.prevout then signedJointInput txinNew txin else txin)) := by
  obtain ⟨hE, hEq⟩ := AddScriptSig_true P txinNew s hOk
  obtain ⟨pre, e, post, ins1, t, ins2, hl, he, hp, hq, hr⟩ :=
    addScriptSigToEntries_true txinNew s.vecEntries hE
  rw [hEq]
  refine ⟨⟨pre, e, post, ins1, t, ins2, hl, he, hp, hr⟩, rfl, fun hR hN => ?_⟩
  have h1 := reachable_pooledPrevoutsDistinct P s hR hN
  have h2 := reachable_joint P s hR
  refine ⟨?_, ?_⟩
  · have hflat : s.vecEntries.flatMap (fun entry => entry.vecTxPSIn) =
        (pre.flatMap (fun entry => entry.vecTxPSIn) ++ ins1) ++
          t :: (ins2 ++ post.flatMap (fun entry => entry.vecTxPSIn)) := by
      rw [hl]
      simp [List.flatMap_append, List.flatMap_cons, he]
    unfold PooledPrevoutsDistinct at h1
    rw [hflat] at h1
    obtain ⟨hA, hB⟩ := nodup_map_split _ _ _ _ h1
    have hpre : ∀ e' ∈ pre, ∀ t' ∈ e'.vecTxPSIn, t'.prevout ≠ txinNew.prevout :=
      fun e' he' t' ht' => hp ▸ hA t' (List.mem_append_left _ (List.mem_flatMap.2 ⟨e', he', ht'⟩))
    have hpost : ∀ e' ∈ post, ∀ t' ∈ e'.vecTxPSIn, t'.prevout ≠ txinNew.prevout :=
      fun e' he' t' ht' => hp ▸ hB t' (List.mem_append_right _ (List.mem_flatMap.2 ⟨e', he', ht'⟩))
    have hins1 : ∀ t' ∈ ins1, t'.prevout ≠ txinNew.prevout :=
      fun t' ht' => hp ▸ hA t' (List.mem_append_right _ ht')
    have hins2 : ∀ t' ∈ ins2, t'.prevout ≠ txinNew.prevout :=
      fun t' ht' => hp ▸ hB t' (List.mem_append_left _ ht')
    show (addScriptSigToEntries txinNew s.vecEntries).2 = _
    rw [hr, hl, List.map_append, List.map_cons, map_entries_signed_eq_self txinNew pre hpre,
      map_entries_signed_eq_self txinNew post hpost, he, List.map_append, List.map_cons,
      map_signed_eq_self txinNew ins1 hins1, map_signed_eq_self txinNew ins2 hins2, if_pos hp]
  · show s.finalMutableTransaction.vin.map (signJointInput txinNew) = _
    apply List.map_congr_left
    intro txin htx
    by_cases hpx : txin.prevout = txinNew.prevout
    · obtain ⟨e', he', hr'⟩ := List.mem_flatMap.1 (h2 txin htx)
      obtain ⟨t', ht', hk'⟩ := List.mem_map.1 hr'
      have hp' : t'.prevout = txin.prevout := congrArg Prod.fst hk'
      have hq' : t'.nSequence = txin.nSequence := congrArg Prod.snd hk'
      have hmem' : t' ∈ s.vecEntries.flatMap (fun entry => entry.vecTxPSIn) :=
        List.mem_flatMap.2 ⟨e', he', ht'⟩
      have hmem : t ∈ s.vecEntries.flatMap (fun entry => entry.vecTxPSIn) := by
        refine List.mem_flatMap.2 ⟨e, ?_, ?_⟩
        · rw [hl]; simp
        · rw [he]; simp
      have htt : t' = t :=
        List.inj_on_of_nodup_map h1 hmem' hmem (by rw [hp', hpx, hp])
      have hseq : txin.nSequence = txinNew.nSequence := by
        rw [← hq', htt, hq]
      simp [signJointInput, signedJointInput, hpx, hseq]
    · have hpx' : ¬ txinNew.prevout = txin.prevout := fun h => hpx h.symm
      simp [signJointInput, hpx, hpx']

/-- C16 at the sample session in `Signing`, for the signature of the first
participant's input: that input now carries the submitted script in its entry
and in the joint transaction, the other participant's input is as before. -/
theorem C16_AddScriptSig_records_signature_witness :
    (AddScriptSig sampleParams (sampleSignedInput 11) sampleSigning).2.vecEntries =
        sampleSigning.vecEntries.map (fun entry => { entry with
          vecTxPSIn := entry.vecTxPSIn.map (fun txpsin =>
            if txpsin.prevout = (sampleSignedInput 11).prevout
              then signedEntryInput (sampleSignedInput 11) txpsin else txpsin) }) ∧
      (AddScriptSig sampleParams (sampleSignedInput 11) sampleSigning).2.finalMutableTransaction.vin =
        sampleSigning.finalMutableTransaction.vin.map (fun txin =>
          if txin.prevout = (sampleSignedInput 11).prevout
            then signedJointInput (sampleSignedInput 11) txin else txin) :=
  (C16_AddScriptSig_records_signature sampleParams (sampleSignedInput 11) sampleSigning
    (by decide)).2.2 sampleSigning_reachable (by decide)

/-- C17 fails on the code: in the sample session where the first participant's
input carries its signature, a further `AddScriptSig` for that input under a
different script that verifies returns false and leaves the entries as they
were, but the joint transaction now carries the new script on that input. -/
theorem C17_rejected_signature_overwrites_joint_input :
    (sampleOneSigned.vecEntries.flatMap (fun entry => entry.vecTxPSIn)).map
        (fun txpsin => (txpsin.prevout.hash, txpsin.fHasSig, txpsin.scriptSig)) =
      [(11, true, [172, 11]), (10, false, [])] ∧
    sampleOneSigned.finalMutableTransaction.vin.map
        (fun txin => (txin.prevout.hash, txin.scriptSig)) = [(10, []), (11, [172, 11])] ∧
    (AddScriptSig sampleParams sampleResignedInput sampleOneSigned).1 = false ∧
    (AddScriptSig sampleParams sampleResignedInput sampleOneSigned).2.vecEntries =
      sampleOneSigned.vecEntries ∧
    (AddScriptSig sampleParams sampleResignedInput sampleOneSigned).2.finalMutableTransaction.vin.map
        (fun txin => (txin.prevout.hash, txin.scriptSig)) = [(10, []), (11, [172, 99])] := by
  decide

theorem CommitFinalTransaction_mapPSTX (P : Params) (E : Env) (s : CPrivateSendServer) :
    (CommitFinalTransaction P E s).mapPSTX = s.mapPSTX := by
  have hPSTX : ∀ (pstx : CPrivatesendBroadcastTx) (t : CPrivateSendServer),
      GetPSTX P (P.GetHash pstx.tx) t = true → AddPSTX P pstx t = t := by
    intro pstx t h
    simp [AddPSTX, h]
  have hS : ∀ {a b : CPrivateSendServer}, SameSession a b → b.mapPSTX = a.mapPSTX := by
    intro a b h
    obtain ⟨l, rfl⟩ := h
    rfl
  unfold CommitFinalTransaction
  simp only []
  split
  · rfl
  · split
    · rw [hS (sameSession_RelayCompletedTransaction _ _ _ _)]
      rfl
    · split
      · rw [hS (sameSession_RelayCompletedTransaction _ _ _ _)]
        rfl
      · rw [SetNull_eq]
        simp only []
        rw [hS (sameSession_ChargeRandomFees _ _ _),
          hS (sameSession_RelayCompletedTransaction _ _ _ _)]
        split
        · rename_i hG
          rw [hPSTX _ _ hG]
          rfl
        · rfl

/-- C18 fails on the code: the sample session accepting entries has
denomination 1 and no entry yet; outputs of value 10, which the build
classifies as denomination 2, are found compatible, and the `PSVIN` handler
admits the entry that carries them. -/
theorem C18_first_entry_not_compared_with_session_denomination :
    sampleAccepting.nSessionDenom = 1 ∧ sampleAccepting.vecEntries = [] ∧
      Tick sampleTwoDenoms (sampleEnv 3000)
        (ProcessMessage sampleTwoDenoms (sampleEnv 2000) (samplePeer 2)
          (Message.PSACCEPT 1 (sampleCollateral 2))
          (ProcessMessage sampleTwoDenoms (sampleEnv 1000) (samplePeer 1)
            (Message.PSACCEPT 1 (sampleCollateral 1)) sampleInitial)) = sampleAccepting ∧
      sampleTwoDenoms.GetDenominations sampleSmallEntry.vecTxPSOut = 2 ∧
      IsOutputsCompatibleWithSessionDenom sampleTwoDenoms sampleSmallEntry.vecTxPSOut
        sampleAccepting = true ∧
      (ProcessMessage sampleTwoDenoms (sampleSmallCoinEnv 4000) (samplePeer 1)
        (Message.PSVIN sampleSmallEntry) sampleAccepting).vecEntries = [sampleSmallEntry] := by
  decide

/-- C19: on a facilitator that obtains the chain lock, when the admission
pipeline rejects the joint transaction, `CommitFinalTransaction` leaves the
object as it was but for this: the state is `Idle`, there are no entries and no
session collaterals, the session id and denomination are 0, the joint
transaction is empty, and the trace has gained the prioritisation of the joint
transaction, its one rejected submission, and a `PSCOMPLETE` with `ERR_INVALID_TX`
for every connected peer at or above the minimum protocol version. No
attestation record is stored, no collateral is submitted, and the joint
transaction is not submitted a second time. -/
theorem C19_rejected_joint_transaction_ends_round (P : Params) (E : Env) (s : CPrivateSendServer)
    (hD : P.fDyNode = true) (hLock : E.lockMain = true)
    (hRej : E.mempoolAccepts
      (s.effects ++ [Effect.PrioritiseTransaction (P.GetHash s.finalMutableTransaction)])
      s.finalMutableTransaction = false) :
    CommitFinalTransaction P E s =
      { s with
        nState := POOL_STATE_IDLE
        nSessionID := 0
        nSessionDenom := 0
        vecEntries := []
        vecSessionCollaterals := []
        finalMutableTransaction := emptyTransaction P
        nTimeLastSuccessfulStep := P.ResetStepTime E.GetTimeMillis s.nTimeLastSuccessfulStep
        effects := s.effects ++
          [Effect.PrioritiseTransaction (P.GetHash s.finalMutableTransaction),
            Effect.AcceptToMemoryPool s.finalMutableTransaction false] ++
          (relayPeers P E).map (fun pnode =>
            Effect.PushMessage pnode (NetMsg.PSCOMPLETE 0 ERR_INVALID_TX)) } := by
  unfold CommitFinalTransaction
  simp only [hD, hLock, AcceptToMemoryPool, emit, hRej, Bool.not_true, Bool.not_false,
    Bool.false_eq_true, ↓reduceIte]
  rw [RelayCompletedTransaction_eq, SetNull_eq]
  simp [relayedCompleted]

/-- C19 at the sample session with both signatures recorded, under an admission pipeline that rejects. -/
theorem C19_rejected_joint_transaction_ends_round_witness :
    (CommitFinalTransaction sampleParams (sampleRejectingEnv 7000) sampleAllSigned).nState =
        POOL_STATE_IDLE ∧
      (CommitFinalTransaction sampleParams (sampleRejectingEnv 7000) sampleAllSigned).mapPSTX =
        sampleAllSigned.mapPSTX ∧
      (CommitFinalTransaction sampleParams (sampleRejectingEnv 7000) sampleAllSigned).effects =
        sampleAllSigned.effects ++
          [Effect.PrioritiseTransaction (sampleParams.GetHash sampleAllSigned.finalMutableTransaction),
            Effect.AcceptToMemoryPool sampleAllSigned.finalMutableTransaction false,
            Effect.PushMessage (samplePeer 1) (NetMsg.PSCOMPLETE 0 ERR_INVALID_TX),
            Effect.PushMessage (samplePeer 2) (NetMsg.PSCOMPLETE 0 ERR_INVALID_TX)] :=
  have h := C19_rejected_joint_transaction_ends_round sampleParams (sampleRejectingEnv 7000)
    sampleAllSigned rfl rfl rfl
  ⟨by rw [h], by rw [h], by rw [h]; decide⟩

/-- C20 fails on the code: the sample session has both signatures recorded and
no attestation record; the admission pipeline accepts the joint transaction;
after `CommitFinalTransaction` there is still no attestation record for its
hash, although the inventory announcement for it has gone out. -/
theorem C20_no_attestation_record_stored :
    IsSignaturesComplete sampleAllSigned = true ∧
      GetPSTX sampleParams (sampleParams.GetHash sampleAllSigned.finalMutableTransaction)
        sampleAllSigned = false ∧
      Effect.AcceptToMemoryPool sampleAllSigned.finalMutableTransaction true ∈
        (CommitFinalTransaction sampleParams (sampleEnv 7000) sampleAllSigned).effects ∧
      GetPSTX sampleParams (sampleParams.GetHash sampleAllSigned.finalMutableTransaction)
        (CommitFinalTransaction sampleParams (sampleEnv 7000) sampleAllSigned) = false ∧
      (CommitFinalTransaction sampleParams (sampleEnv 7000) sampleAllSigned).mapPSTX = [] ∧
      Effect.RelayInv (sampleParams.GetHash sampleAllSigned.finalMutableTransaction) ∈
        (CommitFinalTransaction sampleParams (sampleEnv 7000) sampleAllSigned).effects := by
  decide

theorem CheckTimeout_reset (P : Params) (E : Env) (s : CPrivateSendServer)
    (hD : P.fDyNode = true) (hLock : E.lockPS = true) (hState : s.nState ≠ POOL_STATE_IDLE)
    (hTime : effectiveTimeout P s * 1000 ≤ E.GetTimeMillis - s.nTimeLastSuccessfulStep) :
    CheckTimeout P E s = SetNull P E (ChargeFees P E (purgeExpired P E s)) := by
  unfold effectiveTimeout at hTime
  unfold CheckTimeout purgeExpired
  simp only [hLock, hD]
  by_cases hS : s.nState = POOL_STATE_SIGNING
  · rw [if_pos hS] at hTime
    simp [hS, hTime, SetState_error P _ hD]
  · rw [if_neg hS] at hTime
    simp [hS, hTime, hState, SetState_error P _ hD]

theorem CheckTimeout_idle (P : Params) (E : Env) (s : CPrivateSendServer)
    (hD : P.fDyNode = true) (hLock : E.lockPS = true)
    (h : s.nState = POOL_STATE_IDLE ∨
      E.GetTimeMillis - s.nTimeLastSuccessfulStep < effectiveTimeout P s * 1000) :
    CheckTimeout P E s = purgeExpired P E s := by
  unfold effectiveTimeout at h
  unfold CheckTimeout purgeExpired
  simp only [hLock, hD]
  rcases h with h | h
  · simp [h]
  · by_cases hS : s.nState = POOL_STATE_SIGNING
    · rw [if_pos hS] at h
      have h' := not_le.2 h
      simp [hS, h']
    · rw [if_neg hS] at h
      have h' := not_le.2 h
      simp [hS, h']

/-- C21: on a facilitator `SetState(POOL_STATE_ERROR)` and
`SetState(POOL_STATE_SUCCESS)` leave the object, its state included, as it was,
and `SetState` to any other state sets the state to the requested one; on a
node that is not a facilitator every `SetState`, to `Error` and `Success`
included, sets the state to the requested one. Nothing but the state changes. -/
theorem C21_SetState_refuses_final_states_on_facilitator (P : Params) (nStateNew : PoolState)
    (s : CPrivateSendServer) :
    (P.fDyNode = true → (nStateNew = POOL_STATE_ERROR ∨ nStateNew = POOL_STATE_SUCCESS) →
      SetState P nStateNew s = s) ∧
    (P.fDyNode = true → nStateNew ≠ POOL_STATE_ERROR → nStateNew ≠ POOL_STATE_SUCCESS →
      SetState P nStateNew s = { s with nState := nStateNew }) ∧
    (P.fDyNode = false → SetState P nStateNew s = { s with nState := nStateNew }) := by
  refine ⟨fun hD h => ?_, fun hD h1 h2 => ?_, fun hD => ?_⟩
  · rcases h with h | h <;> simp [SetState, hD, h]
  · simp [SetState, hD, h1, h2]
  · simp [SetState, hD]

/-- C21 as first stated fails: on the sample facilitator in `Signing`,
`SetState(POOL_STATE_ERROR)` and `SetState(POOL_STATE_SUCCESS)` leave the state
`Signing`; on a node that is not a facilitator `SetState(POOL_STATE_ERROR)`
sets the state to `Error`. -/
theorem C21_counterexample :
    sampleParams.fDyNode = true ∧
      (SetState sampleParams POOL_STATE_ERROR sampleSigning).nState = POOL_STATE_SIGNING ∧
      (SetState sampleParams POOL_STATE_SUCCESS sampleSigning).nState = POOL_STATE_SIGNING ∧
      sampleClientParams.fDyNode = false ∧
      (SetState sampleClientParams POOL_STATE_ERROR sampleSigning).nState = POOL_STATE_ERROR := by
  decide

/-- C22: on a facilitator whose timer check obtains the session lock, when the
session is not `Idle` and the time since the last progress has reached the
effective timeout (the signing timeout in `Signing`, the queue timeout
otherwise), `CheckTimeout` runs `ChargeFees` on the session as it stands (with
the expired announcements purged), then clears it, and the state when it
returns is `Idle`, with no entries, no session collaterals and session id 0;
in state `Idle`, or before the timeout, `CheckTimeout` only purges the expired
announcements: every other field is as before. -/
theorem C22_CheckTimeout_resets_to_idle (P : Params) (E : Env) (s : CPrivateSendServer)
    (hD : P.fDyNode = true) (hLock : E.lockPS = true) :
    (s.nState ≠ POOL_STATE_IDLE →
      effectiveTimeout P s * 1000 ≤ E.GetTimeMillis - s.nTimeLastSuccessfulStep →
      CheckTimeout P E s = SetNull P E (ChargeFees P E (purgeExpired P E s)) ∧
      (CheckTimeout P E s).nState = POOL_STATE_IDLE ∧
      (CheckTimeout P E s).vecEntries = [] ∧
      (CheckTimeout P E s).vecSessionCollaterals = [] ∧
      (CheckTimeout P E s).nSessionID = 0) ∧
    ((s.nState = POOL_STATE_IDLE ∨
        E.GetTimeMillis - s.nTimeLastSuccessfulStep < effectiveTimeout P s * 1000) →
      CheckTimeout P E s = purgeExpired P E s) := by
  refine ⟨fun hState hTime => ?_, fun h => CheckTimeout_idle P E s hD hLock h⟩
  rw [CheckTimeout_reset P E s hD hLock hState hTime]
  exact ⟨rfl, rfl, rfl, rfl, rfl⟩

/-- C22 at the sample session in `Signing`: 25 seconds after the last progress
it is reset, 5 seconds after it is left alone. -/
theorem C22_CheckTimeout_resets_to_idle_witness :
    (CheckTimeout sampleParams (sampleEnv 30000) sampleSigning).nState = POOL_STATE_IDLE ∧
      CheckTimeout sampleParams (sampleEnv 10000) sampleSigning =
        purgeExpired sampleParams (sampleEnv 10000) sampleSigning :=
  have h1 := C22_CheckTimeout_resets_to_idle sampleParams (sampleEnv 30000) sampleSigning rfl rfl
  have h2 := C22_CheckTimeout_resets_to_idle sampleParams (sampleEnv 10000) sampleSigning rfl rfl
  ⟨(h1.1 (by decide) (by decide)).2.1, h2.2 (Or.inr (by decide))⟩

/-- C22 as first stated fails: on the sample facilitator in `Signing`, 25
seconds after the last progress, the state when `CheckTimeout` returns is
`Idle`, not `Error`. -/
theorem C22_counterexample :
    sampleParams.fDyNode = true ∧ sampleSigning.nState ≠ POOL_STATE_IDLE ∧
      effectiveTimeout sampleParams sampleSigning * 1000 ≤
        (sampleEnv 30000).GetTimeMillis - sampleSigning.nTimeLastSuccessfulStep ∧
      (CheckTimeout sampleParams (sampleEnv 30000) sampleSigning).nState = POOL_STATE_IDLE ∧
      (CheckTimeout sampleParams (sampleEnv 30000) sampleSigning).nState ≠ POOL_STATE_ERROR := by
  decide

/-- C27: when the state is `Success` or `Error`, `CheckPool` resets the session
(state `Idle`, no entries, no session collaterals, session id 0) if at least
10000 ms have passed since the last progress, and leaves the object as it is
if less time has passed. -/
theorem C27_CheckPool_resets_after_quiescence (P : Params) (E : Env) (s : CPrivateSendServer)
    (hState : s.nState = POOL_STATE_ERROR ∨ s.nState = POOL_STATE_SUCCESS) :
    (10000 ≤ E.GetTimeMillis - s.nTimeLastSuccessfulStep →
      CheckPool P E s = SetNull P E s ∧
      (CheckPool P E s).nState = POOL_STATE_IDLE ∧ (CheckPool P E s).vecEntries = [] ∧
      (CheckPool P E s).vecSessionCollaterals = [] ∧ (CheckPool P E s).nSessionID = 0) ∧
    (E.GetTimeMillis - s.nTimeLastSuccessfulStep < 10000 → CheckPool P E s = s) := by
  have h1 : s.nState ≠ POOL_STATE_ACCEPTING_ENTRIES := by
    rcases hState with h | h <;> rw [h] <;> decide
  have h2 : s.nState ≠ POOL_STATE_SIGNING := by
    rcases hState with h | h <;> rw [h] <;> decide
  refine ⟨fun hT => ?_, fun hT => ?_⟩
  · have hEq : CheckPool P E s = SetNull P E s := by
      unfold CheckPool
      simp [h1, h2, hState, hT]
    rw [hEq]
    exact ⟨rfl, rfl, rfl, rfl, rfl⟩
  · have hT' := not_le.2 hT
    unfold CheckPool
    simp [h1, h2, hT']

/-- C27 at the sample session put into state `Error`, whose last progress was
at 5000 ms: left alone at 14999 ms, reset at 15000 ms. -/
theorem C27_CheckPool_resets_after_quiescence_witness :
    CheckPool sampleClientParams (sampleEnv 14999) sampleFailed = sampleFailed ∧
      (CheckPool sampleClientParams (sampleEnv 15000) sampleFailed).nState = POOL_STATE_IDLE ∧
      (CheckPool sampleClientParams (sampleEnv 15000) sampleFailed).vecEntries = [] :=
  have h1 := C27_CheckPool_resets_after_quiescence sampleClientParams (sampleEnv 14999)
    sampleFailed (Or.inl (by decide))
  have h2 := C27_CheckPool_resets_after_quiescence sampleClientParams (sampleEnv 15000)
    sampleFailed (Or.inl (by decide))
  ⟨h1.2 (by decide), (h2.1 (by decide)).2.1, (h2.1 (by decide)).2.2.1⟩

theorem ChargeFees_first_draw (P : Params) (E : Env) (s : CPrivateSendServer)
    (h : 33 < (GetRandInt 100 E.rand).1) : ChargeFees P E s = s := by
  unfold ChargeFees
  simp only []
  repeat' split
  all_goals rfl

theorem ChargeFees_second_draw (P : Params) (E : Env) (s : CPrivateSendServer)
    (hMost : P.PoolMaxTransactions - 1 ≤ ((vecOffendersCollaterals s).length : Int))
    (h : 33 < secondDraw E) : ChargeFees P E s = s := by
  unfold secondDraw at h
  unfold ChargeFees
  simp only []
  repeat' split
  all_goals first
    | rfl
    | (exfalso; simp_all)

theorem random_shuffle_head_mem {α : Type} (draws : List Nat) (l : List α) (x : α)
    (rest : List α) (h : random_shuffle draws l = x :: rest) : x ∈ l := by
  unfold random_shuffle at h
  split at h
  · rename_i y hy
    simp only [List.cons.injEq] at h
    rw [← h.1]
    exact List.getElem?_mem hy
  · rw [h]
    exact List.mem_cons_self _ _

theorem ChargeFees_cases (P : Params) (E : Env) (s : CPrivateSendServer) :
    ChargeFees P E s = s ∨ ∃ tx ∈ vecOffendersCollaterals s,
      ChargeFees P E s = { s with effects := s.effects ++ chargeTrace E tx s } := by
  unfold ChargeFees
  simp only []
  split_ifs
  all_goals first
    | exact Or.inl rfl
    | skip
  all_goals
    generalize hsh : random_shuffle _ (vecOffendersCollaterals s) = sh
    cases sh with
    | nil => exact Or.inl rfl
    | cons tx rest =>
      right
      refine ⟨tx, random_shuffle_head_mem _ _ _ _ hsh, ?_⟩
      cases hv : E.mempoolAccepts s.effects tx <;>
        simp [AcceptToMemoryPool, emit, chargeTrace, hv]

/-- C23: of the 100 values 0..99 of the first draw of `ChargeFees`, exactly 66
(the values 34..99) make the function return at once, whatever the build, the
surroundings and the session; for each of the other 34 values (0..33) there is
a session in which it goes on to charge a collateral. -/
theorem C23_first_draw_skips_on_66_values :
    ((List.range 100).filter firstDrawSkips).length = 66 ∧
    (∀ (P : Params) (E : Env) (s : CPrivateSendServer) (draw : Nat) (rest : List Nat),
      firstDrawSkips draw = true → ChargeFees P { E with rand := draw :: rest } s = s) ∧
    (∀ draw : Nat, draw < 100 → firstDrawSkips draw = false →
      (ChargeFees sampleParams { sampleEnv 30000 with rand := [draw, 0, 0] }
        sampleOneSigned).effects =
      sampleOneSigned.effects ++ [Effect.AcceptToMemoryPool (sampleCollateral 2) true,
        Effect.RelayTransaction (sampleCollateral 2)]) := by
  refine ⟨by decide, ?_, ?_⟩
  · intro P E s draw rest h
    apply ChargeFees_first_draw
    simpa [firstDrawSkips, GetRandInt] using h
  · intro draw hlt h
    have h33 : draw ≤ 33 := by
      simp [firstDrawSkips, GetRandInt] at h
      omega
    interval_cases draw <;> decide

/-- C23 as first stated fails: the values of the first draw on which `ChargeFees`
returns at once number 66, not 67; on the draw 33 the sample session in
`Signing` with one signature missing has a collateral charged. -/
theorem C23_counterexample :
    ((List.range 100).filter firstDrawSkips).length ≠ 67 ∧
      firstDrawSkips 33 = false ∧
      (ChargeFees sampleParams { sampleEnv 30000 with rand := [33, 0, 0] }
        sampleOneSigned).effects ≠ sampleOneSigned.effects := by
  decide

/-- C24 fails on the code: after a commit with the two sample collaterals
pledged, on the draws 50 and 5 `ChargeRandomFees` returns at the first
collateral and submits nothing, the second collateral never getting its draw;
on the draws 5 and 50 it submits the first collateral only, on the draws 5 and
5 both; and the draws that let a collateral be submitted are the 11 values
0..10, the draw 10 included. -/
theorem C24_random_fee_loop_stops_at_first_miss :
    sampleAllSigned.vecSessionCollaterals = [sampleCollateral 1, sampleCollateral 2] ∧
      randomFeeDrawStops 5 = false ∧ randomFeeDrawStops 50 = true ∧
      ChargeRandomFees sampleParams { sampleEnv 7000 with rand := [50, 5] } sampleAllSigned =
        sampleAllSigned ∧
      (ChargeRandomFees sampleParams { sampleEnv 7000 with rand := [5, 50] }
        sampleAllSigned).effects =
        sampleAllSigned.effects ++ [Effect.AcceptToMemoryPool (sampleCollateral 1) true,
          Effect.RelayTransaction (sampleCollateral 1)] ∧
      (ChargeRandomFees sampleParams { sampleEnv 7000 with rand := [5, 5] }
        sampleAllSigned).effects =
        sampleAllSigned.effects ++ [Effect.AcceptToMemoryPool (sampleCollateral 1) true,
          Effect.RelayTransaction (sampleCollateral 1),
          Effect.AcceptToMemoryPool (sampleCollateral 2) true,
          Effect.RelayTransaction (sampleCollateral 2)] ∧
      ((List.range 100).filter (fun draw => !randomFeeDrawStops draw)).length = 11 ∧
      (ChargeRandomFees sampleParams { sampleEnv 7000 with rand := [10, 50] }
        sampleAllSigned).effects =
        sampleAllSigned.effects ++ [Effect.AcceptToMemoryPool (sampleCollateral 1) true,
          Effect.RelayTransaction (sampleCollateral 1)] := by
  decide

/-- C25 fails on the code: in the sample round in `Signing` where participant 2
has signed and participant 1, whose entry has two inputs, has not, one entry
has an input without a signature, but the offence list holds that entry's
collateral twice; its length is then `PoolMaxTransactions`, and whatever the
random draws the timeout check charges nobody. -/
theorem C25_offence_recorded_for_each_unsigned_input :
    sampleDoubleSigning.nState = POOL_STATE_SIGNING ∧
      sampleDoubleSigning.vecEntries.map (fun entry =>
          (entry.txCollateral, entry.vecTxPSIn.map (fun txpsin => txpsin.fHasSig))) =
        [(sampleCollateral 1, [false, false]), (sampleCollateral 2, [true])] ∧
      (sampleDoubleSigning.vecEntries.filter (fun entry =>
          entry.vecTxPSIn.any (fun txpsin => !txpsin.fHasSig))).length = 1 ∧
      vecOffendersCollaterals sampleDoubleSigning = [sampleCollateral 1, sampleCollateral 1] ∧
      TimeoutChargesNobody sampleParams (sampleEnv 30000) sampleDoubleSigning := by
  have hT : sampleParams.PRIVATESEND_SIGNING_TIMEOUT * 1000 ≤
      (sampleEnv 30000).GetTimeMillis - sampleDoubleSigning.nTimeLastSuccessfulStep := by decide
  have hF : sampleParams.PoolMaxTransactions ≤
      ((vecOffendersCollaterals sampleDoubleSigning).length : Int) := by decide
  refine ⟨by decide, by decide, by decide, by decide, ?_⟩
  intro rand
  exact CheckTimeout_full sampleParams { sampleEnv 30000 with rand := rand } sampleDoubleSigning
    rfl rfl (by decide) hT hF

/-- C26: `ChargeFees` leaves the object as it is, whatever the random draws,
when the offences on record number at least `PoolMaxTransactions`; when they
number exactly `PoolMaxTransactions - 1` it leaves the object as it is if the
second draw is above 33; and in every case it either leaves the object as it
is or hands exactly one transaction, a member of the offence list, to the
admission pipeline, relaying it when the pipeline accepts it. -/
theorem C26_ChargeFees_charges_one_offender_at_most (P : Params) (E : Env)
    (s : CPrivateSendServer) :
    (P.PoolMaxTransactions ≤ ((vecOffendersCollaterals s).length : Int) →
      ChargeFees P E s = s) ∧
    (((vecOffendersCollaterals s).length : Int) = P.PoolMaxTransactions - 1 →
      33 < secondDraw E → ChargeFees P E s = s) ∧
    (ChargeFees P E s = s ∨ ∃ tx ∈ vecOffendersCollaterals s,
      ChargeFees P E s = { s with effects := s.effects ++ chargeTrace E tx s }) :=
  ⟨ChargeFees_full P E s, fun h1 h2 => ChargeFees_second_draw P E s (le_of_eq h1.symm) h2,
    ChargeFees_cases P E s⟩

theorem pledged_of_eq {s t : CPrivateSendServer}
    (he : t.vecEntries = s.vecEntries)
    (hc : t.vecSessionCollaterals = s.vecSessionCollaterals) (hs : EntriesPledged s) :
    EntriesPledged t := by
  unfold EntriesPledged at *
  rw [he, hc]
  exact hs

theorem pledged_of_nil {t : CPrivateSendServer} (h : t.vecEntries = []) : EntriesPledged t := by
  unfold EntriesPledged
  rw [h]
  intro e he
  exact absurd he (List.not_mem_nil _)

theorem pledged_of_sameSession {s t : CPrivateSendServer} (h : SameSession s t)
    (hs : EntriesPledged s) : EntriesPledged t := by
  obtain ⟨l, rfl⟩ := h
  exact hs

theorem SetNull_pledged (P : Params) (E : Env) (s : CPrivateSendServer) :
    EntriesPledged (SetNull P E s) := pledged_of_nil rfl

theorem AddEntry_pledged (P : Params) (E : Env) (e : CPrivateSendEntry) (m : PoolMessage)
    (s : CPrivateSendServer) (he : e.txCollateral ∈ s.vecSessionCollaterals)
    (hs : EntriesPledged s) : EntriesPledged (AddEntry P E e m s).2.2 := by
  unfold AddEntry
  repeat' split
  all_goals first
    | exact hs
    | (intro x hx
       rcases List.mem_append.1 hx with h | h
       · exact hs x h
       · rw [List.mem_singleton.1 h]
         exact he)

theorem CPrivateSendEntry_AddScriptSig_length (txin : CTxIn) (l : List CTxPSIn) :
    (CPrivateSendEntry_AddScriptSig txin l).2.length = l.length := by
  have h := congrArg List.length (CPrivateSendEntry_AddScriptSig_prevouts txin l)
  simpa using h

theorem addScriptSigToEntries_collaterals (txin : CTxIn) (l : List CPrivateSendEntry) :
    (addScriptSigToEntries txin l).2.map (fun e => e.txCollateral) =
      l.map (fun e => e.txCollateral) := by
  induction l with
  | nil => rfl
  | cons a l ih =>
    simp only [addScriptSigToEntries]
    split
    · simp
    · simp [ih]

theorem AddScriptSig_pledged (P : Params) (txin : CTxIn) (s : CPrivateSendServer)
    (hs : EntriesPledged s) : EntriesPledged (AddScriptSig P txin s).2 := by
  unfold AddScriptSig
  repeat' split
  all_goals first
    | exact hs
    | (intro x hx
       have hx' : x.txCollateral ∈
           (addScriptSigToEntries txin s.vecEntries).2.map (fun e => e.txCollateral) :=
         List.mem_map_of_mem _ hx
       rw [addScriptSigToEntries_collaterals] at hx'
       obtain ⟨y, hy, hxy⟩ := List.mem_map.1 hx'
       rw [← hxy]
       exact hs y hy)

theorem addScriptSigs_pledged (P : Params) (l : List CTxIn) (s : CPrivateSendServer)
    (hs : EntriesPledged s) : EntriesPledged (addScriptSigs P l s).2 := by
  induction l generalizing s with
  | nil => exact hs
  | cons a l ih =>
    simp only [addScriptSigs]
    split
    · exact AddScriptSig_pledged P a s hs
    · exact ih _ (AddScriptSig_pledged P a s hs)

theorem CreateFinalTransaction_pledged (P : Params) (E : Env) (s : CPrivateSendServer)
    (hs : EntriesPledged s) : EntriesPledged (CreateFinalTransaction P E s) := by
  refine pledged_of_eq ?_ ?_ hs
  · simp only [CreateFinalTransaction, SetState, RelayFinalTransaction_eq]
    split <;> rfl
  · exact (CreateFinalTransaction_view P E s).2

theorem CommitFinalTransaction_pledged (P : Params) (E : Env) (s : CPrivateSendServer)
    (hs : EntriesPledged s) : EntriesPledged (CommitFinalTransaction P E s) := by
  unfold CommitFinalTransaction
  simp only []
  repeat' split
  all_goals first
    | exact hs
    | exact pledged_of_sameSession (sameSession_RelayCompletedTransaction _ _ _ _)
        (SetNull_pledged _ _ _)
    | exact SetNull_pledged _ _ _

theorem CheckPool_pledged (P : Params) (E : Env) (s : CPrivateSendServer)
    (hs : EntriesPledged s) : EntriesPledged (CheckPool P E s) := by
  unfold CheckPool
  repeat' split
  all_goals first
    | exact hs
    | exact CreateFinalTransaction_pledged P E s hs
    | exact CommitFinalTransaction_pledged P E s hs
    | exact SetNull_pledged P E s

theorem CheckTimeout_pledged (P : Params) (E : Env) (s : CPrivateSendServer)
    (hs : EntriesPledged s) : EntriesPledged (CheckTimeout P E s) := by
  unfold CheckTimeout
  simp only []
  repeat' split
  all_goals first
    | exact hs
    | exact pledged_of_eq rfl rfl hs
    | (apply pledged_of_nil
       unfold SetState
       split <;> rfl)

theorem CheckForCompleteQueue_pledged (P : Params) (E : Env) (s : CPrivateSendServer)
    (hs : EntriesPledged s) : EntriesPledged (CheckForCompleteQueue P E s) := by
  unfold CheckForCompleteQueue
  repeat' split
  all_goals first
    | exact hs
    | (refine pledged_of_sameSession (sameSession_emit _ _) (pledged_of_eq ?_ ?_ hs) <;>
        (unfold SetState; split <;> rfl))

theorem CreateNewSession_pledged (P : Params) (E : Env) (nDenom : Int) (tx : CTransaction)
    (m : PoolMessage) (s : CPrivateSendServer) (hs : EntriesPledged s) :
    EntriesPledged (CreateNewSession P E nDenom tx m s).2.2 := by
  unfold CreateNewSession
  simp only []
  repeat' split
  all_goals first
    | exact hs
    | (intro x hx
       have hx' : x ∈ s.vecEntries := by
         revert hx
         simp [SetState, emit]
       have := hs x hx'
       simp [SetState, emit, this])

theorem AddUserToExistingSession_pledged (P : Params) (E : Env) (nDenom : Int)
    (tx : CTransaction) (m : PoolMessage) (s : CPrivateSendServer) (hs : EntriesPledged s) :
    EntriesPledged (AddUserToExistingSession P E nDenom tx m s).2.2 := by
  unfold AddUserToExistingSession
  simp only []
  repeat' split
  all_goals first
    | exact hs
    | (intro x hx
       exact List.mem_append_left _ (hs x hx))

theorem ProcessPSACCEPT_pledged (P : Params) (E : Env) (pfrom : CNode) (nDenom : Int)
    (tx : CTransaction) (s : CPrivateSendServer) (hs : EntriesPledged s) :
    EntriesPledged (ProcessPSACCEPT P E pfrom nDenom tx s) := by
  unfold ProcessPSACCEPT
  simp only []
  repeat' split
  all_goals refine pledged_of_sameSession (sameSession_PushStatus _ _ _ _) ?_
  all_goals first
    | exact hs
    | exact CreateNewSession_pledged P E nDenom tx _ s hs
    | exact AddUserToExistingSession_pledged P E nDenom tx _ s hs

theorem ProcessPSQUEUE_pledged (P : Params) (E : Env) (pfrom : CNode) (psq : CPrivatesendQueue)
    (s : CPrivateSendServer) (hs : EntriesPledged s) :
    EntriesPledged (ProcessPSQUEUE P E pfrom psq s) := by
  unfold ProcessPSQUEUE
  simp only []
  repeat' split
  all_goals exact hs

theorem admitEntry_pledged (P : Params) (E : Env) (pfrom : CNode) (entry : CPrivateSendEntry)
    (s : CPrivateSendServer) (he : entry.txCollateral ∈ s.vecSessionCollaterals)
    (hs : EntriesPledged s) : EntriesPledged (admitEntry P E pfrom entry s) := by
  unfold admitEntry
  simp only []
  split
  · refine pledged_of_sameSession (sameSession_RelayStatus _ _ _ _ _) ?_
    refine CheckPool_pledged P E _ ?_
    exact pledged_of_sameSession (sameSession_PushStatus _ _ _ _)
      (AddEntry_pledged P E entry MSG_NOERR s he hs)
  · exact SetNull_pledged _ _ _

theorem ProcessPSVIN_pledged (P : Params) (E : Env) (pfrom : CNode) (entry : CPrivateSendEntry)
    (s : CPrivateSendServer) (he : entry.txCollateral ∈ s.vecSessionCollaterals)
    (hs : EntriesPledged s) : EntriesPledged (ProcessPSVIN P E pfrom entry s) := by
  have ha : ∀ e, EntriesPledged
      (AcceptToMemoryPool E e (emit (Effect.PrioritiseTransaction (P.GetHash e)) s)).2 :=
    fun e => pledged_of_sameSession
      ((sameSession_emit _ s).trans (sameSession_AcceptToMemoryPool E e _)) hs
  unfold ProcessPSVIN
  simp only []
  repeat' split
  all_goals first
    | exact pledged_of_sameSession (sameSession_PushStatus _ _ _ _) hs
    | exact pledged_of_sameSession (sameSession_PushStatus _ _ _ _) (ha _)
    | exact admitEntry_pledged P E pfrom entry _ he (ha _)

theorem ProcessPSSIGNFINALTX_pledged (P : Params) (E : Env) (pfrom : CNode) (l : List CTxIn)
    (s : CPrivateSendServer) (hs : EntriesPledged s) :
    EntriesPledged (ProcessPSSIGNFINALTX P E pfrom l s) := by
  unfold ProcessPSSIGNFINALTX
  simp only []
  repeat' split
  · exact hs
  · exact pledged_of_sameSession (sameSession_RelayStatus _ _ _ _ _)
      (addScriptSigs_pledged P l s hs)
  · exact CheckPool_pledged P E _ (addScriptSigs_pledged P l s hs)

theorem ProcessMessage_pledged (P : Params) (E : Env) (pfrom : CNode) (msg : Message)
    (s : CPrivateSendServer)
    (he : ∀ entry, msg = Message.PSVIN entry → entry.txCollateral ∈ s.vecSessionCollaterals)
    (hs : EntriesPledged s) : EntriesPledged (ProcessMessage P E pfrom msg s) := by
  unfold ProcessMessage
  repeat' split
  all_goals first
    | exact hs
    | exact ProcessPSACCEPT_pledged _ _ _ _ _ _ hs
    | exact ProcessPSQUEUE_pledged _ _ _ _ _ hs
    | exact ProcessPSVIN_pledged _ _ _ _ _ (he _ rfl) hs
    | exact ProcessPSSIGNFINALTX_pledged _ _ _ _ _ hs

theorem pledgedStep_step (P : Params) (s t : CPrivateSendServer) (h : PledgedStep P s t) :
    Step P s t := by
  cases h with
  | processMessage E pfrom msg _ => exact Step.processMessage E pfrom msg s
  | addEntry E e m _ => exact Step.addEntry E e m s
  | checkPool E => exact Step.checkPool E s
  | checkTimeout E => exact Step.checkTimeout E s
  | checkForCompleteQueue E => exact Step.checkForCompleteQueue E s
  | setNull E => exact Step.setNull E s

theorem pledgedReachable_reachable (P : Params) (s : CPrivateSendServer)
    (h : PledgedReachable P s) : Reachable P s := by
  induction h with
  | init s h0 => exact Reachable.init s h0
  | step s t _ hst ih => exact Reachable.step s t ih (pledgedStep_step P s t hst)

theorem pledgedReachable_tick (P : Params) {E : Env} {s : CPrivateSendServer}
    (h : PledgedReachable P s) : PledgedReachable P (Tick P E s) := by
  unfold Tick
  split
  · exact PledgedReachable.step _ _
      (PledgedReachable.step _ _ h (PledgedStep.checkTimeout E s))
      (PledgedStep.checkForCompleteQueue E _)
  · exact h

theorem sampleOneEntry_pledgedReachable : PledgedReachable sampleParams sampleOneEntry := by
  have h0 : PledgedReachable sampleParams sampleInitial :=
    PledgedReachable.init sampleInitial ⟨rfl, rfl, rfl, rfl, rfl, rfl⟩
  have h1 : PledgedReachable sampleParams sampleQueued :=
    PledgedReachable.step _ _ h0
      (PledgedStep.processMessage (sampleEnv 1000) (samplePeer 1)
        (Message.PSACCEPT 1 (sampleCollateral 1)) sampleInitial (fun _ h => by cases h))
  have h2 : PledgedReachable sampleParams sampleAccepting :=
    pledgedReachable_tick _ (PledgedReachable.step _ _ h1
      (PledgedStep.processMessage (sampleEnv 2000) (samplePeer 2)
        (Message.PSACCEPT 1 (sampleCollateral 2)) sampleQueued (fun _ h => by cases h)))
  refine PledgedReachable.step _ _ h2
    (PledgedStep.processMessage (sampleEnv 4000) (samplePeer 1)
      (Message.PSVIN (sampleEntry 1 11)) sampleAccepting ?_)
  intro entry h
  cases h
  decide

/-- C28: in every session state reached from an initial one by coordinator
operations in which each submitted entry carries a collateral that is among the
session collaterals at that time, the collateral of every entry is a member of
the session collaterals. -/
theorem C28_pledged_entries_stay_within_session_collaterals (P : Params)
    (s : CPrivateSendServer) (h : PledgedReachable P s) :
    ∀ entry ∈ s.vecEntries, entry.txCollateral ∈ s.vecSessionCollaterals := by
  induction h with
  | init s h0 => exact pledged_of_nil h0.2.2.1
  | step s t _ hst ih =>
    cases hst with
    | processMessage E pfrom msg _ =>
      rename_i he
      exact ProcessMessage_pledged _ _ _ _ _ he ih
    | addEntry E e m _ =>
      rename_i he
      exact AddEntry_pledged _ _ _ _ _ he ih
    | checkPool E => exact CheckPool_pledged _ _ _ ih
    | checkTimeout E => exact CheckTimeout_pledged _ _ _ ih
    | checkForCompleteQueue E => exact CheckForCompleteQueue_pledged _ _ _ ih
    | setNull E => exact SetNull_pledged P E s

/-- C28 at the sample session holding the first participant's entry. -/
theorem C28_pledged_entries_stay_within_session_collaterals_witness :
    sampleEntry 1 11 ∈ sampleOneEntry.vecEntries ∧
      (sampleEntry 1 11).txCollateral ∈ sampleOneEntry.vecSessionCollaterals :=
  ⟨by decide, C28_pledged_entries_stay_within_session_collaterals sampleParams sampleOneEntry
    sampleOneEntry_pledgedReachable (sampleEntry 1 11) (by decide)⟩

/-- C28 as first stated fails: the sample session accepting entries, to which
two collaterals are pledged, admits through the `PSVIN` handler an entry that
carries a third, valid collateral; the state is reachable and the collateral of
its entry is not among the session collaterals. -/
theorem C28_counterexample :
    Reachable sampleParams sampleUnpledged ∧
      sampleUnpledged.vecSessionCollaterals = [sampleCollateral 1, sampleCollateral 2] ∧
      sampleUnpledged.vecEntries = [sampleUnpledgedEntry] ∧
      sampleUnpledgedEntry.txCollateral ∉ sampleUnpledged.vecSessionCollaterals :=
  ⟨Reachable.step _ _ sampleAccepting_reachable (Step.processMessage _ _ _ _), by decide,
    by decide, by decide⟩

theorem checkOutputs_vin (P : Params) (l : List CTxPSOut) (v0 : CAmount)
    (tx0 : CMutableTransaction) (v : CAmount) (tx : CMutableTransaction)
    (h : checkOutputs P l v0 tx0 = .ok (v, tx)) : tx.vin = tx0.vin := by
  induction l generalizing v0 tx0 with
  | nil =>
    simp only [checkOutputs, Except.ok.injEq, Prod.mk.injEq] at h
    rw [← h.2]
  | cons a l ih =>
    simp only [checkOutputs] at h
    split at h
    · cases h
    · split at h
      · cases h
      · rw [ih _ _ h]

theorem checkInputs_vin (E : Env) (l : List CTxPSIn) (v0 : CAmount)
    (tx0 : CMutableTransaction) (v : CAmount) (tx : CMutableTransaction)
    (h : checkInputs E l v0 tx0 = .ok (v, tx)) :
    tx.vin = tx0.vin ++ l.map CTxPSIn.toCTxIn := by
  induction l generalizing v0 tx0 with
  | nil =>
    simp only [checkInputs, Except.ok.injEq, Prod.mk.injEq] at h
    rw [← h.2]
    simp
  | cons a l ih =>
    simp only [checkInputs] at h
    split at h
    · rw [ih _ _ h]
      simp
    · cases h

theorem wellFormed_of_edge {a b : List CPrivateSendEntry}
    (h : b = [] ∨ b.map entryPrevouts = a.map entryPrevouts)
    (ha : ∀ entry ∈ a, (entryPrevouts entry).Nodup) :
    ∀ entry ∈ b, (entryPrevouts entry).Nodup := by
  rcases h with h | h
  · rw [h]
    intro e he
    exact absurd he (List.not_mem_nil _)
  · intro e he
    have he' : entryPrevouts e ∈ b.map entryPrevouts := List.mem_map_of_mem _ he
    rw [h] at he'
    obtain ⟨x, hx, hxe⟩ := List.mem_map.1 he'
    rw [← hxe]
    exact ha x hx

theorem admitEntry_entries (P : Params) (E : Env) (pfrom : CNode) (entry : CPrivateSendEntry)
    (s : CPrivateSendServer) :
    (admitEntry P E pfrom entry s).vecEntries = [] ∨
      (admitEntry P E pfrom entry s).vecEntries = s.vecEntries ∨
      (admitEntry P E pfrom entry s).vecEntries = s.vecEntries ++ [entry] := by
  have hA : (AddEntry P E entry MSG_NOERR s).2.2.vecEntries = s.vecEntries ∨
      (AddEntry P E entry MSG_NOERR s).2.2.vecEntries = s.vecEntries ++ [entry] := by
    unfold AddEntry
    repeat' split
    all_goals first
      | exact Or.inl rfl
      | exact Or.inr rfl
  unfold admitEntry
  simp only []
  split
  · rw [(sameSession_RelayStatus _ _ _ _ _).vecEntries]
    rcases CheckPool_vecEntries P E (PushStatus pfrom STATUS_ACCEPTED
      (AddEntry P E entry MSG_NOERR s).2.1 (AddEntry P E entry MSG_NOERR s).2.2) with h | h
    · rw [h, (sameSession_PushStatus _ _ _ _).vecEntries]
      exact Or.inr hA
    · exact Or.inl h
  · exact Or.inl rfl

theorem ProcessPSVIN_entries (P : Params) (E : Env) (pfrom : CNode) (entry : CPrivateSendEntry)
    (s : CPrivateSendServer) :
    (ProcessPSVIN P E pfrom entry s).vecEntries = [] ∨
      (ProcessPSVIN P E pfrom entry s).vecEntries = s.vecEntries ∨
      ((ProcessPSVIN P E pfrom entry s).vecEntries = s.vecEntries ++ [entry] ∧
        ∃ done tx, tx.vin = entry.vecTxPSIn.map CTxPSIn.toCTxIn ∧
          E.mempoolAccepts done tx = true) := by
  unfold ProcessPSVIN
  simp only []
  repeat' split
  all_goals first
    | exact Or.inr (Or.inl rfl)
    | skip
  rename_i x1 nValueOut tx1 hOut x2 nValueIn tx hIn hFee hAcc
  have hvin : tx.vin = entry.vecTxPSIn.map CTxPSIn.toCTxIn := by
    rw [checkInputs_vin E _ _ _ _ _ hIn, checkOutputs_vin P _ _ _ _ _ hOut]
    simp [emptyTransaction]
  rcases admitEntry_entries P E pfrom entry
    (AcceptToMemoryPool E tx (emit (Effect.PrioritiseTransaction (P.GetHash tx)) s)).2
    with h | h | h
  · exact Or.inl h
  · exact Or.inr (Or.inl h)
  · refine Or.inr (Or.inr ⟨h, (emit (Effect.PrioritiseTransaction (P.GetHash tx)) s).effects,
      tx, hvin, ?_⟩)
    simpa [AcceptToMemoryPool] using hAcc

theorem ProcessPSSIGNFINALTX_prevouts (P : Params) (E : Env) (pfrom : CNode) (l : List CTxIn)
    (s : CPrivateSendServer) :
    (ProcessPSSIGNFINALTX P E pfrom l s).vecEntries = [] ∨
      (ProcessPSSIGNFINALTX P E pfrom l s).vecEntries.map entryPrevouts =
        s.vecEntries.map entryPrevouts := by
  unfold ProcessPSSIGNFINALTX
  simp only []
  repeat' split
  · exact Or.inr rfl
  · rw [(sameSession_RelayStatus _ _ _ _ _).vecEntries]
    exact Or.inr (addScriptSigs_prevouts P l s)
  · rcases CheckPool_vecEntries P E (addScriptSigs P l s).2 with h | h
    · rw [h]
      exact Or.inr (addScriptSigs_prevouts P l s)
    · exact Or.inl h

theorem ProcessPSVIN_wellFormed (P : Params) (E : Env) (pfrom : CNode)
    (entry : CPrivateSendEntry) (s : CPrivateSendServer) (hE : RejectsDuplicateInputs E)
    (hs : EntriesWellFormed s) : EntriesWellFormed (ProcessPSVIN P E pfrom entry s) := by
  rcases ProcessPSVIN_entries P E pfrom entry s with h | h | ⟨h, done, tx, hvin, hacc⟩
  · exact wellFormed_of_edge (Or.inl h) hs
  · exact wellFormed_of_edge (Or.inr (by rw [h])) hs
  · have hN : (entryPrevouts entry).Nodup := by
      by_contra hc
      have hrej := hE done tx (by
        rw [hvin, List.map_map]
        exact hc)
      rw [hrej] at hacc
      exact absurd hacc (by decide)
    intro e he
    unfold EntriesWellFormed at hs
    rw [h] at he
    rcases List.mem_append.1 he with h1 | h1
    · exact hs e h1
    · rw [List.mem_singleton.1 h1]
      exact hN

theorem ProcessMessage_wellFormed (P : Params) (E : Env) (pfrom : CNode) (msg : Message)
    (s : CPrivateSendServer) (hE : RejectsDuplicateInputs E) (hs : EntriesWellFormed s) :
    EntriesWellFormed (ProcessMessage P E pfrom msg s) := by
  unfold ProcessMessage
  repeat' split
  all_goals first
    | exact hs
    | exact wellFormed_of_edge (Or.inr (by rw [ProcessPSACCEPT_vecEntries])) hs
    | exact wellFormed_of_edge (Or.inr (by rw [ProcessPSQUEUE_vecEntries])) hs
    | exact ProcessPSVIN_wellFormed _ _ _ _ _ hE hs
    | exact wellFormed_of_edge (ProcessPSSIGNFINALTX_prevouts _ _ _ _ _) hs

theorem handlerStep_wellFormed (P : Params) (s t : CPrivateSendServer) (h : HandlerStep P s t)
    (hs : EntriesWellFormed s) : EntriesWellFormed t := by
  have hsame : ∀ {b : List CPrivateSendEntry}, b = s.vecEntries ∨ b = [] →
      b = [] ∨ b.map entryPrevouts = s.vecEntries.map entryPrevouts := by
    intro b hb
    rcases hb with hb | hb
    · exact Or.inr (by rw [hb])
    · exact Or.inl hb
  cases h with
  | processMessage E pfrom msg _ =>
    rename_i hE
    exact ProcessMessage_wellFormed _ _ _ _ _ hE hs
  | checkPool E => exact wellFormed_of_edge (hsame (CheckPool_vecEntries P E s)) hs
  | checkTimeout E => exact wellFormed_of_edge (hsame (CheckTimeout_vecEntries P E s)) hs
  | checkForCompleteQueue E =>
    exact wellFormed_of_edge (Or.inr (by rw [CheckForCompleteQueue_vecEntries])) hs
  | setNull E => exact wellFormed_of_edge (Or.inl rfl) hs

theorem handlerStep_step (P : Params) (s t : CPrivateSendServer) (h : HandlerStep P s t) :
    Step P s t := by
  cases h with
  | processMessage E pfrom msg _ => exact Step.processMessage E pfrom msg s
  | checkPool E => exact Step.checkPool E s
  | checkTimeout E => exact Step.checkTimeout E s
  | checkForCompleteQueue E => exact Step.checkForCompleteQueue E s
  | setNull E => exact Step.setNull E s

theorem handlerReachable_reachable (P : Params) (s : CPrivateSendServer)
    (h : HandlerReachable P s) : Reachable P s := by
  induction h with
  | init s h0 => exact Reachable.init s h0
  | step s t _ hst ih => exact Reachable.step s t ih (handlerStep_step P s t hst)

theorem handlerReachable_wellFormed (P : Params) (s : CPrivateSendServer)
    (h : HandlerReachable P s) : EntriesWellFormed s := by
  induction h with
  | init s h0 =>
    intro e he
    rw [h0.2.2.1] at he
    exact absurd he (List.not_mem_nil _)
  | step s t _ hst ih => exact handlerStep_wellFormed P s t hst ih

theorem sampleStrictEnv_rejects (ms : Int) : RejectsDuplicateInputs (sampleStrictEnv ms) := by
  intro done tx h
  simp [sampleStrictEnv, h]

theorem sampleOneEntry_handlerReachable : HandlerReachable sampleParams sampleOneEntry := by
  have h0 : HandlerReachable sampleParams sampleInitial :=
    HandlerReachable.init sampleInitial ⟨rfl, rfl, rfl, rfl, rfl, rfl⟩
  have h1 := HandlerReachable.step _ _ h0
    (HandlerStep.processMessage (sampleStrictEnv 1000) (samplePeer 1)
      (Message.PSACCEPT 1 (sampleCollateral 1)) sampleInitial (sampleStrictEnv_rejects 1000))
  have h2 := HandlerReachable.step _ _ h1
    (HandlerStep.processMessage (sampleStrictEnv 2000) (samplePeer 2)
      (Message.PSACCEPT 1 (sampleCollateral 2)) _ (sampleStrictEnv_rejects 2000))
  have h3 := HandlerReachable.step _ _ h2 (HandlerStep.checkTimeout (sampleEnv 3000) _)
  have h4 := HandlerReachable.step _ _ h3 (HandlerStep.checkForCompleteQueue (sampleEnv 3000) _)
  have h5 := HandlerReachable.step _ _ h4
    (HandlerStep.processMessage (sampleStrictEnv 4000) (samplePeer 1)
      (Message.PSVIN (sampleEntry 1 11)) _ (sampleStrictEnv_rejects 4000))
  have hEq : ProcessMessage sampleParams (sampleStrictEnv 4000) (samplePeer 1)
      (Message.PSVIN (sampleEntry 1 11))
      (CheckForCompleteQueue sampleParams (sampleEnv 3000)
        (CheckTimeout sampleParams (sampleEnv 3000)
          (ProcessMessage sampleParams (sampleStrictEnv 2000) (samplePeer 2)
            (Message.PSACCEPT 1 (sampleCollateral 2))
            (ProcessMessage sampleParams (sampleStrictEnv 1000) (samplePeer 1)
              (Message.PSACCEPT 1 (sampleCollateral 1)) sampleInitial)))) = sampleOneEntry := by
    decide
  rw [← hEq]
  exact h5

/-- C29: in every session state reached from an initial one through the
message handlers and the timer operations (`CheckPool`, `CheckTimeout`,
`CheckForCompleteQueue`, `SetNull`), under an admission pipeline that turns
down every transaction naming one previous output in two of its inputs, the
list of the previous-output references of all inputs of all entries contains
no duplicate. -/
theorem C29_pooled_prevouts_distinct_behind_pipeline (P : Params) (s : CPrivateSendServer)
    (h : HandlerReachable P s) :
    ((s.vecEntries.flatMap (fun entry => entry.vecTxPSIn)).map
      (fun txpsin => txpsin.prevout)).Nodup :=
  reachable_pooledPrevoutsDistinct P s (handlerReachable_reachable P s h)
    (handlerReachable_wellFormed P s h)

/-- C29 at the sample session holding the first participant's entry. -/
theorem C29_pooled_prevouts_distinct_behind_pipeline_witness :
    ((sampleOneEntry.vecEntries.flatMap (fun entry => entry.vecTxPSIn)).map
      (fun txpsin => txpsin.prevout)).Nodup :=
  C29_pooled_prevouts_distinct_behind_pipeline sampleParams sampleOneEntry
    sampleOneEntry_handlerReachable

/-- C29 as first stated fails: in the sample session accepting entries,
`AddEntry` admits an entry whose two inputs name the same previous output; the
state it leaves is reachable and its list of previous-output references holds
that reference twice; under an admission pipeline that accepts it, the `PSVIN`
handler admits the entry as well. -/
theorem C29_counterexample :
    (AddEntry sampleParams (sampleEnv 4000) sampleTwinEntry MSG_NOERR sampleAccepting).1 = true ∧
      (ProcessMessage sampleParams (sampleEnv 4000) (samplePeer 1)
        (Message.PSVIN sampleTwinEntry) sampleAccepting).vecEntries = [sampleTwinEntry] ∧
      Reachable sampleParams sampleTwin ∧
      (sampleTwin.vecEntries.flatMap (fun entry => entry.vecTxPSIn)).map
          (fun txpsin => txpsin.prevout) =
        [{ hash := 11, n := 0 }, { hash := 11, n := 0 }] ∧
      ¬ ((sampleTwin.vecEntries.flatMap (fun entry => entry.vecTxPSIn)).map
          (fun txpsin => txpsin.prevout)).Nodup :=
  ⟨by decide, by decide,
    Reachable.step _ _ sampleAccepting_reachable (Step.addEntry _ _ _ _), by decide, by decide⟩

/-- The `PSQUEUE` handler either stores and relays the announcement, which
then passed every test including the rate limit, or returns the object as it
was, at most with a request to the sender for the announcer's record. -/
theorem psqueue_stored_or_dropped (P : Params) (E : Env) (pfrom : CNode)
    (psq : CPrivatesendQueue) (s : CPrivateSendServer) :
    (QueueAnnouncementFresh P E psq s ∧
      (∀ pmn, dnodeman_Find psq.vin s = some pmn → ¬ queueTooRecent E pmn s) ∧
      ProcessMessage P E pfrom (Message.PSQUEUE psq) s = queueStored psq s) ∨
    (ProcessMessage P E pfrom (Message.PSQUEUE psq) s = s ∨
      ProcessMessage P E pfrom (Message.PSQUEUE psq) s =
        emit (Effect.AskForDN pfrom psq.vin) s) := by
  unfold ProcessMessage
  split
  · exact Or.inr (Or.inl rfl)
  split
  · exact Or.inr (Or.inl rfl)
  split
  · exact Or.inr (Or.inl rfl)
  simp only []
  unfold ProcessPSQUEUE
  simp only []
  split
  · exact Or.inr (Or.inl rfl)
  split
  · exact Or.inr (Or.inl rfl)
  split
  · exact Or.inr (Or.inl rfl)
  rename_i hSeen
  split
  · exact Or.inr (Or.inl rfl)
  rename_i hTime
  split
  · exact Or.inr (Or.inl rfl)
  rename_i pmn hFind
  split
  · exact Or.inr (Or.inr rfl)
  rename_i hSig
  split
  · rename_i hReady
    split
    · exact Or.inr (Or.inl rfl)
    rename_i hOne
    split
    · exact Or.inr (Or.inl rfl)
    rename_i hRate
    left
    refine ⟨⟨?_, ?_, ?_, ⟨pmn, hFind, ?_⟩, ?_, ?_⟩, ?_, rfl⟩
    rotate_right
    · intro pmn2 h2
      rw [hFind] at h2
      cases h2
      exact hRate
    · intro q hq hqe
      apply hSeen
      rw [List.any_eq_true]
      exact ⟨q, hq, by simp [hqe]⟩
    · have hT : CPrivatesendQueue_IsExpired P E psq = false ∧
          psq.nTime ≤ E.GetTime + P.PRIVATESEND_QUEUE_TIMEOUT := by simpa using hTime
      exact hT.1
    · have hT : CPrivatesendQueue_IsExpired P E psq = false ∧
          psq.nTime ≤ E.GetTime + P.PRIVATESEND_QUEUE_TIMEOUT := by simpa using hTime
      exact hT.2
    · simpa using hSig
    · simpa using hReady
    · intro q hq hqe
      apply hOne
      rw [List.any_eq_true]
      exact ⟨q, hq, by simp [hqe]⟩
  · exact Or.inr (Or.inl rfl)

/-- C30: the `PSQUEUE` handler either stores the announcement at the end of the
local cache and relays it (raising `nPsqCount` by one and setting the
announcer's `nLastPsq` to it), and then the announcement is equal to no cached
announcement, is not expired and not dated more than the expiry window ahead,
comes from an announcer the registry knows and whose signature on it verifies,
is not-ready, and no cached announcement has the same announcer identity; or it
leaves the cache, `nPsqCount` and the registry (so every `nLastPsq`) as they
were and relays nothing, the trace gaining at most one request to the sender
for the announcer's record. -/
theorem C30_queue_announcement_stored_only_if_fresh (P : Params) (E : Env) (pfrom : CNode)
    (psq : CPrivatesendQueue) (s : CPrivateSendServer) :
    (QueueAnnouncementFresh P E psq s ∧
      ProcessMessage P E pfrom (Message.PSQUEUE psq) s = queueStored psq s) ∨
    ((ProcessMessage P E pfrom (Message.PSQUEUE psq) s).vecPrivatesendQueue =
        s.vecPrivatesendQueue ∧
      (ProcessMessage P E pfrom (Message.PSQUEUE psq) s).nPsqCount = s.nPsqCount ∧
      (ProcessMessage P E pfrom (Message.PSQUEUE psq) s).vDynodes = s.vDynodes ∧
      ((ProcessMessage P E pfrom (Message.PSQUEUE psq) s).effects = s.effects ∨
        (ProcessMessage P E pfrom (Message.PSQUEUE psq) s).effects =
          s.effects ++ [Effect.AskForDN pfrom psq.vin])) := by
  rcases psqueue_stored_or_dropped P E pfrom psq s with ⟨h1, _, h3⟩ | h
  · exact Or.inl ⟨h1, h3⟩
  · rcases h with h | h
    · rw [h]
      exact Or.inr ⟨rfl, rfl, rfl, Or.inl rfl⟩
    · rw [h]
      exact Or.inr ⟨rfl, rfl, rfl, Or.inr rfl⟩

/-- C30 at the sample facilitator right after construction: the sample
announcement is stored and relayed, and offered a second time it changes
nothing. -/
theorem C30_queue_announcement_stored_only_if_fresh_witness :
    ProcessMessage sampleParams (sampleEnv 1000) (samplePeer 1)
        (Message.PSQUEUE sampleAnnouncement) sampleInitial =
      queueStored sampleAnnouncement sampleInitial ∧
    (ProcessMessage sampleParams (sampleEnv 1000) (samplePeer 1)
        (Message.PSQUEUE sampleAnnouncement)
        (queueStored sampleAnnouncement sampleInitial)).vecPrivatesendQueue =
      [sampleAnnouncement] :=
  ⟨((C30_queue_announcement_stored_only_if_fresh sampleParams (sampleEnv 1000) (samplePeer 1)
      sampleAnnouncement sampleInitial).resolve_right (by decide)).2,
    ((C30_queue_announcement_stored_only_if_fresh sampleParams (sampleEnv 1000) (samplePeer 1)
      sampleAnnouncement (queueStored sampleAnnouncement sampleInitial)).resolve_left
        (fun h => absurd (h.1.unseen sampleAnnouncement (by decide)) (by decide))).1⟩

theorem CheckTimeout_cache (P : Params) (E : Env) (s : CPrivateSendServer)
    (hLock : E.lockPS = true) :
    (CheckTimeout P E s).vecPrivatesendQueue =
      s.vecPrivatesendQueue.filter (fun q => !CPrivatesendQueue_IsExpired P E q) := by
  have hS : ∀ {a b : CPrivateSendServer}, SameSession a b →
      b.vecPrivatesendQueue = a.vecPrivatesendQueue := by
    intro a b h
    obtain ⟨l, rfl⟩ := h
    rfl
  unfold CheckTimeout
  simp only [hLock]
  simp only [Bool.not_true, Bool.false_eq_true, ↓reduceIte]
  repeat' split
  all_goals first
    | rfl
    | (have h1 : ∀ t : CPrivateSendServer,
          (SetState P POOL_STATE_ERROR (SetNull P E t)).vecPrivatesendQueue =
            t.vecPrivatesendQueue := by
        intro t
        unfold SetState
        split <;> rfl
       rw [h1, hS (sameSession_ChargeFees _ _ _)])

/-- C32: after `CheckTimeout` has run with the session lock obtained, the
announcement cache is the previous cache with exactly the expired
announcements removed, the others staying in their order, on a facilitator and
on any other node; on a node that is not a facilitator nothing else in the
object changes. -/
theorem C32_CheckTimeout_purges_expired_announcements (P : Params) (E : Env)
    (s : CPrivateSendServer) (hLock : E.lockPS = true) :
    (CheckTimeout P E s).vecPrivatesendQueue =
        s.vecPrivatesendQueue.filter (fun q => !CPrivatesendQueue_IsExpired P E q) ∧
      (CheckTimeout P E s).vecPrivatesendQueue.Sublist s.vecPrivatesendQueue ∧
      (∀ q, q ∈ (CheckTimeout P E s).vecPrivatesendQueue ↔
        q ∈ s.vecPrivatesendQueue ∧ CPrivatesendQueue_IsExpired P E q = false) ∧
      (P.fDyNode = false → CheckTimeout P E s = purgeExpired P E s) := by
  rw [CheckTimeout_cache P E s hLock]
  refine ⟨rfl, List.filter_sublist _, ?_, ?_⟩
  · intro q
    simp [List.mem_filter]
  · intro hD
    unfold CheckTimeout purgeExpired
    simp [hLock, hD]

/-- C32 at the sample cache, 50 seconds in: the announcements dated seconds 1
and 2 are expired, the one dated second 100 stays. -/
theorem C32_CheckTimeout_purges_expired_announcements_witness :
    (CheckTimeout sampleParams (sampleEnv 50000) sampleCached).vecPrivatesendQueue =
        [{ sampleAnnouncement with nTime := 100 }] ∧
      CheckTimeout sampleClientParams (sampleEnv 50000) sampleCached =
        { sampleCached with vecPrivatesendQueue := [{ sampleAnnouncement with nTime := 100 }] } :=
  have h1 := C32_CheckTimeout_purges_expired_announcements sampleParams (sampleEnv 50000)
    sampleCached rfl
  have h2 := C32_CheckTimeout_purges_expired_announcements sampleClientParams (sampleEnv 50000)
    sampleCached rfl
  ⟨h1.1.trans (by decide), (h2.2.2.2 rfl).trans (by decide)⟩

/-- C33: a message of any of the four handled types from a peer whose protocol
version is below the minimum is turned down before its payload is looked at:
the object afterwards is the object before (`PSQUEUE`, `PSSIGNFINALTX`, and
every type on a node that is not an active, synced facilitator), or the object
before with one `STATUS_REJECTED`/`ERR_VERSION` reply to the sender added to
the trace (`PSACCEPT`, `PSVIN`); session id, denomination, state, entries,
session collaterals, joint transaction, announcement cache and rate-limit
counters are as before. -/
theorem C33_old_peer_turned_down_before_payload (P : Params) (E : Env) (pfrom : CNode)
    (s : CPrivateSendServer) (hV : pfrom.nVersion < P.MIN_PRIVATESEND_PEER_PROTO_VERSION) :
    (∀ nDenom txCollateral,
      ProcessMessage P E pfrom (Message.PSACCEPT nDenom txCollateral) s = s ∨
      ProcessMessage P E pfrom (Message.PSACCEPT nDenom txCollateral) s =
        PushStatus pfrom STATUS_REJECTED ERR_VERSION s) ∧
    (∀ psq, ProcessMessage P E pfrom (Message.PSQUEUE psq) s = s) ∧
    (∀ entry,
      ProcessMessage P E pfrom (Message.PSVIN entry) s = s ∨
      ProcessMessage P E pfrom (Message.PSVIN entry) s =
        PushStatus pfrom STATUS_REJECTED ERR_VERSION s) ∧
    (∀ vecTxIn, ProcessMessage P E pfrom (Message.PSSIGNFINALTX vecTxIn) s = s) ∧
    (∀ msg, ∃ sent, ProcessMessage P E pfrom msg s = { s with effects := s.effects ++ sent }) := by
  have h1 : ∀ nDenom txCollateral,
      ProcessMessage P E pfrom (Message.PSACCEPT nDenom txCollateral) s = s ∨
      ProcessMessage P E pfrom (Message.PSACCEPT nDenom txCollateral) s =
        PushStatus pfrom STATUS_REJECTED ERR_VERSION s := by
    intro nDenom tx
    simp only [ProcessMessage]
    split_ifs
    all_goals first
      | exact Or.inl rfl
      | (right; simp [ProcessPSACCEPT, hV])
  have h2 : ∀ psq, ProcessMessage P E pfrom (Message.PSQUEUE psq) s = s := by
    intro psq
    simp only [ProcessMessage]
    split_ifs
    all_goals first
      | rfl
      | (unfold ProcessPSQUEUE; simp only [hV, ↓reduceIte]; split <;> rfl)
  have h3 : ∀ entry,
      ProcessMessage P E pfrom (Message.PSVIN entry) s = s ∨
      ProcessMessage P E pfrom (Message.PSVIN entry) s =
        PushStatus pfrom STATUS_REJECTED ERR_VERSION s := by
    intro entry
    simp only [ProcessMessage]
    split_ifs
    all_goals first
      | exact Or.inl rfl
      | (right; simp [ProcessPSVIN, hV])
  have h4 : ∀ vecTxIn, ProcessMessage P E pfrom (Message.PSSIGNFINALTX vecTxIn) s = s := by
    intro l
    simp only [ProcessMessage]
    split_ifs
    all_goals first
      | rfl
      | simp [ProcessPSSIGNFINALTX, hV]
  refine ⟨h1, h2, h3, h4, ?_⟩
  intro msg
  cases msg with
  | PSACCEPT nDenom tx =>
    rcases h1 nDenom tx with h | h
    · exact ⟨[], by rw [h]; simp⟩
    · rw [h]; exact sameSession_PushStatus _ _ _ _
  | PSQUEUE psq => exact ⟨[], by rw [h2]; simp⟩
  | PSVIN entry =>
    rcases h3 entry with h | h
    · exact ⟨[], by rw [h]; simp⟩
    · rw [h]; exact sameSession_PushStatus _ _ _ _
  | PSSIGNFINALTX l => exact ⟨[], by rw [h4]; simp⟩
  | other =>
    refine ⟨[], ?_⟩
    simp only [ProcessMessage]
    split_ifs <;> simp

/-- C33 at the sample session accepting entries, for a peer one version below the minimum. -/
theorem C33_old_peer_turned_down_before_payload_witness :
    ProcessMessage sampleParams (sampleEnv 4000) sampleOldPeer
        (Message.PSQUEUE sampleAnnouncement) sampleAccepting = sampleAccepting ∧
      ProcessMessage sampleParams (sampleEnv 4000) sampleOldPeer
        (Message.PSSIGNFINALTX [sampleSignedInput 11]) sampleAccepting = sampleAccepting :=
  have h := C33_old_peer_turned_down_before_payload sampleParams (sampleEnv 4000) sampleOldPeer
    sampleAccepting (by decide)
  ⟨h.2.1 _, h.2.2.2.1 _⟩

/-- C35: `nTimeLastSuccessfulStep` is set to the current time by a successful
`CreateNewSession`, a successful `AddUserToExistingSession` and a successful
`AddEntry`; `CheckForCompleteQueue`, `CreateFinalTransaction` and `AddScriptSig`
leave it as it was, whatever they do. -/
theorem C35_progress_time_set_by_join_and_entry_only (P : Params) (E : Env)
    (s : CPrivateSendServer) :
    (∀ nDenom tx m, (CreateNewSession P E nDenom tx m s).1 = true →
      (CreateNewSession P E nDenom tx m s).2.2.nTimeLastSuccessfulStep = E.GetTimeMillis) ∧
    (∀ nDenom tx m, (AddUserToExistingSession P E nDenom tx m s).1 = true →
      (AddUserToExistingSession P E nDenom tx m s).2.2.nTimeLastSuccessfulStep =
        E.GetTimeMillis) ∧
    (∀ entry m, (AddEntry P E entry m s).1 = true →
      (AddEntry P E entry m s).2.2.nTimeLastSuccessfulStep = E.GetTimeMillis) ∧
    (CheckForCompleteQueue P E s).nTimeLastSuccessfulStep = s.nTimeLastSuccessfulStep ∧
    (CreateFinalTransaction P E s).nTimeLastSuccessfulStep = s.nTimeLastSuccessfulStep ∧
    (∀ txin, (AddScriptSig P txin s).2.nTimeLastSuccessfulStep = s.nTimeLastSuccessfulStep) := by
  refine ⟨?_, ?_, ?_, ?_, ?_, ?_⟩
  · intro nDenom tx m
    unfold CreateNewSession
    simp only []
    repeat' split
    all_goals first
      | (intro h; simp at h; done)
      | (intro _; simp [SetState, emit])
  · intro nDenom tx m
    unfold AddUserToExistingSession
    simp only []
    repeat' split
    all_goals first
      | (intro h; simp at h; done)
      | (intro _; rfl)
  · intro entry m
    unfold AddEntry
    repeat' split
    all_goals first
      | (intro h; simp at h; done)
      | (intro _; rfl)
  · unfold CheckForCompleteQueue
    repeat' split
    all_goals first
      | rfl
      | simp [emit, SetState]
  · simp only [CreateFinalTransaction, SetState, RelayFinalTransaction_eq]
    split <;> rfl
  · intro txin
    unfold AddScriptSig
    repeat' split
    all_goals rfl

/-- C35 as first stated fails: at 3000 ms `CheckForCompleteQueue` moves the
sample session from `Queue` to `AcceptingEntries`, at 5000 ms
`CreateFinalTransaction` moves a session to `Signing`, and at 6000 ms
`AddScriptSig` accepts a signature, each leaving `nTimeLastSuccessfulStep` at
its earlier value. -/
theorem C35_counterexample :
    sampleReady.nState = POOL_STATE_QUEUE ∧
      (CheckForCompleteQueue sampleParams (sampleEnv 3000) sampleReady).nState =
        POOL_STATE_ACCEPTING_ENTRIES ∧
      (CheckForCompleteQueue sampleParams (sampleEnv 3000) sampleReady).nTimeLastSuccessfulStep =
        2000 ∧
      (CreateFinalTransaction sampleParams (sampleEnv 5000) sampleOneEntry).nState =
        POOL_STATE_SIGNING ∧
      (CreateFinalTransaction sampleParams (sampleEnv 5000) sampleOneEntry).nTimeLastSuccessfulStep =
        4000 ∧
      (AddScriptSig sampleParams (sampleSignedInput 11) sampleSigning).1 = true ∧
      (ProcessMessage sampleParams (sampleEnv 6000) (samplePeer 1)
        (Message.PSSIGNFINALTX [sampleSignedInput 11]) sampleSigning).nTimeLastSuccessfulStep =
        5000 := by
  decide

/-- C36 fails on the code: the sample session is ready after the second join
request; a third join request leaves the object as it was and is answered with
the queue-full code, but the status flag of the reply is `STATUS_ACCEPTED`, not
`STATUS_REJECTED`. -/
theorem C36_queue_full_reply_says_accepted :
    IsSessionReady sampleParams sampleReady = true ∧
      ProcessMessage sampleParams (sampleEnv 2500) (samplePeer 1)
          (Message.PSACCEPT 1 (sampleCollateral 3)) sampleReady =
        PushStatus (samplePeer 1) STATUS_ACCEPTED ERR_QUEUE_FULL sampleReady ∧
      (ProcessMessage sampleParams (sampleEnv 2500) (samplePeer 1)
          (Message.PSACCEPT 1 (sampleCollateral 3)) sampleReady).effects =
        sampleReady.effects ++ [Effect.PushMessage (samplePeer 1)
          (NetMsg.PSSTATUSUPDATE 42 POOL_STATE_QUEUE 0 STATUS_ACCEPTED ERR_QUEUE_FULL)] := by
  decide

/-- C38 fails on the code: the sample round has session id 42; when the
admission pipeline rejects its joint transaction, the `PSCOMPLETE` messages
`CommitFinalTransaction` sends carry session id 0; when the pipeline accepts
it, they carry 42. -/
theorem C38_failure_notice_carries_session_id_zero :
    sampleAllSigned.nSessionID = 42 ∧
      (CommitFinalTransaction sampleParams (sampleRejectingEnv 7000) sampleAllSigned).effects =
        sampleAllSigned.effects ++
          [Effect.PrioritiseTransaction (sampleParams.GetHash sampleAllSigned.finalMutableTransaction),
            Effect.AcceptToMemoryPool sampleAllSigned.finalMutableTransaction false,
            Effect.PushMessage (samplePeer 1) (NetMsg.PSCOMPLETE 0 ERR_INVALID_TX),
            Effect.PushMessage (samplePeer 2) (NetMsg.PSCOMPLETE 0 ERR_INVALID_TX)] ∧
      Effect.PushMessage (samplePeer 1) (NetMsg.PSCOMPLETE 42 MSG_SUCCESS) ∈
        (CommitFinalTransaction sampleParams (sampleEnv 7000) sampleAllSigned).effects := by
  decide

theorem checkOutputs_error (P : Params) (l : List CTxPSOut) (v0 : CAmount)
    (tx0 : CMutableTransaction) (m : PoolMessage)
    (h : checkOutputs P l v0 tx0 = .error m) :
    m = ERR_NON_STANDARD_PUBKEY ∨ m = ERR_INVALID_SCRIPT := by
  induction l generalizing v0 tx0 with
  | nil => simp [checkOutputs] at h
  | cons a l ih =>
    simp only [checkOutputs] at h
    split at h
    · simp only [Except.error.injEq] at h
      exact Or.inl h.symm
    split at h
    · simp only [Except.error.injEq] at h
      exact Or.inr h.symm
    exact ih _ _ h

theorem checkInputs_error (E : Env) (l : List CTxPSIn) (v0 : CAmount)
    (tx0 : CMutableTransaction) (m : PoolMessage)
    (h : checkInputs E l v0 tx0 = .error m) : m = ERR_MISSING_TX := by
  induction l generalizing v0 tx0 with
  | nil => simp [checkInputs] at h
  | cons a l ih =>
    simp only [checkInputs] at h
    split at h
    · exact ih _ _ h
    · simp only [Except.error.injEq] at h
      exact h.symm

/-- The end of the `PSVIN` branch on a facilitator: `AddEntry` either turns the
entry down with one of its four codes, and the session is reset, or takes it. -/
theorem admitEntry_cases (P : Params) (E : Env) (pfrom : CNode) (entry : CPrivateSendEntry)
    (a : CPrivateSendServer) (hD : P.fDyNode = true) :
    (∃ m ∈ addEntryRejectCodes, AddEntry P E entry MSG_NOERR a = (false, m, a) ∧
        admitEntry P E pfrom entry a = SetNull P E (PushStatus pfrom STATUS_REJECTED m a)) ∨
    ((AddEntry P E entry MSG_NOERR a).1 = true ∧
      (AddEntry P E entry MSG_NOERR a).2.2.vecEntries = a.vecEntries ++ [entry]) := by
  rcases AddEntry_cases P E entry MSG_NOERR a hD with
    ⟨_, h⟩ | ⟨_, _, h⟩ | ⟨_, _, _, h⟩ | ⟨_, _, _, _, h⟩ | ⟨_, _, _, _, h⟩
  · exact Or.inl ⟨_, by decide, h, by unfold admitEntry; rw [h]; rfl⟩
  · exact Or.inl ⟨_, by decide, h, by unfold admitEntry; rw [h]; rfl⟩
  · exact Or.inl ⟨_, by decide, h, by unfold admitEntry; rw [h]; rfl⟩
  · exact Or.inl ⟨_, by decide, h, by unfold admitEntry; rw [h]; rfl⟩
  · right
    rw [h]
    exact ⟨rfl, rfl⟩

/-- C34 fails on the code: on the sample facilitator, active and synced, in
`Signing`, a `PSSIGNFINALTX` message from a peer one protocol version below the
minimum is turned down and nothing at all is sent: the object, trace included,
is as before, whereas a `PSVIN` or `PSACCEPT` message from the same peer is
answered with a status update `STATUS_REJECTED`, `ERR_VERSION`. -/
theorem C34_old_peer_signatures_turned_down_silently :
    sampleParams.fDyNode = true ∧ sampleParams.fLiteMode = false ∧
    (sampleEnv 6000).IsBlockchainSynced = true ∧
    sampleOldPeer.nVersion < sampleParams.MIN_PRIVATESEND_PEER_PROTO_VERSION ∧
    sampleSigning.nState = POOL_STATE_SIGNING ∧
    ProcessMessage sampleParams (sampleEnv 6000) sampleOldPeer
        (Message.PSSIGNFINALTX [sampleSignedInput 11]) sampleSigning = sampleSigning ∧
    (ProcessMessage sampleParams (sampleEnv 6000) sampleOldPeer
        (Message.PSSIGNFINALTX [sampleSignedInput 11]) sampleSigning).effects =
      sampleSigning.effects ∧
    ProcessMessage sampleParams (sampleEnv 6000) sampleOldPeer
        (Message.PSVIN (sampleEntry 1 11)) sampleSigning =
      PushStatus sampleOldPeer STATUS_REJECTED ERR_VERSION sampleSigning ∧
    ProcessMessage sampleParams (sampleEnv 6000) sampleOldPeer
        (Message.PSACCEPT 1 (sampleCollateral 3)) sampleSigning =
      PushStatus sampleOldPeer STATUS_REJECTED ERR_VERSION sampleSigning := by
  decide

/-- The two ways the `PSVIN` handler ends on an active, synced facilitator:
turned down by the handler, the session as before, or handed to `AddEntry` in
a ready session, which takes the entry or turns it down, and then the session
is reset. -/
theorem psvin_cases (P : Params) (E : Env) (pfrom : CNode)
    (entry : CPrivateSendEntry) (s : CPrivateSendServer)
    (hD : P.fDyNode = true) (hL : P.fLiteMode = false) (hS : E.IsBlockchainSynced = true) :
    (SameSession s (ProcessMessage P E pfrom (Message.PSVIN entry) s) ∧
      ∃ m ∈ handlerRejectCodes, ∃ a, SameSession s a ∧
        ProcessMessage P E pfrom (Message.PSVIN entry) s =
          PushStatus pfrom STATUS_REJECTED m a) ∨
    (∃ a, SameSession s a ∧
      ProcessMessage P E pfrom (Message.PSVIN entry) s = admitEntry P E pfrom entry a ∧
      IsSessionReady P s = true ∧
      ((∃ m ∈ addEntryRejectCodes, AddEntry P E entry MSG_NOERR a = (false, m, a) ∧
          ProcessMessage P E pfrom (Message.PSVIN entry) s =
            SetNull P E (PushStatus pfrom STATUS_REJECTED m a) ∧
          (ProcessMessage P E pfrom (Message.PSVIN entry) s).vecEntries = [] ∧
          (ProcessMessage P E pfrom (Message.PSVIN entry) s).vecSessionCollaterals = [] ∧
          (ProcessMessage P E pfrom (Message.PSVIN entry) s).nSessionID = 0 ∧
          (ProcessMessage P E pfrom (Message.PSVIN entry) s).nState = POOL_STATE_IDLE) ∨
        ((AddEntry P E entry MSG_NOERR a).1 = true ∧
          (AddEntry P E entry MSG_NOERR a).2.2.vecEntries = a.vecEntries ++ [entry]))) := by
  have hPM : ProcessMessage P E pfrom (Message.PSVIN entry) s = ProcessPSVIN P E pfrom entry s := by
    simp [ProcessMessage, hD, hL, hS]
  rw [hPM]
  have hRej : ∀ (m : PoolMessage) (a : CPrivateSendServer), m ∈ handlerRejectCodes →
      SameSession s a →
      (SameSession s (PushStatus pfrom STATUS_REJECTED m a) ∧
        ∃ m2 ∈ handlerRejectCodes, ∃ a2, SameSession s a2 ∧
          PushStatus pfrom STATUS_REJECTED m a = PushStatus pfrom STATUS_REJECTED m2 a2) :=
    fun m a hm ha => ⟨ha.trans (sameSession_PushStatus _ _ _ _), m, hm, a, ha, rfl⟩
  unfold ProcessPSVIN
  simp only []
  split
  · exact Or.inl (hRej _ _ (by decide) (SameSession.refl s))
  split
  · exact Or.inl (hRej _ _ (by decide) (SameSession.refl s))
  split
  · exact Or.inl (hRej _ _ (by decide) (SameSession.refl s))
  split
  · exact Or.inl (hRej _ _ (by decide) (SameSession.refl s))
  split
  · exact Or.inl (hRej _ _ (by decide) (SameSession.refl s))
  split
  · rename_i m hOut
    refine Or.inl (hRej _ _ ?_ (SameSession.refl s))
    rcases checkOutputs_error _ _ _ _ _ hOut with h | h <;> rw [h] <;> decide
  split
  · rename_i m hIn
    refine Or.inl (hRej _ _ ?_ (SameSession.refl s))
    rw [checkInputs_error _ _ _ _ _ hIn]
    decide
  have hA : ∀ tx, SameSession s
      (AcceptToMemoryPool E tx (emit (Effect.PrioritiseTransaction (P.GetHash tx)) s)).2 :=
    fun tx => (sameSession_emit _ s).trans (sameSession_AcceptToMemoryPool E tx _)
  split
  · exact Or.inl (hRej _ _ (by decide) (SameSession.refl s))
  split
  · exact Or.inl (hRej _ _ (by decide) (hA _))
  have hReady : IsSessionReady P s = true := by
    simpa using ‹¬(!IsSessionReady P s) = true›
  refine Or.inr ⟨_, hA _, rfl, hReady, ?_⟩
  rcases admitEntry_cases P E pfrom entry _ hD with ⟨m, hm, h1, h2⟩ | h
  · exact Or.inl ⟨m, hm, h1, h2, by rw [h2]; exact ⟨rfl, rfl, rfl, rfl⟩⟩
  · exact Or.inr h

/-- C37: on an active, synced facilitator the `PSVIN` handler ends in one of
two ways. Either it turns the entry down before `AddEntry` is called, with one
of the handler's codes (version, session not ready, too many inputs or
outputs, incompatible denomination, non-standard or invalid script, missing
input, non-zero fee, pipeline rejection): then the object is as before except
that the trace has grown, its last record being the `STATUS_REJECTED` status
update to the sender. Or it calls `AddEntry` on an object that differs from
the one before by trace records only: then either `AddEntry` turns the entry
down with one of its four codes (null input, invalid collateral, round full,
duplicate input) and the handler resets the session, so that afterwards there
are no entries, no session collaterals, session id 0 and state `Idle`,
whatever entries were admitted before; or `AddEntry` takes the entry. -/
theorem C37_entry_rejection_resets_only_in_AddEntry (P : Params) (E : Env) (pfrom : CNode)
    (entry : CPrivateSendEntry) (s : CPrivateSendServer)
    (hD : P.fDyNode = true) (hL : P.fLiteMode = false) (hS : E.IsBlockchainSynced = true) :
    (SameSession s (ProcessMessage P E pfrom (Message.PSVIN entry) s) ∧
      ∃ m ∈ handlerRejectCodes, ∃ a, SameSession s a ∧
        ProcessMessage P E pfrom (Message.PSVIN entry) s =
          PushStatus pfrom STATUS_REJECTED m a) ∨
    (∃ a, SameSession s a ∧
      ProcessMessage P E pfrom (Message.PSVIN entry) s = admitEntry P E pfrom entry a ∧
      ((∃ m ∈ addEntryRejectCodes, AddEntry P E entry MSG_NOERR a = (false, m, a) ∧
          ProcessMessage P E pfrom (Message.PSVIN entry) s =
            SetNull P E (PushStatus pfrom STATUS_REJECTED m a) ∧
          (ProcessMessage P E pfrom (Message.PSVIN entry) s).vecEntries = [] ∧
          (ProcessMessage P E pfrom (Message.PSVIN entry) s).vecSessionCollaterals = [] ∧
          (ProcessMessage P E pfrom (Message.PSVIN entry) s).nSessionID = 0 ∧
          (ProcessMessage P E pfrom (Message.PSVIN entry) s).nState = POOL_STATE_IDLE) ∨
        ((AddEntry P E entry MSG_NOERR a).1 = true ∧
          (AddEntry P E entry MSG_NOERR a).2.2.vecEntries = a.vecEntries ++ [entry]))) := by
  rcases psvin_cases P E pfrom entry s hD hL hS with h | ⟨a, h1, h2, _, h3⟩
  · exact Or.inl h
  · exact Or.inr ⟨a, h1, h2, h3⟩

/-- C37 at the sample session holding the first participant's entry: an entry
whose outputs are worth twice its input is turned down by the handler and the
admitted entry stays, while an entry spending the same previous output is
turned down by `AddEntry` and the session, the admitted entry with it, is
gone. -/
theorem C37_entry_rejection_resets_only_in_AddEntry_witness :
    sampleOneEntry.vecEntries = [sampleEntry 1 11] ∧
    (ProcessMessage sampleParams (sampleEnv 5000) (samplePeer 2)
        (Message.PSVIN (sampleUnbalancedEntry 2 10)) sampleOneEntry).vecEntries =
      [sampleEntry 1 11] ∧
    (ProcessMessage sampleParams (sampleEnv 5000) (samplePeer 2)
        (Message.PSVIN (sampleRivalEntry 11)) sampleOneEntry).vecEntries = [] ∧
    (ProcessMessage sampleParams (sampleEnv 5000) (samplePeer 2)
        (Message.PSVIN (sampleRivalEntry 11)) sampleOneEntry).nState = POOL_STATE_IDLE := by
  refine ⟨by decide, ?_, ?_⟩
  · rcases C37_entry_rejection_resets_only_in_AddEntry sampleParams (sampleEnv 5000)
        (samplePeer 2) (sampleUnbalancedEntry 2 10) sampleOneEntry rfl rfl rfl with
      ⟨h, _⟩ | ⟨_, _, _, ⟨_, _, _, _, h, _⟩ | _⟩
    · rw [h.vecEntries]
      decide
    · exact absurd h (by decide)
    · decide
  · rcases C37_entry_rejection_resets_only_in_AddEntry sampleParams (sampleEnv 5000)
        (samplePeer 2) (sampleRivalEntry 11) sampleOneEntry rfl rfl rfl with
      ⟨h, _⟩ | ⟨_, _, _, ⟨_, _, _, _, h1, _, _, h2⟩ | _⟩
    · exact absurd h.vecEntries (by decide)
    · exact ⟨h1, h2⟩
    · decide

theorem roundKept_refl (s : CPrivateSendServer) : RoundKept s s := ⟨rfl, le_refl _⟩

theorem roundKept_trans {s t u : CPrivateSendServer} (h1 : RoundKept s t) (h2 : RoundKept t u) :
    RoundKept s u := ⟨h2.1.trans h1.1, le_trans h1.2 h2.2⟩

theorem RoundKept.signingFull {P : Params} {s t : CPrivateSendServer} (h : RoundKept s t)
    (hs : SigningFull P s) : SigningFull P t := by
  intro ht
  exact le_trans (hs (h.1 ▸ ht)) h.2

theorem SameSession.roundKept {s t : CPrivateSendServer} (h : SameSession s t) :
    RoundKept s t := by
  obtain ⟨l, rfl⟩ := h; exact ⟨rfl, le_refl _⟩

theorem signingFull_of_ne (P : Params) {t : CPrivateSendServer}
    (h : t.nState ≠ POOL_STATE_SIGNING) : SigningFull P t :=
  fun ht => absurd ht h

theorem SetNull_signingFull (P : Params) (E : Env) (s : CPrivateSendServer) :
    SigningFull P (SetNull P E s) :=
  signingFull_of_ne P (by rw [SetNull_nState]; decide)

theorem AddEntry_roundKept (P : Params) (E : Env) (e : CPrivateSendEntry) (m : PoolMessage)
    (s : CPrivateSendServer) : RoundKept s (AddEntry P E e m s).2.2 := by
  unfold AddEntry
  repeat' split
  all_goals first
    | exact ⟨rfl, le_refl _⟩
    | exact ⟨rfl, by simp [GetEntriesCount]⟩

theorem addScriptSigs_roundKept (P : Params) (l : List CTxIn) (s : CPrivateSendServer) :
    RoundKept s (addScriptSigs P l s).2 := by
  refine ⟨addScriptSigs_nState P l s, ?_⟩
  have h := congrArg List.length (addScriptSigs_prevouts P l s)
  simp only [List.length_map] at h
  unfold GetEntriesCount
  omega

theorem CommitFinalTransaction_signingFull (P : Params) (E : Env) (s : CPrivateSendServer)
    (hs : SigningFull P s) : SigningFull P (CommitFinalTransaction P E s) := by
  unfold CommitFinalTransaction
  simp only []
  repeat' split
  all_goals first
    | exact hs
    | exact (sameSession_RelayCompletedTransaction _ _ _ _).roundKept.signingFull
        (SetNull_signingFull _ _ _)
    | exact SetNull_signingFull _ _ _

theorem CheckPool_signingFull (P : Params) (E : Env) (s : CPrivateSendServer)
    (hs : SigningFull P s) : SigningFull P (CheckPool P E s) := by
  unfold CheckPool
  split
  · rename_i h
    intro _
    unfold GetEntriesCount at *
    rw [CreateFinalTransaction_vecEntries]
    exact h.2.2
  · split
    · exact CommitFinalTransaction_signingFull P E s hs
    · split
      · exact SetNull_signingFull P E s
      · exact hs

theorem CheckTimeout_signingFull (P : Params) (E : Env) (s : CPrivateSendServer)
    (hs : SigningFull P s) : SigningFull P (CheckTimeout P E s) := by
  have h1 : RoundKept s { s with
      vecPrivatesendQueue :=
        s.vecPrivatesendQueue.filter (fun q => !CPrivatesendQueue_IsExpired P E q) } :=
    ⟨rfl, le_refl _⟩
  unfold CheckTimeout
  by_cases hl : E.lockPS = true <;> by_cases hd : P.fDyNode = true <;> simp [hl, hd]
  all_goals first
    | exact hs
    | exact h1.signingFull hs
    | skip
  split_ifs
  all_goals first
    | exact h1.signingFull hs
    | (rw [SetState_error P _ hd]; exact SetNull_signingFull _ _ _)

theorem CheckForCompleteQueue_signingFull (P : Params) (E : Env) (s : CPrivateSendServer)
    (hs : SigningFull P s) : SigningFull P (CheckForCompleteQueue P E s) := by
  unfold CheckForCompleteQueue
  split
  · exact hs
  · split
    · exact signingFull_of_ne P (by simp [emit, SetState])
    · exact hs

theorem CreateNewSession_signingFull (P : Params) (E : Env) (nDenom : Int) (tx : CTransaction)
    (m : PoolMessage) (s : CPrivateSendServer) (hs : SigningFull P s) :
    SigningFull P (CreateNewSession P E nDenom tx m s).2.2 := by
  unfold CreateNewSession
  simp only []
  repeat' split
  all_goals first
    | exact hs
    | exact signingFull_of_ne P (by simp [emit, SetState])

theorem AddUserToExistingSession_signingFull (P : Params) (E : Env) (nDenom : Int)
    (tx : CTransaction) (m : PoolMessage) (s : CPrivateSendServer) (hs : SigningFull P s) :
    SigningFull P (AddUserToExistingSession P E nDenom tx m s).2.2 := by
  unfold AddUserToExistingSession
  simp only []
  repeat' split
  all_goals exact hs

theorem ProcessPSACCEPT_signingFull (P : Params) (E : Env) (pfrom : CNode) (nDenom : Int)
    (tx : CTransaction) (s : CPrivateSendServer) (hs : SigningFull P s) :
    SigningFull P (ProcessPSACCEPT P E pfrom nDenom tx s) := by
  unfold ProcessPSACCEPT
  simp only []
  repeat' split
  all_goals refine (sameSession_PushStatus _ _ _ _).roundKept.signingFull ?_
  all_goals first
    | exact hs
    | exact CreateNewSession_signingFull P E nDenom tx _ s hs
    | exact AddUserToExistingSession_signingFull P E nDenom tx _ s hs

theorem ProcessPSQUEUE_roundKept (P : Params) (E : Env) (pfrom : CNode) (psq : CPrivatesendQueue)
    (s : CPrivateSendServer) : RoundKept s (ProcessPSQUEUE P E pfrom psq s) := by
  unfold ProcessPSQUEUE
  simp only []
  repeat' split
  all_goals exact ⟨rfl, le_refl _⟩

theorem admitEntry_signingFull (P : Params) (E : Env) (pfrom : CNode) (entry : CPrivateSendEntry)
    (s : CPrivateSendServer) (hs : SigningFull P s) :
    SigningFull P (admitEntry P E pfrom entry s) := by
  unfold admitEntry
  simp only []
  split
  · refine (sameSession_RelayStatus _ _ _ _ _).roundKept.signingFull ?_
    refine CheckPool_signingFull P E _ ?_
    exact (sameSession_PushStatus _ _ _ _).roundKept.signingFull
      ((AddEntry_roundKept P E entry MSG_NOERR s).signingFull hs)
  · exact SetNull_signingFull _ _ _

theorem ProcessPSVIN_signingFull (P : Params) (E : Env) (pfrom : CNode) (entry : CPrivateSendEntry)
    (s : CPrivateSendServer) (hs : SigningFull P s) :
    SigningFull P (ProcessPSVIN P E pfrom entry s) := by
  have ha : ∀ e, SigningFull P
      (AcceptToMemoryPool E e (emit (Effect.PrioritiseTransaction (P.GetHash e)) s)).2 :=
    fun e => ((sameSession_emit _ s).trans
      (sameSession_AcceptToMemoryPool E e _)).roundKept.signingFull hs
  unfold ProcessPSVIN
  simp only []
  repeat' split
  all_goals first
    | exact (sameSession_PushStatus _ _ _ _).roundKept.signingFull hs
    | exact (sameSession_PushStatus _ _ _ _).roundKept.signingFull (ha _)
    | exact admitEntry_signingFull P E pfrom entry _ (ha _)

theorem ProcessPSSIGNFINALTX_signingFull (P : Params) (E : Env) (pfrom : CNode) (l : List CTxIn)
    (s : CPrivateSendServer) (hs : SigningFull P s) :
    SigningFull P (ProcessPSSIGNFINALTX P E pfrom l s) := by
  unfold ProcessPSSIGNFINALTX
  simp only []
  repeat' split
  · exact hs
  · exact (sameSession_RelayStatus _ _ _ _ _).roundKept.signingFull
      ((addScriptSigs_roundKept P l s).signingFull hs)
  · exact CheckPool_signingFull P E _ ((addScriptSigs_roundKept P l s).signingFull hs)

theorem ProcessMessage_signingFull (P : Params) (E : Env) (pfrom : CNode) (msg : Message)
    (s : CPrivateSendServer) (hs : SigningFull P s) :
    SigningFull P (ProcessMessage P E pfrom msg s) := by
  unfold ProcessMessage
  repeat' split
  all_goals first
    | exact hs
    | exact ProcessPSACCEPT_signingFull _ _ _ _ _ _ hs
    | exact (ProcessPSQUEUE_roundKept ..).signingFull hs
    | exact ProcessPSVIN_signingFull _ _ _ _ _ hs
    | exact ProcessPSSIGNFINALTX_signingFull _ _ _ _ _ hs

/-- In every state the coordinator operations lead to, a session in `Signing`
holds a full round of entries. -/
theorem reachable_signingFull (P : Params) (s : CPrivateSendServer) (h : Reachable P s) :
    SigningFull P s := by
  induction h with
  | init s h0 => exact signingFull_of_ne P (by rw [h0.1]; decide)
  | step s t _ hst ih =>
    cases hst with
    | processMessage E pfrom msg => exact ProcessMessage_signingFull _ _ _ _ _ ih
    | addEntry E e m => exact (AddEntry_roundKept ..).signingFull ih
    | checkPool E => exact CheckPool_signingFull _ _ _ ih
    | checkTimeout E => exact CheckTimeout_signingFull _ _ _ ih
    | checkForCompleteQueue E => exact CheckForCompleteQueue_signingFull _ _ _ ih
    | setNull E => exact SetNull_signingFull _ _ _

/-- A successful `AddEntry` found the round not full. -/
theorem AddEntry_true_room (P : Params) (E : Env) (e : CPrivateSendEntry) (m : PoolMessage)
    (s : CPrivateSendServer) (h : (AddEntry P E e m s).1 = true) :
    GetEntriesCount s < P.GetMaxPoolTransactions := by
  unfold AddEntry at h
  repeat' split at h
  all_goals first
    | (simp at h; done)
    | skip
  rename_i hFull _
  simpa using hFull

theorem sampleReady_reachable : Reachable sampleParams sampleReady :=
  Reachable.step _ _ sampleQueued_reachable
    (Step.processMessage (sampleEnv 2000) (samplePeer 2)
      (Message.PSACCEPT 1 (sampleCollateral 2)) sampleQueued)

/-- C39 as stated fails: the sample session right after the second join
request is reachable, ready and still in `Queue`, the timer tick not having
moved it to `AcceptingEntries` yet, and the `PSVIN` handler admits the first
participant's entry there; and `AddEntry`, called on the idle facilitator right
after construction, admits an entry too. -/
theorem C39_counterexample :
    Reachable sampleParams sampleReady ∧ sampleReady.nState = POOL_STATE_QUEUE ∧
    sampleReady.vecEntries = [] ∧
    (ProcessMessage sampleParams (sampleEnv 2500) (samplePeer 1)
        (Message.PSVIN (sampleEntry 1 11)) sampleReady).vecEntries = [sampleEntry 1 11] ∧
    sampleInitial.nState = POOL_STATE_IDLE ∧
    (AddEntry sampleParams (sampleEnv 500) (sampleEntry 1 11) MSG_NOERR sampleInitial).1 = true ∧
    (AddEntry sampleParams (sampleEnv 500) (sampleEntry 1 11) MSG_NOERR
        sampleInitial).2.2.vecEntries = [sampleEntry 1 11] :=
  ⟨sampleReady_reachable, by decide, by decide, by decide, by decide, by decide, by decide⟩

/-- C39, amended: in every state the coordinator operations lead to, (1) if the
`PSVIN` handler appends the entry to the session, then the session was ready,
had a non-zero id and room for an entry, and the state was `Queue` or
`AcceptingEntries`: the handler never admits an entry in `Idle`, `Signing`,
`Success` or `Error`, its test being the readiness of the session and not the
state; (2) if `AddEntry` itself succeeds, the state was `Idle`, `Queue` or
`AcceptingEntries`: never `Signing`, `Success` or `Error`. -/
theorem C39_entry_admitted_only_before_signing (P : Params) (s : CPrivateSendServer)
    (hR : Reachable P s) (E : Env) (pfrom : CNode) (entry : CPrivateSendEntry) :
    ((ProcessMessage P E pfrom (Message.PSVIN entry) s).vecEntries = s.vecEntries ++ [entry] →
      IsSessionReady P s = true ∧ s.nSessionID ≠ 0 ∧
      GetEntriesCount s < P.GetMaxPoolTransactions ∧
      (s.nState = POOL_STATE_QUEUE ∨ s.nState = POOL_STATE_ACCEPTING_ENTRIES)) ∧
    (∀ m, (AddEntry P E entry m s).1 = true →
      GetEntriesCount s < P.GetMaxPoolTransactions ∧
      (s.nState = POOL_STATE_IDLE ∨ s.nState = POOL_STATE_QUEUE ∨
        s.nState = POOL_STATE_ACCEPTING_ENTRIES)) := by
  have hCoh := reachable_coherent P s hR
  have hFull := reachable_signingFull P s hR
  have hState : GetEntriesCount s < P.GetMaxPoolTransactions →
      (s.nSessionID = 0 ∧ s.nState = POOL_STATE_IDLE ∧ s.vecSessionCollaterals = []) ∨
      (s.nSessionID ≠ 0 ∧
        (s.nState = POOL_STATE_QUEUE ∨ s.nState = POOL_STATE_ACCEPTING_ENTRIES)) := by
    intro hlt
    rcases hCoh with h | ⟨h1, h2⟩ | ⟨h1, h2 | h2, _⟩
    · exact Or.inl h
    · exact Or.inr ⟨h1, Or.inl h2⟩
    · exact Or.inr ⟨h1, Or.inr h2⟩
    · have := hFull h2
      omega
  refine ⟨?_, ?_⟩
  · intro hApp
    by_cases hD : P.fDyNode = true
    swap
    · have h : ProcessMessage P E pfrom (Message.PSVIN entry) s = s := by
        simp [ProcessMessage, hD]
      rw [h] at hApp
      simp at hApp
    by_cases hL : P.fLiteMode = false
    swap
    · have h : ProcessMessage P E pfrom (Message.PSVIN entry) s = s := by
        simp [ProcessMessage, hL]
      rw [h] at hApp
      simp at hApp
    by_cases hS : E.IsBlockchainSynced = true
    swap
    · have h : ProcessMessage P E pfrom (Message.PSVIN entry) s = s := by
        simp [ProcessMessage, hS]
      rw [h] at hApp
      simp at hApp
    rcases psvin_cases P E pfrom entry s hD hL hS with
      ⟨h, _⟩ | ⟨a, ha, _, hReady, ⟨_, _, _, _, hnil, _⟩ | ⟨h1, _⟩⟩
    · rw [h.vecEntries] at hApp
      simp at hApp
    · rw [hnil] at hApp
      simp at hApp
    · have hlt := AddEntry_true_room P E entry MSG_NOERR a h1
      have hlt2 : GetEntriesCount s < P.GetMaxPoolTransactions := by
        unfold GetEntriesCount at hlt ⊢
        rw [ha.vecEntries] at hlt
        exact hlt
      rcases hState hlt2 with ⟨_, _, h0⟩ | ⟨h1, h2⟩
      · unfold IsSessionReady at hReady
        rw [h0] at hReady
        simp at hReady
        omega
      · exact ⟨hReady, h1, hlt2, h2⟩
  · intro m hm
    have hlt := AddEntry_true_room P E entry m s hm
    refine ⟨hlt, ?_⟩
    rcases hState hlt with ⟨_, h, _⟩ | ⟨_, h | h⟩
    · exact Or.inl h
    · exact Or.inr (Or.inl h)
    · exact Or.inr (Or.inr h)

/-- C39, amended, at the sample session accepting entries, where the handler
appends the first participant's entry: the session is ready there and not yet
full. -/
theorem C39_entry_admitted_only_before_signing_witness :
    Reachable sampleParams sampleAccepting ∧
    (ProcessMessage sampleParams (sampleEnv 4000) (samplePeer 1)
        (Message.PSVIN (sampleEntry 1 11)) sampleAccepting).vecEntries =
      sampleAccepting.vecEntries ++ [sampleEntry 1 11] ∧
    IsSessionReady sampleParams sampleAccepting = true ∧
    GetEntriesCount sampleAccepting < sampleParams.GetMaxPoolTransactions :=
  ⟨sampleAccepting_reachable, by decide,
    ((C39_entry_admitted_only_before_signing sampleParams sampleAccepting
      sampleAccepting_reachable (sampleEnv 4000) (samplePeer 1) (sampleEntry 1 11)).1
        (by decide)).1,
    ((C39_entry_admitted_only_before_signing sampleParams sampleAccepting
      sampleAccepting_reachable (sampleEnv 4000) (samplePeer 1) (sampleEntry 1 11)).1
        (by decide)).2.2.1⟩

/-- C40 fails on the code: with requests kept for 60 seconds, the request
recorded at second 100 expires at second 160. At second 160
`HasFulfilledRequest` returns false for it, since its test is
`expiry > now`, yet `CheckAndRemove` run at second 160 removes nothing, since
its test is `now > expiry`: the pair remains and is still reported as not
fulfilled at that same second. One second earlier the request is reported
fulfilled and kept, one second later it is removed and its address with it. -/
theorem C40_CheckAndRemove_keeps_request_reported_unfulfilled :
    sampleFulfilled.mapFulfilledRequests = [({ ip := 167772161, port := 0 }, [("psq", 160)])] ∧
    HasFulfilledRequest sampleChain 160 sampleService "psq" sampleFulfilled = false ∧
    CheckAndRemove 160 sampleFulfilled = sampleFulfilled ∧
    HasFulfilledRequest sampleChain 160 sampleService "psq"
      (CheckAndRemove 160 sampleFulfilled) = false ∧
    HasFulfilledRequest sampleChain 159 sampleService "psq" sampleFulfilled = true ∧
    CheckAndRemove 159 sampleFulfilled = sampleFulfilled ∧
    (CheckAndRemove 161 sampleFulfilled).mapFulfilledRequests = [] := by
  decide

end PrivateSend
